import Mathlib

/-!
# OpenXcom battlescape terrain physics: `TerrainModifier`

A shallow embedding of `src/Battlescape/TerrainModifier.cpp` and theorems about it.

Conventions of the embedding:

* C++ `int` values are mathematical integers (`Int`); signed overflow is undefined
  behaviour in C++ and does not occur for coordinates of a battlescape.
* C++ `/` and `%` on `int` truncate toward zero: they are `Int.tdiv` and `Int.tmod`.
* A null pointer is `none`.
* Operations that can fail at run time return `Except Fault _`.
-/

namespace OpenXcom

/-! ## Data model -/

/-- Run-time failures of the embedded code. -/
inductive Fault where
  /-- The exception `std::out_of_range` thrown by `std::vector::at`. -/
  | outOfRange
  /-- A read past the end of a fixed-size C array (undefined behaviour). -/
  | undefinedRead
  /-- A dereference of a null pointer (undefined behaviour). -/
  | nullPointer
  /-- The iteration budget of a modelled loop ran out before its exit condition held. -/
  | outOfFuel
deriving DecidableEq, Repr

deriving instance DecidableEq for Except

/-- Integer triple `Position(x, y, z)`, used for tiles, voxels and vectors. -/
structure Position where
  x : Int
  y : Int
  z : Int
deriving DecidableEq, Repr

/-- Modelled from the spec: `Position::operator+`, the sum of two positions as vectors. -/
instance : Add Position := ⟨fun a b => ⟨a.x + b.x, a.y + b.y, a.z + b.z⟩⟩

/-- Modelled from the spec: `Position::operator-`, the difference of two positions. -/
instance : Sub Position := ⟨fun a b => ⟨a.x - b.x, a.y - b.y, a.z - b.z⟩⟩

/-- Modelled from the spec: the enumeration `ItemDamageType` (declared in `RuleItem.h`),
restricted to the energy types the spec lists: none (pure vision), kinetic/AP,
incendiary, high-explosive, plasma and smoke. -/
inductive ItemDamageType where
  | DT_NONE
  | DT_AP
  | DT_IN
  | DT_HE
  | DT_PLASMA
  | DT_SMOKE
deriving DecidableEq, Repr

/-- Modelled from the spec: the read-only terrain-part descriptor `MapData`
(declared in `MapData.h`): blockage per energy type (`getBlock`), loft bitmap id per
vertical half-slice (`getLoftID`), armor and light-source strength. -/
structure MapData where
  getBlock : ItemDamageType → Int
  getLoftID : Int → Int
  getArmor : Int := 0
  getLightSource : Int := 0

/-- Modelled from the spec: index of the floor part, `MapData::O_FLOOR`; the floor is the
first of the four parts of a tile. -/
def MapData.O_FLOOR : Int := 0

/-- Modelled from the spec: index of the north wall part, `MapData::O_NORTHWALL`. The spec
lists the parts in the order floor, north wall, west wall, object; the theorems use the
wall and object indices by name only. -/
def MapData.O_NORTHWALL : Int := 1

/-- Modelled from the spec: index of the west wall part, `MapData::O_WESTWALL`. -/
def MapData.O_WESTWALL : Int := 2

/-- Modelled from the spec: index of the interior object part, `MapData::O_OBJECT`. -/
def MapData.O_OBJECT : Int := 3

/-- Modelled from the spec: the faction of a unit, `UnitFaction`. -/
inductive UnitFaction where
  | FACTION_PLAYER
  | FACTION_HOSTILE
  | FACTION_NEUTRAL
deriving DecidableEq, Repr

/-- Modelled from the spec: the part of `BattleUnit` that this file reads. `id` stands for
the identity (address) of the unit object, `getId` is the number that `getId()` returns,
`getDirection` the facing (0 is north, clockwise) and `getReactionScore` the reaction
score. -/
structure BattleUnit where
  id : Nat
  isKneeled : Bool
  getKneelHeight : Int
  getStandHeight : Int
  gotLoftemps : Int
  getFaction : UnitFaction := UnitFaction.FACTION_PLAYER
  isOut : Bool := false
  getPosition : Position := ⟨0, 0, 0⟩
  getDirection : Int := 0
  getId : Int := 0
  getReactionScore : ℚ := 0
deriving DecidableEq, Repr

/-- Modelled from the spec: the part of `Tile` read by this file: its position, its
four optional parts (`getMapData`), the open-UFO-door test per part (`isUfoDoorOpen`),
the occupying unit (`getUnit`), the smoke and fire levels, the intensity of each of
the three light layers (`light`: 0 ambient, 1 static, 2 dynamic), the terrain level, the
shade and the flammability. -/
structure Tile where
  getPosition : Position
  getMapData : Int → Option MapData := fun _ => none
  isUfoDoorOpen : Int → Bool := fun _ => false
  getUnit : Option BattleUnit := none
  getSmoke : Int := 0
  getFire : Int := 0
  light : Int → Int := fun _ => 0
  getTerrainLevel : Int := 0
  getShade : Int := 0
  getFlammability : Int := 0

/-- Modelled from the spec: a weapon, `BattleItem`, with the number of rounds in the ammo
item loaded in it: `getAmmoItem` is absent when no ammo item is loaded. -/
structure BattleItem where
  id : Nat
  getAmmoItem : Option Int := none
deriving DecidableEq, Repr

/-- Modelled from the spec: the world grid `SavedBattleGame`: its dimensions, its tiles
(`tiles pos` is the tile object stored at grid position `pos`), the global shade, the
units, the side whose turn it is, the debug mode and the weapon in the main hand of a
unit. -/
structure SavedBattleGame where
  getWidth : Int
  getLength : Int
  getHeight : Int
  tiles : Position → Tile
  getGlobalShade : Int := 0
  getUnits : List BattleUnit := []
  getSide : UnitFaction := UnitFaction.FACTION_PLAYER
  getDebugMode : Bool := false
  getMainHandWeapon : BattleUnit → Option BattleItem := fun _ => none

/-- Modelled from the spec: `SavedBattleGame::getTile`, the tile accessor by (x,y,z);
a coordinate outside the grid is "no tile" (a null pointer). -/
def SavedBattleGame.getTile (save : SavedBattleGame) (pos : Position) : Option Tile :=
  if pos.x < 0 ∨ pos.y < 0 ∨ pos.z < 0
      ∨ pos.x ≥ save.getWidth ∨ pos.y ≥ save.getLength ∨ pos.z ≥ save.getHeight then
    none
  else
    some (save.tiles pos)

/-! ## Blockage model -/

/-- The function `TerrainModifier::blockage`: the amount this wall or floor part of the tile blocks. -/
def blockage (tile : Option Tile) (part : Int) (type : ItemDamageType) : Int :=
  match tile with
  | none => 0
  | some tile =>
    if part = MapData.O_FLOOR ∧ (tile.getMapData MapData.O_FLOOR).isSome then
      if type = ItemDamageType.DT_HE then 15 else 255
    else
      let blockage : Int :=
        match tile.getMapData part with
        | some mp => mp.getBlock type
        | none => 0
      if tile.isUfoDoorOpen part then 0 else blockage

/-- The `down` loop of `verticalBlockage`: `for (z = z; z > zEnd; z--) block += ...`. -/
def verticalBlockageDown (save : SavedBattleGame) (x y zEnd : Int) (type : ItemDamageType) :
    Nat → Int → Int → Except Fault Int
  | 0, z, block => if z > zEnd then .error .outOfFuel else .ok block
  | fuel + 1, z, block =>
    if z > zEnd then
      verticalBlockageDown save x y zEnd type fuel (z - 1)
        (block + blockage (save.getTile ⟨x, y, z⟩) MapData.O_FLOOR type)
    else .ok block

/-- The `up` loop of `verticalBlockage`: `for (z = z; z <= zEnd; z++) block += ...`. -/
def verticalBlockageUp (save : SavedBattleGame) (x y zEnd : Int) (type : ItemDamageType) :
    Nat → Int → Int → Except Fault Int
  | 0, z, block => if z ≤ zEnd then .error .outOfFuel else .ok block
  | fuel + 1, z, block =>
    if z ≤ zEnd then
      verticalBlockageUp save x y zEnd type fuel (z + 1)
        (block + blockage (save.getTile ⟨x, y, z⟩) MapData.O_FLOOR type)
    else .ok block

/-- The function `TerrainModifier::verticalBlockage`: the power blocked going from one tile to another
on a different level. The loops get as many iterations as levels are crossed. -/
def verticalBlockage (save : SavedBattleGame) (startTile endTile : Option Tile)
    (type : ItemDamageType) : Except Fault Int :=
  match startTile, endTile with
  | some startTile, some endTile =>
    let direction := endTile.getPosition.z - startTile.getPosition.z
    let x := startTile.getPosition.x
    let y := startTile.getPosition.y
    if direction < 0 then
      verticalBlockageDown save x y endTile.getPosition.z type direction.natAbs
        startTile.getPosition.z 0
    else if direction > 0 then
      verticalBlockageUp save x y endTile.getPosition.z type direction.natAbs
        (startTile.getPosition.z + 1) 0
    else .ok 0
  | _, _ => .ok 0

/-! ## Direction from vector -/

/-- The table `int x[8]` of `vectorToDirection`. -/
def vectorToDirection.x : List Int := [0, 1, 1, 1, 0, -1, -1, -1]

/-- The table `int y[8]` of `vectorToDirection`. -/
def vectorToDirection.y : List Int := [1, 1, 0, -1, -1, -1, 0, 1]

/-- The loop body of `vectorToDirection` over the remaining values of `i`: `x[i]` is read
first, `y[i]` only when `x[i]` matched (`&&` short-circuits); a read at an index outside
the 8-element table is a fault. -/
def vectorToDirection.loop (vector : Position) : List Nat → Except Fault Int
  | [] => .ok (-1)
  | i :: rest =>
    match vectorToDirection.x[i]? with
    | none => .error .undefinedRead
    | some xi =>
      if xi = vector.x then
        match vectorToDirection.y[i]? with
        | none => .error .undefinedRead
        | some yi => if yi = vector.y then .ok i else vectorToDirection.loop vector rest
      else vectorToDirection.loop vector rest

/-- The function `TerrainModifier::vectorToDirection`: `for (int i = 0; i < 9; ++i)` over the tables. -/
def vectorToDirection (vector : Position) : Except Fault Int :=
  vectorToDirection.loop vector (List.range 9)

/-! ## Voxel collision resolver -/

/-- The accessor `std::vector<Uint16>::at(idx)` on the voxel mask table; the index is converted to an
unsigned size, so a negative one is out of range as well. -/
def voxelDataAt (voxelData : List Nat) (idx : Int) : Except Fault Nat :=
  if idx < 0 then .error .outOfRange
  else
    match voxelData[idx.toNat]? with
    | some row => .ok row
    | none => .error .outOfRange

/-- The test `(_voxelData->at(idx) & (1 << x)) == (1 << x)`. -/
def voxelBit (voxelData : List Nat) (idx x : Int) : Except Fault Bool :=
  match voxelDataAt voxelData idx with
  | .error e => .error e
  | .ok row => .ok (decide (row &&& (1 <<< x.toNat) = (1 <<< x.toNat)))

/-- The unit test of `voxelCheck`: whether the voxel hits the occupant of the tile. -/
def voxelCheck.unit (tile : Tile) (voxelData : List Nat) (voxel : Position)
    (excludeUnit : Option BattleUnit) : Except Fault Bool :=
  match tile.getUnit with
  | none => .ok false
  | some unit =>
    if some unit.id ≠ excludeUnit.map BattleUnit.id then
      if voxel.z.tmod 24
          < (if unit.isKneeled then unit.getKneelHeight else unit.getStandHeight) then
        let x := 15 - voxel.x.tmod 16
        let y := 15 - voxel.y.tmod 16
        let idx := (unit.gotLoftemps * 16) + y
        voxelBit voxelData idx x
      else .ok false
    else .ok false

/-- The loop `for (int i = 0; i < 4; ++i)` of `voxelCheck` over the remaining parts. -/
def voxelCheck.parts (tile : Tile) (voxelData : List Nat) (voxel : Position) :
    List Int → Except Fault Int
  | [] => .ok (-1)
  | i :: rest =>
    if tile.isUfoDoorOpen i then voxelCheck.parts tile voxelData voxel rest
    else
      match tile.getMapData i with
      | none => voxelCheck.parts tile voxelData voxel rest
      | some mp =>
        let x := 15 - voxel.x.tmod 16
        let y := 15 - voxel.y.tmod 16
        let idx := (mp.getLoftID ((voxel.z.tmod 24).tdiv 2) * 16) + y
        match voxelBit voxelData idx x with
        | .error e => .error e
        | .ok true => .ok i
        | .ok false => voxelCheck.parts tile voxelData voxel rest

/-- The function `TerrainModifier::voxelCheck`: the object number (0-3), unit (4), out of map (5) or
-1 (hit nothing). -/
def voxelCheck (save : SavedBattleGame) (voxelData : List Nat) (voxel : Position)
    (excludeUnit : Option BattleUnit) : Except Fault Int :=
  match save.getTile ⟨voxel.x.tdiv 16, voxel.y.tdiv 16, voxel.z.tdiv 24⟩ with
  | none => .ok 5
  | some tile =>
    match voxelCheck.unit tile voxelData voxel excludeUnit with
    | .error e => .error e
    | .ok true => .ok 4
    | .ok false => voxelCheck.parts tile voxelData voxel [0, 1, 2, 3]

/-! ## 3D line trace -/

/-- The values `calculateLine` fixes before its loop. -/
structure LineSetup where
  swap_xy : Bool
  swap_xz : Bool
  x0 : Int
  y0 : Int
  z0 : Int
  x1 : Int
  delta_x : Int
  delta_y : Int
  delta_z : Int
  step_x : Int
  step_y : Int
  step_z : Int
deriving DecidableEq, Repr

/-- The variables of the loop of `calculateLine`. -/
structure LineVars where
  x : Int
  y : Int
  z : Int
  drift_xy : Int
  drift_xz : Int
deriving DecidableEq, Repr

/-- What one run of the loop of `calculateLine` produces: the value returned, the positions
pushed onto `*trajectory`, and the voxels handed to `voxelCheck`, both in order. -/
structure LineTrace where
  result : Int
  pushed : List Position
  checked : List Position
deriving DecidableEq, Repr

/-- What `calculateLine` produces: the value returned, the final contents of `*trajectory`
(`none` for a null pointer), and the voxels handed to `voxelCheck`, in order. -/
structure LineResult where
  result : Int
  trajectory : Option (List Position)
  checked : List Position
deriving DecidableEq, Repr

/-- The head of `calculateLine`, lines 909-943: swaps, deltas and step directions. -/
def calculateLine.setup (origin target : Position) : LineSetup :=
  let x0 := origin.x
  let x1 := target.x
  let y0 := origin.y
  let y1 := target.y
  let z0 := origin.z
  let z1 := target.z
  let swap_xy := decide ((y1 - y0).natAbs > (x1 - x0).natAbs)
  let (x0, y0) := if swap_xy then (y0, x0) else (x0, y0)
  let (x1, y1) := if swap_xy then (y1, x1) else (x1, y1)
  let swap_xz := decide ((z1 - z0).natAbs > (x1 - x0).natAbs)
  let (x0, z0) := if swap_xz then (z0, x0) else (x0, z0)
  let (x1, z1) := if swap_xz then (z1, x1) else (x1, z1)
  { swap_xy := swap_xy
    swap_xz := swap_xz
    x0 := x0
    y0 := y0
    z0 := z0
    x1 := x1
    delta_x := (x1 - x0).natAbs
    delta_y := (y1 - y0).natAbs
    delta_z := (z1 - z0).natAbs
    step_x := if x0 > x1 then -1 else 1
    step_y := if y0 > y1 then -1 else 1
    step_z := if z0 > z1 then -1 else 1 }

/-- The position `(cx, cy, cz)` of lines 952-957: the loop variables, unswapped in reverse. -/
def calculateLine.unswap (s : LineSetup) (v : LineVars) : Position :=
  let cx := v.x
  let cy := v.y
  let cz := v.z
  let (cx, cz) := if s.swap_xz then (cz, cx) else (cx, cz)
  let (cx, cy) := if s.swap_xy then (cy, cx) else (cx, cy)
  ⟨cx, cy, cz⟩

/-- Lines 974-990 and the increment `x += step_x`: the loop variables of the next round. -/
def calculateLine.advance (s : LineSetup) (v : LineVars) : LineVars :=
  let drift_xy := v.drift_xy - s.delta_y
  let drift_xz := v.drift_xz - s.delta_z
  let (y, drift_xy) :=
    if drift_xy < 0 then (v.y + s.step_y, drift_xy + s.delta_x) else (v.y, drift_xy)
  let (z, drift_xz) :=
    if drift_xz < 0 then (v.z + s.step_z, drift_xz + s.delta_x) else (v.z, drift_xz)
  { x := v.x + s.step_x, y := y, z := z, drift_xy := drift_xy, drift_xz := drift_xz }

/-- The loop `for (x = x0; x != x1; x += step_x)` of `calculateLine`, for a voxel check
`check`; `hasTrajectory` is `trajectory != 0`. -/
def calculateLine.loop (check : Position → Except Fault Int)
    (storeTrajectory hasTrajectory : Bool) (s : LineSetup) :
    Nat → LineVars → Except Fault LineTrace
  | 0, v => if v.x ≠ s.x1 then .error .outOfFuel else .ok ⟨-1, [], []⟩
  | fuel + 1, v =>
    if v.x ≠ s.x1 then
      let c := calculateLine.unswap s v
      if storeTrajectory = true ∧ hasTrajectory = false then .error .nullPointer
      else
        match check c with
        | .error e => .error e
        | .ok result =>
          if result ≠ -1 then
            .ok ⟨result,
              (if storeTrajectory then [c] else [])
                ++ (if !storeTrajectory && hasTrajectory then [c] else []),
              [c]⟩
          else
            match calculateLine.loop check storeTrajectory hasTrajectory s fuel
                (calculateLine.advance s v) with
            | .error e => .error e
            | .ok r =>
              .ok ⟨r.result, if storeTrajectory then c :: r.pushed else r.pushed,
                c :: r.checked⟩
    else .ok ⟨-1, [], []⟩

/-- The run of `calculateLine` for a voxel check `check`: the loop starts at
`(x0, y0, z0)` with both drifts at `delta_x / 2` and gets `delta_x` rounds. -/
def calculateLine.run (check : Position → Except Fault Int) (origin target : Position)
    (storeTrajectory hasTrajectory : Bool) : Except Fault LineTrace :=
  let s := calculateLine.setup origin target
  calculateLine.loop check storeTrajectory hasTrajectory s s.delta_x.toNat
    ⟨s.x0, s.y0, s.z0, s.delta_x.tdiv 2, s.delta_x.tdiv 2⟩

/-- The function `TerrainModifier::calculateLine`: Bresenham line in 3D; every voxel met is handed to
`voxelCheck`. -/
def calculateLine (save : SavedBattleGame) (voxelData : List Nat) (origin target : Position)
    (storeTrajectory : Bool) (trajectory : Option (List Position))
    (excludeUnit : Option BattleUnit) : Except Fault LineResult :=
  match calculateLine.run (fun voxel => voxelCheck save voxelData voxel excludeUnit)
      origin target storeTrajectory trajectory.isSome with
  | .error e => .error e
  | .ok r => .ok ⟨r.result, trajectory.map (fun t => t ++ r.pushed), r.checked⟩

/-- The voxels `calculateLine` visits from `origin` to `target` when none of them reports
a collision: the voxels checked by its run with a voxel check that always answers -1. -/
def calculateLine.visits (origin target : Position) : List Position :=
  match calculateLine.run (fun _ => .ok (-1)) origin target false false with
  | .ok r => r.checked
  | .error _ => []

/-! ## Sample worlds -/

/-- A tile with no parts and no occupant. -/
def emptyTile (pos : Position) : Tile := { getPosition := pos }

/-- An open-terrain grid of the given dimensions: every tile is empty. -/
def emptyBattle (width length height : Int) : SavedBattleGame :=
  { getWidth := width, getLength := length, getHeight := height, tiles := emptyTile }

/-- A terrain part that blocks 100 units of every energy type and whose loft is bitmap 0
on every slice. -/
def solidPart : MapData := { getBlock := fun _ => 100, getLoftID := fun _ => 0 }

/-- A voxel mask table with the single loft bitmap 0, all of whose 16 rows are solid. -/
def solidVoxelData : List Nat := List.replicate 16 65535

/-- A tile whose part 1 is a solid wall that is an open UFO door. -/
def doorTile (pos : Position) : Tile :=
  { getPosition := pos
    getMapData := fun i => if i = 1 then some solidPart else none
    isUfoDoorOpen := fun i => decide (i = 1) }

/-- A one-tile grid holding `doorTile`. -/
def doorBattle : SavedBattleGame :=
  { getWidth := 1, getLength := 1, getHeight := 1, tiles := doorTile }

/-- A standing unit, 22 voxels high (14 when kneeling), with body loft 0. -/
def soldier : BattleUnit :=
  { id := 7, isKneeled := false, getKneelHeight := 14, getStandHeight := 22, gotLoftemps := 0 }

/-- A tile with a solid floor and `soldier` standing on it. -/
def soldierTile (pos : Position) : Tile :=
  { getPosition := pos
    getMapData := fun i => if i = 0 then some solidPart else none
    getUnit := some soldier }

/-- A one-tile grid holding `soldierTile`. -/
def soldierBattle : SavedBattleGame :=
  { getWidth := 1, getLength := 1, getHeight := 1, tiles := soldierTile }

/-! ## The blockage of one part, as specified -/

/-- The per-part blockage in the words of the spec: 0 for an absent tile; for the floor
part of a tile that has a floor, 15 against high-explosive and 255 against everything
else; otherwise the part's own blockage value for the type (0 when the part is absent),
forced to 0 when the part is an open UFO door. -/
def blockageSpec (tile : Option Tile) (part : Int) (type : ItemDamageType) : Int :=
  match tile with
  | none => 0
  | some t =>
    match part == MapData.O_FLOOR, t.getMapData MapData.O_FLOOR with
    | true, some _ =>
      match type with
      | ItemDamageType.DT_HE => 15
      | _ => 255
    | _, _ =>
      if t.isUfoDoorOpen part = true then 0
      else (t.getMapData part).elim 0 (fun mp => mp.getBlock type)

/-! ## The line trace, voxel by voxel -/

/-- The voxels the loop of `calculateLine` meets in `n` rounds from the variables `v`,
whatever the voxel check answers. -/
def calculateLine.path (s : LineSetup) : Nat → LineVars → List Position
  | 0, _ => []
  | n + 1, v => calculateLine.unswap s v :: calculateLine.path s n (calculateLine.advance s v)

/-- First-hit-wins over a list of voxels: each voxel is recorded (when the whole trajectory
is stored) and checked in turn; the first answer other than -1 is returned at once, and -1
is returned when the list is exhausted. -/
def calculateLine.scan (check : Position → Except Fault Int)
    (storeTrajectory hasTrajectory : Bool) : List Position → Except Fault LineTrace
  | [] => .ok ⟨-1, [], []⟩
  | c :: cs =>
    if storeTrajectory = true ∧ hasTrajectory = false then .error .nullPointer
    else
      match check c with
      | .error e => .error e
      | .ok result =>
        if result ≠ -1 then
          .ok ⟨result,
            (if storeTrajectory then [c] else [])
              ++ (if !storeTrajectory && hasTrajectory then [c] else []),
            [c]⟩
        else
          match calculateLine.scan check storeTrajectory hasTrajectory cs with
          | .error e => .error e
          | .ok r =>
            .ok ⟨r.result, if storeTrajectory then c :: r.pushed else r.pushed,
              c :: r.checked⟩

/-- Both drift counters lie in `[0, delta_x)`. -/
def calculateLine.Centred (s : LineSetup) (v : LineVars) : Prop :=
  0 ≤ v.drift_xy ∧ v.drift_xy < s.delta_x ∧ 0 ≤ v.drift_xz ∧ v.drift_xz < s.delta_x

/-- A step of a trace from `origin` to `target` that is connected and monotonic in the
driving axis: from `p` to `q`, every axis of greatest absolute delta moves by exactly one
toward the target, and no axis moves by more than one. -/
def calculateLine.Step (origin target p q : Position) : Prop :=
  let dx := target.x - origin.x
  let dy := target.y - origin.y
  let dz := target.z - origin.z
  let m := max (max dx.natAbs dy.natAbs) dz.natAbs
  (dx.natAbs = m → q.x - p.x = Int.sign dx)
  ∧ (dy.natAbs = m → q.y - p.y = Int.sign dy)
  ∧ (dz.natAbs = m → q.z - p.z = Int.sign dz)
  ∧ (q.x - p.x).natAbs ≤ 1 ∧ (q.y - p.y).natAbs ≤ 1 ∧ (q.z - p.z).natAbs ≤ 1

/-! ## Horizontal blockage -/

/-- The `switch (direction)` of `horizontalBlockage`: the wall and flanking-object term for
each of the eight directions; `block` stays 0 for any other value. -/
def horizontalBlockage.directional (save : SavedBattleGame) (startTile endTile : Tile)
    (direction : Int) (type : ItemDamageType) : Int :=
  let oneTileNorth : Position := ⟨0, 1, 0⟩
  let oneTileEast : Position := ⟨1, 0, 0⟩
  let oneTileSouth : Position := ⟨0, -1, 0⟩
  let oneTileWest : Position := ⟨-1, 0, 0⟩
  let start := some startTile
  let dest := some endTile
  let at_ := fun (offset : Position) => save.getTile (startTile.getPosition + offset)
  if direction = 0 then
    blockage start MapData.O_NORTHWALL type
  else if direction = 1 then
    (blockage start MapData.O_NORTHWALL type + blockage dest MapData.O_WESTWALL type).tdiv 2
      + (blockage (at_ oneTileEast) MapData.O_WESTWALL type
          + blockage (at_ oneTileEast) MapData.O_NORTHWALL type).tdiv 2
      + (blockage (at_ oneTileNorth) MapData.O_OBJECT type
          + blockage (at_ oneTileEast) MapData.O_OBJECT type).tdiv 2
  else if direction = 2 then
    blockage dest MapData.O_WESTWALL type
  else if direction = 3 then
    (blockage dest MapData.O_WESTWALL type + blockage dest MapData.O_NORTHWALL type).tdiv 2
      + (blockage (at_ oneTileEast) MapData.O_WESTWALL type
          + blockage (at_ oneTileSouth) MapData.O_NORTHWALL type).tdiv 2
      + (blockage (at_ oneTileSouth) MapData.O_OBJECT type
          + blockage (at_ oneTileEast) MapData.O_OBJECT type).tdiv 2
  else if direction = 4 then
    blockage dest MapData.O_NORTHWALL type
  else if direction = 5 then
    (blockage dest MapData.O_NORTHWALL type + blockage start MapData.O_WESTWALL type).tdiv 2
      + (blockage (at_ oneTileSouth) MapData.O_WESTWALL type
          + blockage (at_ oneTileSouth) MapData.O_NORTHWALL type).tdiv 2
      + (blockage (at_ oneTileSouth) MapData.O_OBJECT type
          + blockage (at_ oneTileWest) MapData.O_OBJECT type).tdiv 2
  else if direction = 6 then
    blockage start MapData.O_WESTWALL type
  else if direction = 7 then
    (blockage start MapData.O_WESTWALL type + blockage start MapData.O_NORTHWALL type).tdiv 2
      + (blockage (at_ oneTileNorth) MapData.O_WESTWALL type
          + blockage (at_ oneTileWest) MapData.O_NORTHWALL type).tdiv 2
      + (blockage (at_ oneTileNorth) MapData.O_OBJECT type
          + blockage (at_ oneTileWest) MapData.O_OBJECT type).tdiv 2
  else 0

/-- The function `TerrainModifier::horizontalBlockage`: the power blocked going from one
tile to another on the same level. A fault of `vectorToDirection` is passed on. -/
def horizontalBlockage (save : SavedBattleGame) (startTile endTile : Option Tile)
    (type : ItemDamageType) : Except Fault Int :=
  match startTile, endTile with
  | some startTile, some endTile =>
    match vectorToDirection (endTile.getPosition - startTile.getPosition) with
    | .error e => .error e
    | .ok direction =>
      if direction = -1 then .ok 0
      else
        .ok (horizontalBlockage.directional save startTile endTile direction type
          + blockage (some startTile) MapData.O_OBJECT type)
  | _, _ => .ok 0

/-- The loop of `vectorToDirection` over the remaining values of `i` when the two words
that lie in memory behind the tables `x` and `y` are `x8` and `y8`: the read of `x[8]`
yields `x8` and the read of `y[8]` yields `y8`. -/
def vectorToDirection.strayLoop (x8 y8 : Int) (vector : Position) : List Nat → Int
  | [] => -1
  | i :: rest =>
    if (vectorToDirection.x ++ [x8]).getD i 0 = vector.x
        ∧ (vectorToDirection.y ++ [y8]).getD i 0 = vector.y then
      i
    else vectorToDirection.strayLoop x8 y8 vector rest

/-- The function `TerrainModifier::vectorToDirection` when the reads past the end of its
tables yield the words `x8` and `y8` instead of ending the run: the index of the first
match among the nine slots scanned, or -1. -/
def vectorToDirection.withStray (x8 y8 : Int) (vector : Position) : Int :=
  vectorToDirection.strayLoop x8 y8 vector (List.range 9)

/-- The function `TerrainModifier::horizontalBlockage` when the reads of `vectorToDirection`
past the end of its tables yield the words `x8` and `y8`. -/
def horizontalBlockage.withStray (x8 y8 : Int) (save : SavedBattleGame)
    (startTile endTile : Option Tile) (type : ItemDamageType) : Int :=
  match startTile, endTile with
  | some startTile, some endTile =>
    let direction :=
      vectorToDirection.withStray x8 y8 (endTile.getPosition - startTile.getPosition)
    if direction = -1 then 0
    else
      horizontalBlockage.directional save startTile endTile direction type
        + blockage (some startTile) MapData.O_OBJECT type
  | _, _ => 0

/-- The blockage of the wall part that lies between two tiles adjacent in a cardinal
direction: the north wall of the southern tile, or the west wall of the eastern tile. -/
def horizontalBlockage.sharedWall (a b : Tile) (type : ItemDamageType) : Int :=
  if b.getPosition.y = a.getPosition.y + 1 then blockage (some a) MapData.O_NORTHWALL type
  else if b.getPosition.y = a.getPosition.y - 1 then blockage (some b) MapData.O_NORTHWALL type
  else if b.getPosition.x = a.getPosition.x + 1 then blockage (some b) MapData.O_WESTWALL type
  else blockage (some a) MapData.O_WESTWALL type

/-! ## Lighting -/

/-- Modelled from the spec: `Tile::resetLight(layer)`: the layer is set to zero and the
other layers are not disturbed. -/
def Tile.resetLight (t : Tile) (layer : Int) : Tile :=
  { t with light := fun k => if k = layer then 0 else t.light k }

/-- Modelled from the spec: `Tile::addLight(light, layer)`: the tile combines the value of
the layer with the light offered by its own rule, `accumulate current offered`, which is
the tile's responsibility and a parameter here; the other layers are not disturbed. -/
def Tile.addLight (accumulate : Int → Int → Int) (t : Tile) (light layer : Int) : Tile :=
  { t with light := fun k => if k = layer then accumulate (t.light k) light else t.light k }

/-- The grid after the tile object stored at `pos` has been changed by `f`. -/
def SavedBattleGame.modifyTile (save : SavedBattleGame) (pos : Position) (f : Tile → Tile) :
    SavedBattleGame :=
  { save with tiles := fun p => if p = pos then f (save.tiles p) else save.tiles p }

/-- Modelled from the spec: the grid positions in the order of the flat tile array
`getTiles()[i]`, `i < width * length * height` (x runs fastest, then y, then z). -/
def SavedBattleGame.indexPositions (save : SavedBattleGame) : List Position :=
  (List.range (save.getWidth * save.getLength * save.getHeight).toNat).map fun i =>
    ⟨(i : Int) % save.getWidth, ((i : Int) / save.getWidth) % save.getLength,
      (i : Int) / (save.getWidth * save.getLength)⟩

/-- The light that `calculateSunShading(tile)` hands to `tile->addLight(power, 0)`. -/
def calculateSunShading.power (save : SavedBattleGame) (tile : Tile) : Except Fault Int :=
  let power := 15 - save.getGlobalShade
  if save.getGlobalShade ≤ 5 then
    match verticalBlockage save
        (save.getTile ⟨tile.getPosition.x, tile.getPosition.y, save.getHeight - 1⟩)
        (some tile) ItemDamageType.DT_NONE with
    | .error e => .error e
    | .ok block => if block ≠ 0 then .ok (power - 2) else .ok power
  else .ok power

/-- The function `TerrainModifier::calculateSunShading(Tile *tile)`: sun shading for one
tile, on the ambient layer 0. -/
def calculateSunShading (accumulate : Int → Int → Int) (save : SavedBattleGame) (tile : Tile) :
    Except Fault SavedBattleGame :=
  let layer := 0
  match calculateSunShading.power save tile with
  | .error e => .error e
  | .ok power =>
    .ok (save.modifyTile tile.getPosition (fun t => t.addLight accumulate power layer))

/-- Search for the least `d` with `n ≤ d * d + d`, trying `d`, `d + 1`, ... -/
def addLight.nearestRoot (n : Nat) : Nat → Nat → Nat
  | 0, d => d
  | fuel + 1, d => if n ≤ d * d + d then d else addLight.nearestRoot n fuel (d + 1)

/-- The value `int(floor(sqrt(float(x*x + y*y)) + 0.5))` of `addLight`: the square root
of `x*x + y*y` rounded to the nearest integer, which is the least `d` with
`x*x + y*y ≤ d*d + d` (that is, `sqrt(x*x + y*y) < d + 1/2`). Floating point is not
modelled: for `x*x + y*y` below 2^22 = 4 194 304 the conversion to `float` is exact and
the correctly rounded square root, in single or in double precision, lies on the same side
of every half-integer `d + 1/2` as the exact one (the gap between `sqrt(d*d + d)` and
`d + 1/2` is about `1/(8d + 4)`, more than half a unit in the last place of a `float` below
2048), so the code computes this value; from 4 196 352 on the two can differ, so the
theorem about the light received bounds the power by 1000, where `x*x + y*y` stays below
2 000 000. -/
def addLight.distance (x y : Int) : Int :=
  addLight.nearestRoot (x * x + y * y).toNat (x * x + y * y).toNat 0

/-- The calls `tile->addLight(power - distance, layer)` that `addLight` makes, in order:
the tile position and the light offered. Only the positive quadrant is looped through and
mirrored; a position outside the grid gets no call. -/
def addLight.offers (save : SavedBattleGame) (center : Position) (power : Int) :
    List (Position × Int) :=
  (List.range (power + 1).toNat).flatMap fun x =>
    (List.range (power + 1).toNat).flatMap fun y =>
      (List.range save.getHeight.toNat).flatMap fun z =>
        let distance := addLight.distance x y
        ([⟨center.x + x, center.y + y, z⟩, ⟨center.x - x, center.y - y, z⟩,
          ⟨center.x - x, center.y + y, z⟩, ⟨center.x + x, center.y - y, z⟩]
            : List Position).filterMap fun p =>
          if (save.getTile p).isSome then some (p, power - distance) else none

/-- The function `TerrainModifier::addLight`: a circular light pattern around `center`. -/
def addLight (accumulate : Int → Int → Int) (save : SavedBattleGame) (center : Position)
    (power layer : Int) : SavedBattleGame :=
  (addLight.offers save center power).foldl
    (fun s offer => s.modifyTile offer.1 (fun t => t.addLight accumulate offer.2 layer)) save

/-- The body of the second loop of `calculateTerrainLighting` for the tile `getTiles()[i]`:
light of the floor, of the object and of a fire. -/
def calculateTerrainLighting.tile (accumulate : Int → Int → Int) (save : SavedBattleGame)
    (tile : Tile) : SavedBattleGame :=
  let layer := 1
  let fireLightPower := 15
  let save :=
    match tile.getMapData MapData.O_FLOOR with
    | some floor =>
      if floor.getLightSource ≠ 0 then
        addLight accumulate save tile.getPosition floor.getLightSource layer
      else save
    | none => save
  let save :=
    match tile.getMapData MapData.O_OBJECT with
    | some object =>
      if object.getLightSource ≠ 0 then
        addLight accumulate save tile.getPosition object.getLightSource layer
      else save
    | none => save
  if tile.getFire ≠ 0 then addLight accumulate save tile.getPosition fireLightPower layer
  else save

/-- The function `TerrainModifier::calculateTerrainLighting`: lighting of the terrain
(objects, fire) on the static layer 1. -/
def calculateTerrainLighting (accumulate : Int → Int → Int) (save : SavedBattleGame) :
    SavedBattleGame :=
  let layer := 1
  if save.getGlobalShade < 1 then save
  else
    let save := save.indexPositions.foldl (fun s p => s.modifyTile p (fun t => t.resetLight layer))
      save
    save.indexPositions.foldl
      (fun s p => calculateTerrainLighting.tile accumulate s (s.tiles p)) save

/-- The function `TerrainModifier::calculateUnitLighting`: lighting of the units on the
dynamic layer 2. -/
def calculateUnitLighting (accumulate : Int → Int → Int) (save : SavedBattleGame) :
    SavedBattleGame :=
  let layer := 2
  let personalLightPower := 15
  if save.getGlobalShade < 1 then save
  else
    let save := save.indexPositions.foldl (fun s p => s.modifyTile p (fun t => t.resetLight layer))
      save
    save.getUnits.foldl
      (fun s unit =>
        if unit.getFaction = UnitFaction.FACTION_PLAYER ∧ unit.isOut = false then
          addLight accumulate s unit.getPosition personalLightPower layer
        else s) save

/-! ## Explosions -/

/-- A call that the area branch of `explode` or `prepareNewTurn` makes on a tile or on a
unit. A tile is named by its grid position, a unit by its `id`. -/
inductive Effect where
  /-- The call `tile->setExplosive(power)`. -/
  | setExplosive (tile : Position) (power : Int)
  /-- The call `unit->damage(Position(0, 0, 0), power)`. -/
  | damage (unit : Nat) (power : Int)
  /-- The call `tile->destroy(part)`. -/
  | destroy (tile : Position) (part : Int)
  /-- The call `tile->addSmoke(smoke)`. -/
  | addSmoke (tile : Position) (smoke : Int)
  /-- The call `tile->ignite()`. -/
  | ignite (tile : Position)
  /-- The call `unit->setFire(turns)`. -/
  | setFire (unit : Nat) (turns : Int)
  /-- The call `tile->detonate()`. -/
  | detonate (tile : Position)
  /-- The call `unit->stun(power)`. -/
  | stun (unit : Nat) (power : Int)
deriving DecidableEq, Repr

/-- Modelled from the spec: the external generators `RNG::generate(int, int)`,
`RNG::generate(double, double)` and the normal sampler `RNG::boxMuller(mean, deviation)`;
the last argument counts the draws made before. -/
structure RNG where
  generate : Int → Int → Nat → Int
  generateReal : ℚ → ℚ → Nat → ℚ
  boxMuller : ℚ → ℚ → Nat → ℚ := fun m _ _ => m

/-- Every outcome of the generators lies within the requested bounds. -/
def RNG.InBounds (rng : RNG) : Prop :=
  (∀ (min max : Int) (n : Nat), min ≤ max →
    min ≤ rng.generate min max n ∧ rng.generate min max n ≤ max)
  ∧ (∀ (min max : ℚ) (n : Nat), min ≤ max →
    min ≤ rng.generateReal min max n ∧ rng.generateReal min max n ≤ max)

/-- What the area branch of `explode` has done so far: the calls made, the set
`tilesAffected` (in order of insertion), the number of draws from the generator, and the
tiles the rays reached with the power left after the blockage of line 569. -/
structure ExplodeState where
  effects : List Effect
  tilesAffected : List Position
  draws : Nat
  reached : List (Position × Int)
deriving DecidableEq, Repr

/-- The conversion `(int)` of a real value: truncation toward zero. -/
def explode.castInt (r : ℚ) : Int := r.num.tdiv r.den

/-- Lines 585-586 of `explode`: the damage of an HE explosion to the occupant of the tile
`dest` reached with `power_` left: `(int)(RNG::generate(power_/2.0, power_*1.5))`. -/
def explode.he.occupant (rng : RNG) (dest : Tile) (power_ : Int) (draws : Nat) :
    List Effect × Nat :=
  match dest.getUnit with
  | some unit =>
    ([Effect.damage unit.id
        (explode.castInt (rng.generateReal ((power_ : ℚ) / 2) ((power_ : ℚ) * (3 / 2)) draws))],
      draws + 1)
  | none => ([], draws)

/-- Lines 588-592 of `explode`: the floor of the tile above `(tileX, tileY, tileZ)` is
destroyed when that tile exists, has a floor and `power_ / 2 >= armor`. -/
def explode.he.floorAbove (save : SavedBattleGame) (tile : Position) (power_ : Int) :
    List Effect :=
  match save.getTile ⟨tile.x, tile.y, tile.z + 1⟩ with
  | some tileAbove =>
    match tileAbove.getMapData MapData.O_FLOOR with
    | some floor =>
      if power_.tdiv 2 ≥ floor.getArmor then
        [Effect.destroy ⟨tile.x, tile.y, tile.z + 1⟩ MapData.O_FLOOR]
      else []
    | none => []
  | none => []

/-- Lines 593-595 of `explode`: the damage to the unit of the tile above. -/
def explode.he.unitAbove (rng : RNG) (tileAbove : Tile) (power_ : Int) (draws : Nat) :
    List Effect × Nat :=
  match tileAbove.getUnit with
  | some unit =>
    ([Effect.damage unit.id (explode.castInt (rng.generateReal 0 ((power_ : ℚ) / 4) draws))],
      draws + 1)
  | none => ([], draws)

/-- Lines 596-598 of `explode`: the damage to the unit of the tile below, when `dest` has
no floor. -/
def explode.he.unitBelow (save : SavedBattleGame) (rng : RNG) (tile : Position) (dest : Tile)
    (power_ : Int) (draws : Nat) : List Effect × Nat :=
  match save.getTile ⟨tile.x, tile.y, tile.z - 1⟩ with
  | some tileBelow =>
    match dest.getMapData MapData.O_FLOOR, tileBelow.getUnit with
    | none, some unit =>
      ([Effect.damage unit.id (explode.castInt (rng.generateReal 0 ((power_ : ℚ) / 4) draws))],
        draws + 1)
    | _, _ => ([], draws)
  | none => ([], draws)

/-- Lines 582-599 of `explode`: what an HE explosion does at a newly visited tile `dest`,
stored at `(tileX, tileY, tileZ)`, reached with `power_` left. Line 594 reads the unit of
the tile above without a test of `tileAbove`. -/
def explode.he (save : SavedBattleGame) (rng : RNG) (tile : Position) (dest : Tile)
    (power_ : Int) (draws : Nat) : Except Fault (List Effect × Nat) :=
  let occupant := explode.he.occupant rng dest power_ draws
  let floorAbove := explode.he.floorAbove save tile power_
  match save.getTile ⟨tile.x, tile.y, tile.z + 1⟩ with
  | none => .error .nullPointer
  | some tileAbove =>
    let unitAbove := explode.he.unitAbove rng tileAbove power_ occupant.2
    let unitBelow := explode.he.unitBelow save rng tile dest power_ unitAbove.2
    .ok (occupant.1 ++ floorAbove ++ unitAbove.1 ++ unitBelow.1, unitBelow.2)

/-- Lines 600-607 of `explode`: what a smoke explosion does at a newly visited tile. -/
def explode.smoke (rng : RNG) (tile : Position) (dest : Tile) (power_ : Int) (draws : Nat) :
    List Effect × Nat :=
  if dest.getSmoke < 10 then
    ([Effect.addSmoke tile (rng.generate (power_.tdiv 10) 14 draws)], draws + 1)
  else ([], draws)

/-- Lines 608-619 of `explode`: what an incendiary explosion does at a newly visited tile. -/
def explode.incendiary (rng : RNG) (tile : Position) (dest : Tile) (power_ : Int)
    (draws : Nat) : List Effect × Nat :=
  let fire : List Effect := if dest.getFire = 0 then [Effect.ignite tile] else []
  match dest.getUnit with
  | some unit =>
    (fire ++ [Effect.damage unit.id (rng.generate 0 (power_.tdiv 3) draws),
        Effect.setFire unit.id (rng.generate 1 5 (draws + 1))],
      draws + 2)
  | none => (fire, draws)

/-- Lines 580-620 of `explode`: what is done at a tile that was not in `tilesAffected`. -/
def explode.newTile (save : SavedBattleGame) (rng : RNG) (type : ItemDamageType)
    (tile : Position) (dest : Tile) (power_ : Int) (draws : Nat) :
    Except Fault (List Effect × Nat) :=
  match (if type = ItemDamageType.DT_HE then explode.he save rng tile dest power_ draws
      else .ok ([], draws)) with
  | .error e => .error e
  | .ok he =>
    let smoke :=
      if type = ItemDamageType.DT_SMOKE then explode.smoke rng tile dest power_ he.2
      else ([], he.2)
    let fire :=
      if type = ItemDamageType.DT_IN then explode.incendiary rng tile dest power_ smoke.2
      else ([], smoke.2)
    .ok (he.1 ++ smoke.1 ++ fire.1, fire.2)

/-- Lines 571-621 of `explode`: the tile `dest`, stored at `tile`, is reached with `power_`
left after the horizontal blockage. -/
def explode.visit (save : SavedBattleGame) (rng : RNG) (type : ItemDamageType)
    (tile : Position) (dest : Tile) (power_ : Int) (st : ExplodeState) :
    Except Fault ExplodeState :=
  let st := { st with reached := st.reached ++ [(tile, power_)] }
  if power_ > 0 then
    let st :=
      if type = ItemDamageType.DT_HE then
        { st with effects := st.effects ++ [Effect.setExplosive tile (power_.tdiv 2)] }
      else st
    if tile ∈ st.tilesAffected then .ok st
    else
      match explode.newTile save rng type tile dest power_ st.draws with
      | .error e => .error e
      | .ok new =>
        .ok { st with effects := st.effects ++ new.1
                      tilesAffected := st.tilesAffected ++ [tile]
                      draws := new.2 }
  else .ok st

/-- The loop `while (power_ > 0 && l <= maxRadius)` of `explode` along one ray, whose tile
coordinates at step `l` are `tileAt l`. -/
def explode.rayLoop (save : SavedBattleGame) (rng : RNG) (tileAt : Nat → Position)
    (type : ItemDamageType) (maxRadius : Int) :
    Nat → Int → Nat → Option Tile → ExplodeState → Except Fault ExplodeState
  | 0, power_, l, _, st =>
    if power_ > 0 ∧ (l : Int) ≤ maxRadius then .error .outOfFuel else .ok st
  | fuel + 1, power_, l, origin, st =>
    if power_ > 0 ∧ (l : Int) ≤ maxRadius then
      match save.getTile (tileAt l) with
      | none => .ok st
      | some dest =>
        match horizontalBlockage save origin (some dest) type with
        | .error e => .error e
        | .ok block =>
          match explode.visit save rng type (tileAt l) dest (power_ - block) st with
          | .error e => .error e
          | .ok st =>
            explode.rayLoop save rng tileAt type maxRadius fuel (power_ - block - 10) (l + 1)
              (some dest) st
    else .ok st

/-- The body of the loop over `te` of `explode` for one angle: the ray starts at
`_save->getTile(center)` with `power + 1` and gets `maxRadius + 1` rounds. The tile
coordinates `(tileX, tileY, tileZ)` of lines 557-563, computed in floating point from the
angle and the step, are the parameter `ray te l`. -/
def explode.ray (save : SavedBattleGame) (rng : RNG) (ray : Nat → Nat → Position)
    (center : Position) (power : Int) (type : ItemDamageType) (maxRadius : Int) (te : Nat)
    (st : ExplodeState) : Except Fault ExplodeState :=
  explode.rayLoop save rng (ray te) type maxRadius (maxRadius + 1).toNat (power + 1) 0
    (save.getTile center) st

/-- The loop `for (int te = 0; te <= 360; te += 3)` of `explode` over the remaining angles. -/
def explode.fan (save : SavedBattleGame) (rng : RNG) (ray : Nat → Nat → Position)
    (center : Position) (power : Int) (type : ItemDamageType) (maxRadius : Int) :
    List Nat → ExplodeState → Except Fault ExplodeState
  | [], st => .ok st
  | te :: rest, st =>
    match explode.ray save rng ray center power type maxRadius te st with
    | .error e => .error e
    | .ok st => explode.fan save rng ray center power type maxRadius rest st

/-- The area branch of `TerrainModifier::explode` (HE, smoke, incendiary), lines 531-636:
the fan of rays and the detonation of the tiles affected. The set `tilesAffected` is
walked in order of insertion. -/
def explode.area (save : SavedBattleGame) (rng : RNG) (ray : Nat → Nat → Position)
    (center : Position) (power : Int) (type : ItemDamageType) (maxRadius : Int) :
    Except Fault ExplodeState :=
  let power := if type = ItemDamageType.DT_IN then power.tdiv 2 else power
  match explode.fan save rng ray center power type maxRadius
      ((List.range 121).map (fun i => 3 * i)) ⟨[], [], 0, []⟩ with
  | .error e => .error e
  | .ok st =>
    if type = ItemDamageType.DT_HE then
      .ok { st with effects := st.effects ++ st.tilesAffected.map Effect.detonate }
    else .ok st

/-! ## More sample worlds -/

/-- A generator that always draws the lower bound. -/
def minRNG : RNG := { generate := fun min _ _ => min, generateReal := fun min _ _ => min }

/-- A generator that always draws the upper bound. -/
def maxRNG : RNG := { generate := fun _ max _ => max, generateReal := fun _ max _ => max }

/-- The tiles of the ray with `te = 0` (cosine 1, sine 0) from the tile of the voxel
`center`: `floor(centerX + l) = center.x / 16 + l` on the row and level of the centre.
It is used for every angle; at step 0 every ray is on the centre tile. -/
def eastRay (center : Position) : Nat → Nat → Position :=
  fun _ l => ⟨center.x.tdiv 16 + l, center.y.tdiv 16, center.z.tdiv 24⟩

/-- A grid of two tiles side by side; the western one, at (0, 0, 0), holds a solid object
and the eastern one is empty. -/
def crateTile (pos : Position) : Tile :=
  { getPosition := pos
    getMapData := fun i =>
      if pos = ⟨0, 0, 0⟩ ∧ i = MapData.O_OBJECT then some solidPart else none }

/-- The grid of `crateTile`, 2 x 1 x 1. -/
def crateBattle : SavedBattleGame :=
  { getWidth := 2, getLength := 1, getHeight := 1, tiles := crateTile }

/-- A one-tile grid in full daylight (shade 0) whose tile holds 5 on the static layer and
7 on the dynamic layer. -/
def litBattle : SavedBattleGame :=
  { getWidth := 1, getLength := 1, getHeight := 1
    tiles := fun pos =>
      { getPosition := pos, light := fun k => if k = 1 then 5 else if k = 2 then 7 else 0 }
    getGlobalShade := 0 }

/-- A floor part of the given armor that blocks nothing. -/
def floorPart (armor : Int) : MapData :=
  { getBlock := fun _ => 0, getLoftID := fun _ => 0, getArmor := armor }

/-- A column of two tiles, each with a floor of the given armor, in full daylight. -/
def floorBattle (armor : Int) : SavedBattleGame :=
  { getWidth := 1, getLength := 1, getHeight := 2
    tiles := fun pos =>
      { getPosition := pos
        getMapData := fun i => if i = MapData.O_FLOOR then some (floorPart armor) else none } }

/-- A column of two tiles: `soldierTile` on level 0 and an empty tile on level 1. -/
def soldierBelowBattle : SavedBattleGame :=
  { getWidth := 1, getLength := 1, getHeight := 2
    tiles := fun pos => if pos.z = 0 then soldierTile pos else emptyTile pos }

/-! ## Direction from vector: the indices read -/

/-- The indices at which the loop of `vectorToDirection` reads its tables, in the order of
the reads, over the remaining values of `i`: the loop reads at `i` and goes on to the next
value unless both entries match; a read at an index outside the 8-element table is the
last one. -/
def vectorToDirection.reads (vector : Position) : List Nat → List Nat
  | [] => []
  | i :: rest =>
    match vectorToDirection.x[i]? with
    | none => [i]
    | some xi =>
      if xi = vector.x then
        match vectorToDirection.y[i]? with
        | none => [i]
        | some yi => if yi = vector.y then [i] else i :: vectorToDirection.reads vector rest
      else i :: vectorToDirection.reads vector rest

/-! ## A sample world for diagonal steps -/

/-- A terrain part that blocks `n` units of every energy type. -/
def blockPart (n : Int) : MapData := { getBlock := fun _ => n, getLoftID := fun _ => 0 }

/-- The tiles of a 2 x 2 grid with walls and objects around its centre: tile (0, 0) has a
north wall blocking 3 and an object blocking 10, tile (1, 0) a north wall blocking 2, a
west wall blocking 5 and an object blocking 2, tile (0, 1) an object blocking 7 and tile
(1, 1) a west wall blocking 4. -/
def cornerTile (pos : Position) : Tile :=
  { getPosition := pos
    getMapData := fun part =>
      if pos.x = 0 ∧ pos.y = 0 then
        (if part = MapData.O_NORTHWALL then some (blockPart 3)
          else if part = MapData.O_OBJECT then some (blockPart 10) else none)
      else if pos.x = 1 ∧ pos.y = 0 then
        (if part = MapData.O_NORTHWALL then some (blockPart 2)
          else if part = MapData.O_WESTWALL then some (blockPart 5)
          else if part = MapData.O_OBJECT then some (blockPart 2) else none)
      else if pos.x = 0 ∧ pos.y = 1 then
        (if part = MapData.O_OBJECT then some (blockPart 7) else none)
      else if pos.x = 1 ∧ pos.y = 1 then
        (if part = MapData.O_WESTWALL then some (blockPart 4) else none)
      else none }

/-- The 2 x 2 x 1 grid of the tiles `cornerTile`. -/
def cornerBattle : SavedBattleGame :=
  { getWidth := 2, getLength := 2, getHeight := 1, tiles := cornerTile }

/-! ## Item drop -/

/-- The loop `while (_save->getTile(p)->getMapData(MapData::O_FLOOR) == 0 && p.z > 0) p.z--`
of `spawnItem`: the position it ends on. -/
def spawnItem.fall (save : SavedBattleGame) : Nat → Position → Except Fault Position
  | 0, p =>
    match save.getTile p with
    | none => .error .nullPointer
    | some tile =>
      if (tile.getMapData MapData.O_FLOOR).isNone ∧ p.z > 0 then .error .outOfFuel else .ok p
  | fuel + 1, p =>
    match save.getTile p with
    | none => .error .nullPointer
    | some tile =>
      if (tile.getMapData MapData.O_FLOOR).isNone ∧ p.z > 0 then
        spawnItem.fall save fuel ⟨p.x, p.y, p.z - 1⟩
      else .ok p

/-- The function `TerrainModifier::spawnItem`: the positions of the tiles on which
`addItem(item)` is called, in order; the loop gets `position.z` rounds. -/
def spawnItem (save : SavedBattleGame) (position : Position) : Except Fault (List Position) :=
  match save.getTile position with
  | none => .ok []
  | some _ =>
    match spawnItem.fall save position.z.toNat position with
    | .error e => .error e
    | .ok p =>
      match save.getTile p with
      | none => .error .nullPointer
      | some _ => .ok [p]

/-! ## A sample world with floors -/

/-- A grid of one column of four levels with a floor part on level 1 only. -/
def shelfBattle : SavedBattleGame :=
  { getWidth := 1, getLength := 1, getHeight := 4
    tiles := fun pos =>
      { getPosition := pos
        getMapData := fun part =>
          if part = MapData.O_FLOOR ∧ pos.z = 1 then some (floorPart 0) else none } }

/-! ## Field of view: units on a tile -/

/-- The loop `for (int i = targetMaxHeight; i > targetMinHeight; i-=2)` of
`checkForVisibleUnits` from the sample height `i` on: whether `unitSeen` is set. Each
sample gets one round of the iteration budget; `sample` is `targetVoxel` after the
assignment `targetVoxel.z = i`. -/
def checkForVisibleUnits.scan (save : SavedBattleGame) (voxelData : List Nat)
    (unit bu : BattleUnit) (originVoxel targetVoxel : Position) (targetMinHeight : Int) :
    Nat → Int → Except Fault Bool
  | 0, i => if i > targetMinHeight then .error .outOfFuel else .ok false
  | fuel + 1, i =>
    if i > targetMinHeight then
      let sample : Position := ⟨targetVoxel.x, targetVoxel.y, i⟩
      match calculateLine save voxelData originVoxel sample false none (some unit) with
      | .error e => .error e
      | .ok test =>
        let hitPosition : Position := ⟨sample.x.tdiv 16, sample.y.tdiv 16, sample.z.tdiv 24⟩
        if test.result = -1 ∨ (test.result = 4 ∧ bu.getPosition = hitPosition) then .ok true
        else
          checkForVisibleUnits.scan save voxelData unit bu originVoxel targetVoxel
            targetMinHeight fuel (i - 2)
    else .ok false

/-- The function `TerrainModifier::checkForVisibleUnits`: the value returned (`unitSeen`)
and the units handed to `unit->addToVisibleUnits`, in order. -/
def checkForVisibleUnits (save : SavedBattleGame) (voxelData : List Nat) (unit : BattleUnit)
    (tile : Tile) : Except Fault (Bool × List BattleUnit) :=
  match tile.getUnit with
  | none => .ok (false, [])
  | some bu =>
    if bu.isOut then .ok (false, [])
    else if unit.getFaction = UnitFaction.FACTION_PLAYER
        ∧ (bu.getFaction = UnitFaction.FACTION_PLAYER
          ∨ bu.getFaction = UnitFaction.FACTION_NEUTRAL) then
      .ok (false, [])
    else if unit.getFaction = UnitFaction.FACTION_HOSTILE
        ∧ bu.getFaction = UnitFaction.FACTION_HOSTILE then
      .ok (false, [])
    else
      let originVoxel : Position :=
        ⟨(unit.getPosition.x * 16) + 8, (unit.getPosition.y * 16) + 8,
          unit.getPosition.z * 24 + -tile.getTerrainLevel
            + (if unit.isKneeled then unit.getKneelHeight else unit.getStandHeight)⟩
      let targetVoxel : Position :=
        ⟨(bu.getPosition.x * 16) + 8, (bu.getPosition.y * 16) + 8, bu.getPosition.z * 24⟩
      match save.getTile bu.getPosition with
      | none => .error .nullPointer
      | some targetTile =>
        let targetMinHeight := targetVoxel.z - targetTile.getTerrainLevel
        let targetMaxHeight :=
          targetMinHeight + (if bu.isKneeled then bu.getKneelHeight else bu.getStandHeight)
        match checkForVisibleUnits.scan save voxelData unit bu originVoxel targetVoxel
            targetMinHeight (targetMaxHeight - targetMinHeight).toNat targetMaxHeight with
        | .error e => .error e
        | .ok unitSeen => .ok (unitSeen, if unitSeen then [bu] else [])

/-! ## Field of view: the fan of rays -/

/-- The table `int startAngle[8]` of `calculateFOV`. -/
def calculateFOV.startAngle : List Int := [45, 0, -45, 270, 225, 180, 135, 90]

/-- The table `int endAngle[8]` of `calculateFOV`. -/
def calculateFOV.endAngle : List Int := [135, 90, 45, 360, 315, 270, 225, 180]

/-- What a pass of `calculateFOV` has done so far: the visible units of the observer since
`clearVisibleUnits`, the set `tilesAffected` (in order of insertion) and the calls
`setDiscovered(true, part)` made, each with the position of its tile. -/
structure FOVState where
  visibleUnits : List BattleUnit
  tilesAffected : List Position
  discovered : List (Position × Int)
deriving DecidableEq, Repr

/-- The body of `if (objectViewDistance > 0 && dest->getShade() < 10)` in `calculateFOV`
for the tile `dest` stored at `pos`. -/
def calculateFOV.visit (save : SavedBattleGame) (voxelData : List Nat) (unit : BattleUnit)
    (pos : Position) (dest : Tile) (objectViewDistance unitViewDistance : Int)
    (st : FOVState) : Except Fault FOVState :=
  if objectViewDistance > 0 ∧ dest.getShade < 10 then
    if pos ∈ st.tilesAffected then .ok st
    else
      let st := { st with tilesAffected := st.tilesAffected ++ [pos] }
      match (if unitViewDistance > 0 then checkForVisibleUnits save voxelData unit dest
          else .ok (false, [])) with
      | .error e => .error e
      | .ok seen =>
        let st := { st with visibleUnits := st.visibleUnits ++ seen.2 }
        if unit.getFaction = UnitFaction.FACTION_PLAYER then
          let east : Position := ⟨pos.x + 1, pos.y, pos.z⟩
          let south : Position := ⟨pos.x, pos.y - 1, pos.z⟩
          .ok { st with discovered := st.discovered ++ [(pos, 2)]
                          ++ (if (save.getTile east).isSome then [(east, 0)] else [])
                          ++ (if (save.getTile south).isSome then [(south, 1)] else []) }
        else .ok st
  else .ok st

/-- The loop `while (objectViewDistance > 0)` of `calculateFOV` along one ray, whose tile
coordinates at step `l` are `tileAt l`; the tile of the observer is where the ray starts.
Consecutive steps of a ray often lie on the same tile or on tiles that are not neighbours,
so the horizontal blockage is taken with the words `x8` and `y8` behind the tables of
`vectorToDirection`. -/
def calculateFOV.rayLoop (save : SavedBattleGame) (voxelData : List Nat) (x8 y8 : Int)
    (unit : BattleUnit) (tileAt : Nat → Position) :
    Nat → Int → Int → Nat → Option Tile → FOVState → Except Fault FOVState
  | 0, objectViewDistance, _, _, _, st =>
    if objectViewDistance > 0 then .error .outOfFuel else .ok st
  | fuel + 1, objectViewDistance, unitViewDistance, l, origin, st =>
    if objectViewDistance > 0 then
      let l := l + 1
      let objectViewDistance := objectViewDistance - 1
      match save.getTile (tileAt l) with
      | none => .ok st
      | some dest =>
        let horizontal :=
          horizontalBlockage.withStray x8 y8 save origin (some dest) ItemDamageType.DT_NONE
        match verticalBlockage save origin (some dest) ItemDamageType.DT_NONE with
        | .error e => .error e
        | .ok vertical =>
          let objectViewDistance := objectViewDistance - horizontal - vertical
          match calculateFOV.visit save voxelData unit (tileAt l) dest objectViewDistance
              unitViewDistance st with
          | .error e => .error e
          | .ok st =>
            let objectViewDistance :=
              if dest.getShade > 7 then objectViewDistance - 1 else objectViewDistance
            let unitViewDistance := unitViewDistance - dest.getSmoke.tdiv 3
            calculateFOV.rayLoop save voxelData x8 y8 unit tileAt fuel objectViewDistance
              unitViewDistance l (some dest) st
    else .ok st

/-- The values of `for (v = first; v <= last; v += step)`. -/
def calculateFOV.steps (first last step : Int) : List Int :=
  if first ≤ last then
    (List.range ((last - first).tdiv step + 1).toNat).map (fun k => first + step * (k : Int))
  else []

/-- The loop over `te` of `calculateFOV` for the remaining horizontal angles of one
vertical angle `fi`: each ray starts at the tile of the observer with both view distances
at 20 and gets 20 rounds. The tile coordinates `(tileX, tileY, tileZ)`, computed in
floating point from the angles and the step, are the parameter `ray fi te l`. -/
def calculateFOV.fan (save : SavedBattleGame) (voxelData : List Nat) (x8 y8 : Int)
    (unit : BattleUnit) (ray : Int → Int → Nat → Position) (fi : Int) :
    List Int → FOVState → Except Fault FOVState
  | [], st => .ok st
  | te :: rest, st =>
    match calculateFOV.rayLoop save voxelData x8 y8 unit (ray fi te) 20 20 20 0
        (save.getTile unit.getPosition) st with
    | .error e => .error e
    | .ok st => calculateFOV.fan save voxelData x8 y8 unit ray fi rest st

/-- The loop over `fi` of `calculateFOV` for the remaining vertical angles; the bounds of
the loop over `te` are read from the tables at the facing of the observer. -/
def calculateFOV.arc (save : SavedBattleGame) (voxelData : List Nat) (x8 y8 : Int)
    (unit : BattleUnit) (ray : Int → Int → Nat → Position) :
    List Int → FOVState → Except Fault FOVState
  | [], st => .ok st
  | fi :: rest, st =>
    if unit.getDirection < 0 then .error .undefinedRead
    else
      match calculateFOV.startAngle[unit.getDirection.toNat]?,
          calculateFOV.endAngle[unit.getDirection.toNat]? with
      | some first, some last =>
        match calculateFOV.fan save voxelData x8 y8 unit ray fi
            (calculateFOV.steps first last 3) st with
        | .error e => .error e
        | .ok st => calculateFOV.arc save voxelData x8 y8 unit ray rest st
      | _, _ => .error .undefinedRead

/-- The sum `visibleUnitsChecksum` of `getId() + 1` over a list of visible units. -/
def calculateFOV.checksum (visibleUnits : List BattleUnit) : Int :=
  (visibleUnits.map (fun u => u.getId + 1)).sum

/-- The part of `calculateFOV(BattleUnit*)` after `unit->clearVisibleUnits()`, together
with the discovery of the observer's own tile: the visible units rebuilt by the pass. The
tile of the observer, `unit->getTile()`, is the tile at its position. -/
def calculateFOV.rebuild (save : SavedBattleGame) (voxelData : List Nat) (x8 y8 : Int)
    (ray : Int → Int → Nat → Position) (unit : BattleUnit) : Except Fault FOVState :=
  let startFi : Int := if unit.getPosition.z = 0 then 0 else -90
  let endFi : Int := 60
  let own : Except Fault (List (Position × Int)) :=
    if unit.getFaction = UnitFaction.FACTION_PLAYER then
      match save.getTile unit.getPosition with
      | none => .error .nullPointer
      | some _ => .ok [(unit.getPosition, 2)]
    else .ok []
  match own with
  | .error e => .error e
  | .ok own =>
    calculateFOV.arc save voxelData x8 y8 unit ray (calculateFOV.steps startFi endFi 6)
      ⟨[], [], own⟩

/-- The function `TerrainModifier::calculateFOV(BattleUnit*)` for an observer whose visible
units before the pass are `visibleUnits`: the value returned and the state after the
pass. -/
def calculateFOV (save : SavedBattleGame) (voxelData : List Nat) (x8 y8 : Int)
    (ray : Int → Int → Nat → Position) (unit : BattleUnit) (visibleUnits : List BattleUnit) :
    Except Fault (Bool × FOVState) :=
  let visibleUnitsChecksum := calculateFOV.checksum visibleUnits
  match calculateFOV.rebuild save voxelData x8 y8 ray unit with
  | .error e => .error e
  | .ok st =>
    let newChecksum := calculateFOV.checksum st.visibleUnits
    .ok (decide (visibleUnitsChecksum < newChecksum), st)

/-! ## Sample worlds with units -/

/-- A standing player unit of height 20 on tile (0, 0, 0), facing east. -/
def observer : BattleUnit :=
  { id := 1, isKneeled := false, getKneelHeight := 14, getStandHeight := 20, gotLoftemps := 0
    getPosition := ⟨0, 0, 0⟩, getDirection := 2, getId := 1 }

/-- A standing player unit of height 24 on tile (1, 0, 0). -/
def bystander : BattleUnit :=
  { id := 2, isKneeled := false, getKneelHeight := 14, getStandHeight := 24, gotLoftemps := 0
    getPosition := ⟨1, 0, 0⟩, getId := 2 }

/-- A standing hostile unit of height 20 on tile (2, 0, 0). -/
def alien : BattleUnit :=
  { id := 3, isKneeled := false, getKneelHeight := 14, getStandHeight := 20, gotLoftemps := 0
    getFaction := UnitFaction.FACTION_HOSTILE, getPosition := ⟨2, 0, 0⟩, getId := 3 }

/-- A row of three open tiles: the observer on (0, 0, 0), the bystander on (1, 0, 0) and
the alien on (2, 0, 0). -/
def queueBattle : SavedBattleGame :=
  { getWidth := 3, getLength := 1, getHeight := 1
    tiles := fun pos =>
      { getPosition := pos
        getUnit := if pos = ⟨0, 0, 0⟩ then some observer
          else if pos = ⟨1, 0, 0⟩ then some bystander
          else if pos = ⟨2, 0, 0⟩ then some alien else none }
    getUnits := [observer, bystander, alien] }

/-- A row of three open tiles with the observer on (0, 0, 0) and the alien on (2, 0, 0). -/
def sightBattle : SavedBattleGame :=
  { getWidth := 3, getLength := 1, getHeight := 1
    tiles := fun pos =>
      { getPosition := pos
        getUnit := if pos = ⟨0, 0, 0⟩ then some observer
          else if pos = ⟨2, 0, 0⟩ then some alien else none }
    getUnits := [observer, alien] }

/-- The tiles of the ray with `fi = 0` and `te = 0` from the observer at tile (0, 0, 0):
`floor(0.5 + l) = l` on the row and level of the observer. It is used for every angle. -/
def eastSight : Int → Int → Nat → Position := fun _ _ l => ⟨l, 0, 0⟩

/-! ## Reaction fire -/

/-- Modelled from the spec: the action type of the action descriptor, `BattleActionType`;
`BA_SNAPSHOT` is the only value this file names. -/
inductive BattleActionType where
  | BA_NONE
  | BA_SNAPSHOT
deriving DecidableEq, Repr

/-- Modelled from the spec: the caller-supplied action descriptor `BattleAction` with its
fields actor, type, target and weapon. -/
structure BattleAction where
  actor : Option BattleUnit
  type : BattleActionType
  target : Position
  weapon : Option BattleItem
deriving DecidableEq, Repr

/-- Modelled from the spec: the methods of `BattleUnit` called by `checkReactionFire` whose
code is not part of this file. `facing unit position` is the direction in which
`lookAt(position)` makes the unit turn (the loop of `turn()` calls ends when the unit faces
it); `getActionTUs` is the time cost of an action; `spendTimeUnits tu cost debug` is the
value returned by `spendTimeUnits(cost, debug)` for a unit with `tu` time units, and the
time units it has afterwards. -/
structure ReactionRules where
  facing : BattleUnit → Position → Int
  getActionTUs : BattleUnit → BattleActionType → Option BattleItem → Int
  spendTimeUnits : Int → Int → Bool → Bool × Int

/-- Modelled from the spec: the mutable state of the units that `checkReactionFire` reads
and writes. `units` are the objects of `_save->getUnits()`; the visible units, the time
units and the AI state are kept per unit identity `id`. An AI state is `some target` when
it is an `AggroBAIState` with that aggro target and `none` otherwise. `draws` counts the
draws from the generator and `discovered` lists the calls `setDiscovered` made. -/
structure ReactionState where
  units : List BattleUnit
  visibleUnits : Nat → List BattleUnit
  timeUnits : Nat → Int
  aiState : Nat → Option (Option Nat)
  draws : Nat
  discovered : List (Position × Int)

/-- The forced facing turn of `checkReactionFire`: the flag `recalculateFOV` and the state
after it. A unit object is an entry of `units` with the same `id`. -/
def checkReactionFire.turn (rules : ReactionRules) (rng : RNG) (unit : BattleUnit)
    (potentialVictim : Option BattleUnit) (recalculateFOV : Bool) (st : ReactionState) :
    Bool × ReactionState :=
  match potentialVictim with
  | none => (recalculateFOV, st)
  | some victim =>
    let draw := rng.generate 0 4 st.draws
    let st := { st with draws := st.draws + 1 }
    if draw = 1 ∧ victim.getFaction = UnitFaction.FACTION_HOSTILE then
      let wanted := rules.facing victim unit.getPosition
      let units := st.units.map
        (fun u => if u.id = victim.id then { u with getDirection := wanted } else u)
      (recalculateFOV || decide (victim.getDirection ≠ wanted), { st with units := units })
    else (recalculateFOV, st)

/-- The inner loop of `checkReactionFire` over the visible units `j` of the unit `i`: the
highest reaction score and the actor after it. -/
def checkReactionFire.spot (unit i : BattleUnit) :
    List BattleUnit → ℚ → Option BattleUnit → ℚ × Option BattleUnit
  | [], highestReactionScore, actor => (highestReactionScore, actor)
  | j :: rest, highestReactionScore, actor =>
    if j.id = unit.id ∧ i.getReactionScore > highestReactionScore then
      checkReactionFire.spot unit i rest i.getReactionScore (some i)
    else checkReactionFire.spot unit i rest highestReactionScore actor

/-- What the loop of `checkReactionFire` over the units carries along. -/
structure ReactionScan where
  highestReactionScore : ℚ
  actor : Option BattleUnit
  visibleUnits : Nat → List BattleUnit
  discovered : List (Position × Int)

/-- The loop of `checkReactionFire` over the remaining units `i`. The tile coordinates of
the rays of `calculateFOV` for the observer `i` are `ray i`. -/
def checkReactionFire.scan (save : SavedBattleGame) (voxelData : List Nat) (x8 y8 : Int)
    (ray : BattleUnit → Int → Int → Nat → Position) (unit : BattleUnit)
    (recalculateFOV : Bool) : List BattleUnit → ReactionScan → Except Fault ReactionScan
  | [], s => .ok s
  | i :: rest, s =>
    let x := |unit.getPosition.x - i.getPosition.x|
    let y := |unit.getPosition.y - i.getPosition.y|
    let distance := addLight.distance x y
    if distance < 19 ∧ i.getFaction ≠ save.getSide ∧ i.isOut = false then
      let recalculated : Except Fault ReactionScan :=
        if recalculateFOV then
          match calculateFOV save voxelData x8 y8 (ray i) i (s.visibleUnits i.id) with
          | .error e => .error e
          | .ok pass =>
            .ok { s with
              visibleUnits := fun k => if k = i.id then pass.2.visibleUnits
                else s.visibleUnits k
              discovered := s.discovered ++ pass.2.discovered }
        else .ok s
      match recalculated with
      | .error e => .error e
      | .ok s =>
        let spotted := checkReactionFire.spot unit i (s.visibleUnits i.id)
          s.highestReactionScore s.actor
        checkReactionFire.scan save voxelData x8 y8 ray unit recalculateFOV rest
          { s with highestReactionScore := spotted.1, actor := spotted.2 }
    else checkReactionFire.scan save voxelData x8 y8 ray unit recalculateFOV rest s

/-- The test `action->weapon && action->weapon->getAmmoItem() &&
action->weapon->getAmmoItem()->getAmmoQuantity()`. -/
def checkReactionFire.loaded (weapon : Option BattleItem) : Bool :=
  match weapon with
  | none => false
  | some weapon =>
    match weapon.getAmmoItem with
    | none => false
    | some quantity => decide (quantity ≠ 0)

/-- The part of `checkReactionFire` after the loop over the units: the value returned, the
action descriptor and the state. -/
def checkReactionFire.shoot (save : SavedBattleGame) (rules : ReactionRules)
    (unit : BattleUnit) (action : BattleAction) (highestReactionScore : ℚ)
    (st : ReactionState) : Bool × BattleAction × ReactionState :=
  match action.actor with
  | none => (false, action, st)
  | some actor =>
    if highestReactionScore > unit.getReactionScore then
      let action := { action with
        type := BattleActionType.BA_SNAPSHOT
        target := unit.getPosition
        weapon := save.getMainHandWeapon actor }
      let tu := rules.getActionTUs actor action.type action.weapon
      if checkReactionFire.loaded action.weapon then
        let spent := rules.spendTimeUnits (st.timeUnits actor.id) tu save.getDebugMode
        let st := { st with
          timeUnits := fun k => if k = actor.id then spent.2 else st.timeUnits k }
        if spent.1 then
          let st :=
            if unit.getFaction = UnitFaction.FACTION_HOSTILE then
              { st with
                aiState := fun k => if k = unit.id then some (some actor.id) else st.aiState k }
            else st
          let st :=
            if actor.getFaction = UnitFaction.FACTION_HOSTILE then
              { st with
                aiState := fun k => if k = actor.id then some (some unit.id) else st.aiState k }
            else st
          (true, action, st)
        else (false, action, st)
      else (false, action, st)
    else (false, action, st)

/-- The function `TerrainModifier::checkReactionFire`: the value returned, the action
descriptor after the call and the state of the units after the call. -/
def checkReactionFire (save : SavedBattleGame) (voxelData : List Nat) (x8 y8 : Int)
    (ray : BattleUnit → Int → Int → Nat → Position) (rules : ReactionRules) (rng : RNG)
    (unit : BattleUnit) (action : BattleAction) (potentialVictim : Option BattleUnit)
    (recalculateFOV : Bool) (st : ReactionState) :
    Except Fault (Bool × BattleAction × ReactionState) :=
  let highestReactionScore : ℚ := 0
  let action := { action with actor := none }
  if unit.getFaction ≠ save.getSide then .ok (false, action, st)
  else
    let turned := checkReactionFire.turn rules rng unit potentialVictim recalculateFOV st
    let st := turned.2
    match checkReactionFire.scan save voxelData x8 y8 ray unit turned.1 st.units
        ⟨highestReactionScore, action.actor, st.visibleUnits, st.discovered⟩ with
    | .error e => .error e
    | .ok s =>
      .ok (checkReactionFire.shoot save rules unit { action with actor := s.actor }
        s.highestReactionScore
        { st with visibleUnits := s.visibleUnits, discovered := s.discovered })

/-! ## A sample world for reaction fire -/

/-- A weapon with no ammo item loaded. -/
def emptyRifle : BattleItem := { id := 1 }

/-- The alien with a reaction score of 10. -/
def sniper : BattleUnit := { alien with getReactionScore := 10 }

/-- The world `sightBattle` in the turn of the player, with the sniper in place of the
alien in the list of units; every unit carries the empty rifle. -/
def ambushBattle : SavedBattleGame :=
  { sightBattle with getUnits := [observer, sniper], getMainHandWeapon := fun _ => some emptyRifle }

/-- The state in which the sniper sees the observer, every unit has 50 time units and no
unit has an aggro AI state. -/
def ambushState : ReactionState :=
  { units := ambushBattle.getUnits
    visibleUnits := fun k => if k = sniper.id then [observer] else []
    timeUnits := fun _ => 50
    aiState := fun _ => none
    draws := 0
    discovered := [] }

/-- Sample rules: a unit faces north to look at any position, every action costs 10 time
units, and time units are spent when the unit has enough of them (always, and for free, in
debug mode). -/
def sampleRules : ReactionRules :=
  { facing := fun _ _ => 0
    getActionTUs := fun _ _ _ => 10
    spendTimeUnits := fun tu cost debug =>
      if debug then (true, tu) else if cost ≤ tu then (true, tu - cost) else (false, tu) }

/-- The ray of `eastSight` for every observer. -/
def eastSights : BattleUnit → Int → Int → Nat → Position := fun _ => eastSight

/-! ## New turn: smoke and fire -/

/-- Modelled from the spec: the mutators of `Tile` called by `prepareNewTurn`, whose code is
not part of this file: `addSmoke(smoke)`, `ignite()` and the tile's own `prepareNewTurn()`
(the natural decay of its smoke and fire). -/
structure TileRules where
  addSmoke : Tile → Int → Tile
  ignite : Tile → Tile
  prepareNewTurn : Tile → Tile

/-- What `prepareNewTurn` has done so far: the grid, the calls made on tiles and units, and
the number of draws from the generator. -/
structure TurnState where
  save : SavedBattleGame
  effects : List Effect
  draws : Nat

/-- The call `t->addSmoke(smoke)` on the tile stored at `pos`. -/
def TurnState.addSmoke (rules : TileRules) (st : TurnState) (pos : Position) (smoke : Int) :
    TurnState :=
  { st with
    save := st.save.modifyTile pos (fun t => rules.addSmoke t smoke)
    effects := st.effects ++ [Effect.addSmoke pos smoke] }

/-- The call `t->ignite()` on the tile stored at `pos`. -/
def TurnState.ignite (rules : TileRules) (st : TurnState) (pos : Position) : TurnState :=
  { st with
    save := st.save.modifyTile pos rules.ignite
    effects := st.effects ++ [Effect.ignite pos] }

/-- The stun of the occupant of a smoky tile: `(*i)->getUnit()->stun(((*i)->getSmoke()/5)+1)`. -/
def prepareNewTurn.stun (source : Tile) (st : TurnState) : TurnState :=
  match source.getUnit with
  | none => st
  | some unit =>
    { st with effects := st.effects ++ [Effect.stun unit.id (source.getSmoke.tdiv 5 + 1)] }

/-- The deposit one step along the drift: `if (t && !t->getSmoke() &&
horizontalBlockage((*i), t, DT_SMOKE) == 0) t->addSmoke((*i)->getSmoke()/2)` for the
smoky tile stored at `i` and the tile `t` looked up at `pos`. -/
def prepareNewTurn.oneStep (rules : TileRules) (i pos : Position) (st : TurnState) :
    Except Fault TurnState :=
  let source := st.save.tiles i
  match st.save.getTile pos with
  | none => .ok st
  | some t =>
    if t.getSmoke = 0 then
      match horizontalBlockage st.save (some source) (some t) ItemDamageType.DT_SMOKE with
      | .error e => .error e
      | .ok block =>
        if block = 0 then .ok (st.addSmoke rules pos (source.getSmoke.tdiv 2)) else .ok st
    else .ok st

/-- The deposit two steps along the drift: `if (t && t2 && !t2->getSmoke() &&
horizontalBlockage(t, t2, DT_SMOKE) == 0) t2->addSmoke((*i)->getSmoke()/4)` for the smoky
tile stored at `i`, the tile `t` looked up at `pos` and the tile `t2` looked up at
`pos2`. -/
def prepareNewTurn.twoSteps (rules : TileRules) (i pos pos2 : Position) (st : TurnState) :
    Except Fault TurnState :=
  let source := st.save.tiles i
  match st.save.getTile pos, st.save.getTile pos2 with
  | some t, some t2 =>
    if t2.getSmoke = 0 then
      match horizontalBlockage st.save (some t) (some t2) ItemDamageType.DT_SMOKE with
      | .error e => .error e
      | .ok block =>
        if block = 0 then .ok (st.addSmoke rules pos2 (source.getSmoke.tdiv 4)) else .ok st
    else .ok st
  | _, _ => .ok st

/-- The deposit one level up: `if (t && !t->getSmoke() && verticalBlockage((*i), t,
DT_SMOKE) == 0) t->addSmoke((*i)->getSmoke()/2)`. -/
def prepareNewTurn.oneUp (rules : TileRules) (i pos : Position) (st : TurnState) :
    Except Fault TurnState :=
  let source := st.save.tiles i
  match st.save.getTile pos with
  | none => .ok st
  | some t =>
    if t.getSmoke = 0 then
      match verticalBlockage st.save (some source) (some t) ItemDamageType.DT_SMOKE with
      | .error e => .error e
      | .ok block =>
        if block = 0 then .ok (st.addSmoke rules pos (source.getSmoke.tdiv 2)) else .ok st
    else .ok st

/-- The body of the loop of `prepareNewTurn` over `tilesOnSmoke` for the tile stored at `i`. -/
def prepareNewTurn.smokeTile (rules : TileRules) (spreadX spreadY : Int) (i : Position)
    (st : TurnState) : Except Fault TurnState :=
  let x := (st.save.tiles i).getPosition.x
  let y := (st.save.tiles i).getPosition.y
  let z := (st.save.tiles i).getPosition.z
  let st := prepareNewTurn.stun (st.save.tiles i) st
  match prepareNewTurn.oneStep rules i ⟨x + spreadX, y + spreadY, z⟩ st with
  | .error e => .error e
  | .ok st =>
    match prepareNewTurn.twoSteps rules i ⟨x + spreadX, y + spreadY, z⟩
        ⟨x + spreadX + spreadX, y + spreadY + spreadY, z⟩ st with
    | .error e => .error e
    | .ok st =>
      match prepareNewTurn.oneUp rules i ⟨x, y, z + 1⟩ st with
      | .error e => .error e
      | .ok st => .ok { st with save := st.save.modifyTile i rules.prepareNewTurn }

/-- The damage to the occupant of a burning tile: `damage(Position(0,0,0),
RNG::generate(1,12))` and, when `RNG::generate(0,2) == 1`, `setFire(RNG::generate(1,5))`. -/
def prepareNewTurn.burn (rng : RNG) (source : Tile) (st : TurnState) : TurnState :=
  match source.getUnit with
  | none => st
  | some unit =>
    let damage := Effect.damage unit.id (rng.generate 1 12 st.draws)
    if rng.generate 0 2 (st.draws + 1) = 1 then
      { st with
        effects := st.effects ++ [damage, Effect.setFire unit.id (rng.generate 1 5 (st.draws + 2))]
        draws := st.draws + 3 }
    else { st with effects := st.effects ++ [damage], draws := st.draws + 2 }

/-- The body of the loops over `x` and `y` of `prepareNewTurn` for the burning tile stored
at `i` and the neighbour looked up at `pos`. -/
def prepareNewTurn.spread (rules : TileRules) (rng : RNG) (i pos : Position) (st : TurnState) :
    Except Fault TurnState :=
  let source := st.save.tiles i
  match st.save.getTile pos with
  | none => .ok st
  | some t =>
    if t.getFire = 0 then
      match horizontalBlockage st.save (some source) (some t) ItemDamageType.DT_IN with
      | .error e => .error e
      | .ok block =>
        if block = 0 then
          let flam := t.getFlammability
          if flam < 255 then
            let base := rng.boxMuller 0 126 st.draws
            let base := if base < 0 then base * -1 else base
            let st := { st with draws := st.draws + 1 }
            if (flam : ℚ) < base then
              let roll := rng.generate 0 flam st.draws
              let st := { st with draws := st.draws + 1 }
              if roll < 2 then .ok (st.ignite rules pos) else .ok st
            else .ok st
          else .ok st
        else .ok st
    else .ok st

/-- The loops over `x` and `y` of `prepareNewTurn` over the remaining neighbours. -/
def prepareNewTurn.spreadAll (rules : TileRules) (rng : RNG) (i : Position) :
    List Position → TurnState → Except Fault TurnState
  | [], st => .ok st
  | pos :: rest, st =>
    match prepareNewTurn.spread rules rng i pos st with
    | .error e => .error e
    | .ok st => prepareNewTurn.spreadAll rules rng i rest st

/-- The positions `(x, y, z)` of the loops `for (x = px-1; x <= px+1; ++x) for (y = py-1;
y <= py+1; ++y)` around the tile position `p`, in the order of the loops. -/
def prepareNewTurn.neighbourhood (p : Position) : List Position :=
  [⟨p.x - 1, p.y - 1, p.z⟩, ⟨p.x - 1, p.y, p.z⟩, ⟨p.x - 1, p.y + 1, p.z⟩,
   ⟨p.x, p.y - 1, p.z⟩, ⟨p.x, p.y, p.z⟩, ⟨p.x, p.y + 1, p.z⟩,
   ⟨p.x + 1, p.y - 1, p.z⟩, ⟨p.x + 1, p.y, p.z⟩, ⟨p.x + 1, p.y + 1, p.z⟩]

/-- The body of the loop of `prepareNewTurn` over `tilesOnFire` for the tile stored at `i`. -/
def prepareNewTurn.fireTile (rules : TileRules) (rng : RNG) (i : Position) (st : TurnState) :
    Except Fault TurnState :=
  let st := prepareNewTurn.burn rng (st.save.tiles i) st
  match prepareNewTurn.spreadAll rules rng i
      (prepareNewTurn.neighbourhood (st.save.tiles i).getPosition) st with
  | .error e => .error e
  | .ok st => .ok { st with save := st.save.modifyTile i rules.prepareNewTurn }

/-- A loop of `prepareNewTurn` over the remaining tiles of one of its two lists. -/
def prepareNewTurn.each (body : Position → TurnState → Except Fault TurnState) :
    List Position → TurnState → Except Fault TurnState
  | [], st => .ok st
  | i :: rest, st =>
    match body i st with
    | .error e => .error e
    | .ok st => prepareNewTurn.each body rest st

/-- The function `TerrainModifier::prepareNewTurn`: the spreading of smoke and fire. The
lists `tilesOnFire` and `tilesOnSmoke` hold the grid positions of their tiles in the order
of the flat tile array. -/
def prepareNewTurn (rules : TileRules) (accumulate : Int → Int → Int) (rng : RNG)
    (save : SavedBattleGame) : Except Fault TurnState :=
  let tilesOnFire := save.indexPositions.filter (fun p => decide ((save.tiles p).getFire > 0))
  let tilesOnSmoke := save.indexPositions.filter (fun p => decide ((save.tiles p).getSmoke > 0))
  let spreadX := rng.generate (-1) 1 0
  let spreadY := rng.generate (-1) 1 1
  match prepareNewTurn.each (prepareNewTurn.smokeTile rules spreadX spreadY) tilesOnSmoke
      ⟨save, [], 2⟩ with
  | .error e => .error e
  | .ok st =>
    match prepareNewTurn.each (prepareNewTurn.fireTile rules rng) tilesOnFire st with
    | .error e => .error e
    | .ok st =>
      if tilesOnFire ≠ [] then
        .ok { st with save := calculateTerrainLighting accumulate st.save }
      else .ok st

/-! ## Sample worlds for the new turn -/

/-- Sample tile rules: smoke adds up, ignition sets the fire level to 1, and decay takes one
off the smoke and the fire of a tile that has some. -/
def sampleTileRules : TileRules :=
  { addSmoke := fun t smoke => { t with getSmoke := t.getSmoke + smoke }
    ignite := fun t => { t with getFire := 1 }
    prepareNewTurn := fun t =>
      { t with
        getSmoke := if t.getSmoke > 0 then t.getSmoke - 1 else t.getSmoke
        getFire := if t.getFire > 0 then t.getFire - 1 else t.getFire } }

/-- A generator whose first draw is the upper bound and whose later draws are the middle of
the requested range: the drift of the smoke is (+1, 0). -/
def driftEastRNG : RNG :=
  { generate := fun min max n => if n = 0 then max else (min + max).tdiv 2
    generateReal := fun min _ _ => min }

/-- A row of three tiles: the tile (0, 0, 0) carries 8 of smoke, and the tile (1, 0, 0) has
a west wall that blocks 100 of every energy type. -/
def smokeWallBattle : SavedBattleGame :=
  { getWidth := 3, getLength := 1, getHeight := 1
    tiles := fun pos =>
      { getPosition := pos
        getSmoke := if pos = ⟨0, 0, 0⟩ then 8 else 0
        getMapData := fun part =>
          if pos = ⟨1, 0, 0⟩ ∧ part = MapData.O_WESTWALL then some (blockPart 100) else none } }

/-- A terrain part that blocks 100 of smoke and nothing of the other energy types. -/
def smokeScreenPart : MapData :=
  { getBlock := fun type => if type = ItemDamageType.DT_SMOKE then 100 else 0
    getLoftID := fun _ => 0 }

/-- A row of two tiles: the tile (0, 0, 0) burns, and the tile (1, 0, 0), of flammability
0, has a west wall that blocks smoke only. -/
def fireBattle : SavedBattleGame :=
  { getWidth := 2, getLength := 1, getHeight := 1
    tiles := fun pos =>
      { getPosition := pos
        getFire := if pos = ⟨0, 0, 0⟩ then 5 else 0
        getMapData := fun part =>
          if pos = ⟨1, 0, 0⟩ ∧ part = MapData.O_WESTWALL then some smokeScreenPart else none } }

/-- A generator that draws the lower bound of every integer range and 50 from the normal
sampler. -/
def sparkRNG : RNG :=
  { generate := fun min _ _ => min
    generateReal := fun min _ _ => min
    boxMuller := fun _ _ _ => 50 }

/-! ## Sample worlds for tiles that are not neighbours -/

/-- The grid of `crateTile`, 4 x 1 x 1: a row of four tiles whose western end, at
(0, 0, 0), holds a solid object. -/
def crateRowBattle : SavedBattleGame :=
  { getWidth := 4, getLength := 1, getHeight := 1, tiles := crateTile }

/-- A voxel mask table of 32 solid rows: the loft bitmap 0 with room behind it. -/
def wideVoxelData : List Nat := List.replicate 32 65535

/-- The observer, facing north-east. -/
def scout : BattleUnit := { observer with getDirection := 1 }

/-- The alien, standing on tile (1, 1, 0). -/
def lurker : BattleUnit := { alien with getPosition := ⟨1, 1, 0⟩ }

/-- A grid of 2 x 2 open tiles with the scout on (0, 0, 0) and the lurker on (1, 1, 0). -/
def squadBattle : SavedBattleGame :=
  { getWidth := 2, getLength := 2, getHeight := 1
    tiles := fun pos =>
      { getPosition := pos
        getUnit := if pos = ⟨0, 0, 0⟩ then some scout
          else if pos = ⟨1, 1, 0⟩ then some lurker else none }
    getUnits := [scout, lurker] }

/-- A diagonal ray from tile (0, 0, 0) that samples every tile twice, as the rays of the
code do between the compass directions: the steps 1 and 2 lie on tile (1, 1, 0), the steps
3 and 4 on tile (2, 2, 0). It is used for every angle. -/
def stairSight : Int → Int → Nat → Position :=
  fun _ _ l => ⟨((l + 1) / 2 : Nat), ((l + 1) / 2 : Nat), 0⟩

/-! ## Reaction fire: who can take the shot -/

/-- The visible units of the unit `i` when the loop of `checkReactionFire` reaches it: those
rebuilt by `calculateFOV(*i)` when `recalculateFOV` is set, those it holds otherwise. -/
def checkReactionFire.visibleTo (save : SavedBattleGame) (voxelData : List Nat) (x8 y8 : Int)
    (ray : BattleUnit → Int → Int → Nat → Position) (recalculateFOV : Bool)
    (visibleUnits : Nat → List BattleUnit) (i : BattleUnit) : List BattleUnit :=
  if recalculateFOV then
    match calculateFOV.rebuild save voxelData x8 y8 (ray i) i with
    | .ok pass => pass.visibleUnits
    | .error _ => []
  else visibleUnits i.id

/-- The test of the loop of `checkReactionFire` for the unit `i` together with the test of
its inner loop for some visible unit `j`, without the comparison of the scores: `i` is
nearer than 19 to `unit`, not of the side in turn, not out, and `unit` is among its visible
units. -/
def checkReactionFire.Spots (save : SavedBattleGame) (seen : BattleUnit → List BattleUnit)
    (unit i : BattleUnit) : Prop :=
  (addLight.distance |unit.getPosition.x - i.getPosition.x|
      |unit.getPosition.y - i.getPosition.y| < 19
    ∧ i.getFaction ≠ save.getSide ∧ i.isOut = false)
  ∧ ∃ j ∈ seen i, j.id = unit.id

instance (save : SavedBattleGame) (seen : BattleUnit → List BattleUnit)
    (unit i : BattleUnit) : Decidable (checkReactionFire.Spots save seen unit i) :=
  inferInstanceAs (Decidable
    ((addLight.distance |unit.getPosition.x - i.getPosition.x|
        |unit.getPosition.y - i.getPosition.y| < 19
      ∧ i.getFaction ≠ save.getSide ∧ i.isOut = false)
    ∧ ∃ j ∈ seen i, j.id = unit.id))

/-- The rays of a row of tiles towards the west, from the tile of each observer. They are
used for every angle. -/
def westSights : BattleUnit → Int → Int → Nat → Position :=
  fun i _ _ l => ⟨i.getPosition.x - l, 0, 0⟩

/-! # Theorems -/

/-! ## Vertical blockage -/

theorem verticalBlockageDown_eq (save : SavedBattleGame) (x y zEnd : Int)
    (type : ItemDamageType) :
    ∀ (fuel : Nat) (z block : Int), z - zEnd = fuel →
      verticalBlockageDown save x y zEnd type fuel z block
        = .ok (block + ∑ k ∈ Finset.Icc (zEnd + 1) z,
            blockage (save.getTile ⟨x, y, k⟩) MapData.O_FLOOR type) := by
  intro fuel
  induction fuel with
  | zero =>
    intro z block h
    have hz : ¬ z > zEnd := by omega
    have hempty : Finset.Icc (zEnd + 1) z = ∅ := Finset.Icc_eq_empty (by omega)
    simp [verticalBlockageDown, hz, hempty]
  | succ n ih =>
    intro z block h
    have hz : z > zEnd := by omega
    have hins : Finset.Icc (zEnd + 1) z = insert z (Finset.Icc (zEnd + 1) (z - 1)) := by
      ext k
      simp only [Finset.mem_Icc, Finset.mem_insert]
      omega
    have hnot : z ∉ Finset.Icc (zEnd + 1) (z - 1) := by
      simp only [Finset.mem_Icc]
      omega
    rw [verticalBlockageDown, if_pos hz, ih (z - 1) _ (by omega), hins,
      Finset.sum_insert hnot]
    congr 1
    ring

theorem verticalBlockageUp_eq (save : SavedBattleGame) (x y zEnd : Int)
    (type : ItemDamageType) :
    ∀ (fuel : Nat) (z block : Int), zEnd + 1 - z = fuel →
      verticalBlockageUp save x y zEnd type fuel z block
        = .ok (block + ∑ k ∈ Finset.Icc z zEnd,
            blockage (save.getTile ⟨x, y, k⟩) MapData.O_FLOOR type) := by
  intro fuel
  induction fuel with
  | zero =>
    intro z block h
    have hz : ¬ z ≤ zEnd := by omega
    have hempty : Finset.Icc z zEnd = ∅ := Finset.Icc_eq_empty (by omega)
    simp [verticalBlockageUp, hz, hempty]
  | succ n ih =>
    intro z block h
    have hz : z ≤ zEnd := by omega
    have hins : Finset.Icc z zEnd = insert z (Finset.Icc (z + 1) zEnd) := by
      ext k
      simp only [Finset.mem_Icc, Finset.mem_insert]
      omega
    have hnot : z ∉ Finset.Icc (z + 1) zEnd := by
      simp only [Finset.mem_Icc]
      omega
    rw [verticalBlockageUp, if_pos hz, ih (z + 1) _ (by omega), hins,
      Finset.sum_insert hnot]
    congr 1
    ring

/-- C10: `verticalBlockage` returns 0 when either tile is absent or both are on the same
level; otherwise it returns the sum of the floor-part blockage of the tiles of the start
tile's column on the levels `z_end+1 .. z_start` (end lower) or `z_start+1 .. z_end`
(end higher), which are exactly `|z_start - z_end|` tiles. -/
theorem verticalBlockage_sums_floors (save : SavedBattleGame) (type : ItemDamageType) :
    (∀ endTile, verticalBlockage save none endTile type = .ok 0)
    ∧ (∀ startTile, verticalBlockage save startTile none type = .ok 0)
    ∧ ∀ s e : Tile,
      (e.getPosition.z = s.getPosition.z →
        verticalBlockage save (some s) (some e) type = .ok 0)
      ∧ (e.getPosition.z < s.getPosition.z →
        verticalBlockage save (some s) (some e) type
          = .ok (∑ k ∈ Finset.Icc (e.getPosition.z + 1) s.getPosition.z,
              blockage (save.getTile ⟨s.getPosition.x, s.getPosition.y, k⟩)
                MapData.O_FLOOR type)
        ∧ (Finset.Icc (e.getPosition.z + 1) s.getPosition.z).card
            = (s.getPosition.z - e.getPosition.z).natAbs)
      ∧ (s.getPosition.z < e.getPosition.z →
        verticalBlockage save (some s) (some e) type
          = .ok (∑ k ∈ Finset.Icc (s.getPosition.z + 1) e.getPosition.z,
              blockage (save.getTile ⟨s.getPosition.x, s.getPosition.y, k⟩)
                MapData.O_FLOOR type)
        ∧ (Finset.Icc (s.getPosition.z + 1) e.getPosition.z).card
            = (s.getPosition.z - e.getPosition.z).natAbs) := by
  refine ⟨?_, ?_, ?_⟩
  · intro endTile
    cases endTile <;> rfl
  · intro startTile
    cases startTile <;> rfl
  · intro s e
    refine ⟨?_, ?_, ?_⟩
    · intro h
      simp [verticalBlockage, h]
    · intro h
      constructor
      · have hd : e.getPosition.z - s.getPosition.z < 0 := by omega
        simp only [verticalBlockage, if_pos hd]
        rw [verticalBlockageDown_eq save _ _ _ type _ _ 0 (by omega)]
        simp
      · rw [Int.card_Icc]
        omega
    · intro h
      constructor
      · have hd : ¬ e.getPosition.z - s.getPosition.z < 0 := by omega
        have hd2 : e.getPosition.z - s.getPosition.z > 0 := by omega
        simp only [verticalBlockage, if_neg hd, if_pos hd2]
        rw [verticalBlockageUp_eq save _ _ _ type _ _ 0 (by omega)]
        simp
      · rw [Int.card_Icc]
        omega

/-! ## Per-part blockage -/

/-- C9: the per-part blockage function equals its specification for every tile, part and
energy type: 0 for an absent tile; 15 (high-explosive) or 255 (any other type) for the
floor part of a tile with a floor; otherwise the part's own value for the type (0 when
absent), forced to 0 when that part is an open UFO door. -/
theorem blockage_eq_blockageSpec (tile : Option Tile) (part : Int) (type : ItemDamageType) :
    blockage tile part type = blockageSpec tile part type := by
  cases tile with
  | none => rfl
  | some t =>
    simp only [blockage, blockageSpec]
    by_cases hp : part = MapData.O_FLOOR
    · subst hp
      cases hf : t.getMapData MapData.O_FLOOR with
      | none => simp [hf]
      | some mp => cases type <;> simp [hf]
    · have hb : (part == MapData.O_FLOOR) = false := by simpa using hp
      simp only [hp, false_and, if_false, hb]
      cases hm : t.getMapData part <;> cases hd : t.isUfoDoorOpen part <;> simp

/-! ## Direction from vector -/

theorem vectorToDirection_compass :
    vectorToDirection ⟨0, 1, 0⟩ = .ok 0 ∧ vectorToDirection ⟨1, 1, 0⟩ = .ok 1
    ∧ vectorToDirection ⟨1, 0, 0⟩ = .ok 2 ∧ vectorToDirection ⟨1, -1, 0⟩ = .ok 3
    ∧ vectorToDirection ⟨0, -1, 0⟩ = .ok 4 ∧ vectorToDirection ⟨-1, -1, 0⟩ = .ok 5
    ∧ vectorToDirection ⟨-1, 0, 0⟩ = .ok 6 ∧ vectorToDirection ⟨-1, 1, 0⟩ = .ok 7 := by
  decide

/-- C8: for the zero vector, and for a vector with a horizontal component of magnitude 2,
the lookup loop of `vectorToDirection` finds no match among the eight table entries and
goes on to `i = 8`, where it reads `x[8]` past the end of the table: it does not
return -1. -/
theorem vectorToDirection_reads_past_table :
    vectorToDirection ⟨0, 0, 0⟩ = .error .undefinedRead
    ∧ vectorToDirection ⟨2, 0, 0⟩ = .error .undefinedRead
    ∧ vectorToDirection ⟨0, 0, 0⟩ ≠ .ok (-1) := by
  decide

/-- The value of `vectorToDirection` for every vector: the index of the matching compass
step, or the fault of reading `x[8]` when no entry matches. -/
theorem vectorToDirection_eq (v : Position) :
    vectorToDirection v =
      if v.x = 0 ∧ v.y = 1 then .ok 0
      else if v.x = 1 ∧ v.y = 1 then .ok 1
      else if v.x = 1 ∧ v.y = 0 then .ok 2
      else if v.x = 1 ∧ v.y = -1 then .ok 3
      else if v.x = 0 ∧ v.y = -1 then .ok 4
      else if v.x = -1 ∧ v.y = -1 then .ok 5
      else if v.x = -1 ∧ v.y = 0 then .ok 6
      else if v.x = -1 ∧ v.y = 1 then .ok 7
      else .error .undefinedRead := by
  obtain ⟨x, y, z⟩ := v
  have hx : x = 0 ∨ x = 1 ∨ x = -1 ∨ (x ≠ 0 ∧ x ≠ 1 ∧ x ≠ -1) := by omega
  have hy : y = 0 ∨ y = 1 ∨ y = -1 ∨ (y ≠ 0 ∧ y ≠ 1 ∧ y ≠ -1) := by omega
  have hloop : ∀ l, vectorToDirection.loop ⟨x, y, z⟩ l = vectorToDirection.loop ⟨x, y, 0⟩ l := by
    intro l
    induction l with
    | nil => rfl
    | cons i rest ih => simp only [vectorToDirection.loop, ih]
  dsimp only
  rcases hx with rfl | rfl | rfl | ⟨hx0, hx1, hx2⟩
  · rcases hy with rfl | rfl | rfl | ⟨hy0, hy1, hy2⟩
    · unfold vectorToDirection; rw [hloop]; decide
    · unfold vectorToDirection; rw [hloop]; decide
    · unfold vectorToDirection; rw [hloop]; decide
    · simp [vectorToDirection, List.range, List.range.loop, vectorToDirection.loop,
        vectorToDirection.x, vectorToDirection.y, hy0, hy1, hy2, Ne.symm hy0, Ne.symm hy1,
        Ne.symm hy2]
  · rcases hy with rfl | rfl | rfl | ⟨hy0, hy1, hy2⟩
    · unfold vectorToDirection; rw [hloop]; decide
    · unfold vectorToDirection; rw [hloop]; decide
    · unfold vectorToDirection; rw [hloop]; decide
    · simp [vectorToDirection, List.range, List.range.loop, vectorToDirection.loop,
        vectorToDirection.x, vectorToDirection.y, hy0, hy1, hy2, Ne.symm hy0, Ne.symm hy1,
        Ne.symm hy2]
  · rcases hy with rfl | rfl | rfl | ⟨hy0, hy1, hy2⟩
    · unfold vectorToDirection; rw [hloop]; decide
    · unfold vectorToDirection; rw [hloop]; decide
    · unfold vectorToDirection; rw [hloop]; decide
    · simp [vectorToDirection, List.range, List.range.loop, vectorToDirection.loop,
        vectorToDirection.x, vectorToDirection.y, hy0, hy1, hy2, Ne.symm hy0, Ne.symm hy1,
        Ne.symm hy2]
  · simp [vectorToDirection, List.range, List.range.loop, vectorToDirection.loop,
      vectorToDirection.x, vectorToDirection.y, hx0, hx1, hx2, Ne.symm hx0, Ne.symm hx1,
      Ne.symm hx2]

/-! ## Voxel collision resolver -/

theorem voxelBit_eq_ok_true (voxelData : List Nat) (idx x : Int) :
    voxelBit voxelData idx x = .ok true ↔
      ∃ row, 0 ≤ idx ∧ voxelData[idx.toNat]? = some row ∧ row.testBit x.toNat = true := by
  unfold voxelBit voxelDataAt
  by_cases hidx : idx < 0
  · simp only [hidx, if_true]
    constructor
    · intro h
      cases h
    · rintro ⟨row, h0, -, -⟩
      omega
  · simp only [hidx, if_false]
    cases hrow : voxelData[idx.toNat]? with
    | none => simp
    | some row =>
      have hbit : row &&& (1 <<< x.toNat) = (1 <<< x.toNat) ↔ row.testBit x.toNat = true := by
        rw [Nat.one_shiftLeft, Nat.and_two_pow]
        have hpos : 0 < 2 ^ x.toNat := Nat.two_pow_pos _
        cases hb : row.testBit x.toNat
        · simp
          omega
        · simp
      simp only [Except.ok.injEq, decide_eq_true_eq, Option.some.injEq]
      constructor
      · intro h
        exact ⟨row, by omega, rfl, hbit.mp h⟩
      · rintro ⟨row2, -, hr, hb⟩
        cases hr
        exact hbit.mpr hb

theorem voxelCheck_parts_ok (tile : Tile) (voxelData : List Nat) (voxel : Position) :
    ∀ (l : List Int) (j : Int), voxelCheck.parts tile voxelData voxel l = .ok j →
      j = -1 ∨ (j ∈ l ∧ tile.isUfoDoorOpen j = false) := by
  intro l
  induction l with
  | nil =>
    intro j h
    simp only [voxelCheck.parts, Except.ok.injEq] at h
    exact Or.inl h.symm
  | cons i rest ih =>
    intro j h
    have lift : (j = -1 ∨ (j ∈ rest ∧ tile.isUfoDoorOpen j = false)) →
        (j = -1 ∨ (j ∈ i :: rest ∧ tile.isUfoDoorOpen j = false)) := by
      rintro (h1 | ⟨h1, h2⟩)
      · exact Or.inl h1
      · exact Or.inr ⟨List.mem_cons_of_mem _ h1, h2⟩
    rw [voxelCheck.parts] at h
    cases hopen : tile.isUfoDoorOpen i with
    | true =>
      simp only [hopen, if_true] at h
      exact lift (ih j h)
    | false =>
      simp only [hopen, Bool.false_eq_true, if_false] at h
      cases hmp : tile.getMapData i with
      | none =>
        simp only [hmp] at h
        exact lift (ih j h)
      | some mp =>
        simp only [hmp] at h
        split at h
        · cases h
        · simp only [Except.ok.injEq] at h
          subst h
          exact Or.inr ⟨List.mem_cons_self _ _, hopen⟩
        · exact lift (ih j h)

/-- The only fault of `voxelCheck` is the exception of the voxel mask table. -/
theorem voxelBit_fault (voxelData : List Nat) (idx x : Int) (e : Fault)
    (h : voxelBit voxelData idx x = .error e) : e = .outOfRange := by
  unfold voxelBit voxelDataAt at h
  split_ifs at h
  · simp only [Except.error.injEq] at h
    exact h.symm
  · cases hrow : voxelData[idx.toNat]? with
    | none =>
      simp only [hrow, Except.error.injEq] at h
      exact h.symm
    | some row => simp [hrow] at h

theorem voxelCheck_parts_fault (tile : Tile) (voxelData : List Nat) (voxel : Position)
    (e : Fault) :
    ∀ l : List Int, voxelCheck.parts tile voxelData voxel l = .error e → e = .outOfRange := by
  intro l
  induction l with
  | nil =>
    intro h
    simp [voxelCheck.parts] at h
  | cons i rest ih =>
    intro h
    rw [voxelCheck.parts] at h
    split_ifs at h
    · exact ih h
    · split at h
      · exact ih h
      · dsimp only at h
        split at h
        · rename_i e2 he
          simp only [Except.error.injEq] at h
          subst h
          exact voxelBit_fault _ _ _ _ he
        · cases h
        · exact ih h

theorem voxelCheck_fault (save : SavedBattleGame) (voxelData : List Nat) (voxel : Position)
    (excludeUnit : Option BattleUnit) (e : Fault)
    (h : voxelCheck save voxelData voxel excludeUnit = .error e) : e = .outOfRange := by
  unfold voxelCheck at h
  split at h
  · cases h
  · split at h
    · rename_i e2 he
      simp only [Except.error.injEq] at h
      subst h
      unfold voxelCheck.unit at he
      split at he
      · cases he
      · dsimp only at he
        split_ifs at he
        all_goals exact voxelBit_fault _ _ _ _ he
    · cases h
    · exact voxelCheck_parts_fault _ _ _ _ _ h

/-- A voxel whose truncated tile coordinate is outside the grid reports 5. -/
theorem voxelCheck_no_tile (save : SavedBattleGame) (voxelData : List Nat) (voxel : Position)
    (excludeUnit : Option BattleUnit)
    (h : save.getTile ⟨voxel.x.tdiv 16, voxel.y.tdiv 16, voxel.z.tdiv 24⟩ = none) :
    voxelCheck save voxelData voxel excludeUnit = .ok 5 := by
  simp [voxelCheck, h]

theorem tdiv_neg_of_le (a d : Int) (hd : 0 < d) (ha : a ≤ -d) : a.tdiv d < 0 := by
  have h1 : a.tdiv d = -((-a).tdiv d) := by
    rw [Int.neg_tdiv, neg_neg]
  have h2 : (-a).tdiv d = (-a) / d := Int.tdiv_eq_ediv (by omega) (by omega)
  have h3 : 1 ≤ (-a) / d := by
    apply Int.le_ediv_of_mul_le hd
    omega
  omega

/-- Away from the voxels with a component just below zero (x or y in -15..-1, z in
-23..-1), a voxel whose tile coordinate `floor(voxel / (16,16,24))` is outside the grid
reports 5. -/
theorem voxelCheck_out_of_bounds (save : SavedBattleGame) (voxelData : List Nat)
    (voxel : Position) (excludeUnit : Option BattleUnit)
    (hx : voxel.x ≤ -16 ∨ 0 ≤ voxel.x) (hy : voxel.y ≤ -16 ∨ 0 ≤ voxel.y)
    (hz : voxel.z ≤ -24 ∨ 0 ≤ voxel.z)
    (h : save.getTile ⟨voxel.x / 16, voxel.y / 16, voxel.z / 24⟩ = none) :
    voxelCheck save voxelData voxel excludeUnit = .ok 5 := by
  apply voxelCheck_no_tile
  have key : ∀ (a d b : Int), 0 < d → (a ≤ -d ∨ 0 ≤ a) →
      ((a.tdiv d < 0 ∨ a.tdiv d ≥ b) ↔ (a / d < 0 ∨ a / d ≥ b)) := by
    intro a d b hd ha
    rcases ha with ha | ha
    · have h1 := tdiv_neg_of_le a d hd ha
      have h2 : a / d < 0 := Int.ediv_neg' (by omega) hd
      constructor <;> intro _
      · exact Or.inl h2
      · exact Or.inl h1
    · rw [Int.tdiv_eq_ediv ha (by omega)]
  have kx := key voxel.x 16 save.getWidth (by decide) hx
  have ky := key voxel.y 16 save.getLength (by decide) hy
  have kz := key voxel.z 24 save.getHeight (by decide) hz
  unfold SavedBattleGame.getTile at h ⊢
  dsimp only at h ⊢
  split_ifs at h with hc
  have hc2 : voxel.x.tdiv 16 < 0 ∨ voxel.y.tdiv 16 < 0 ∨ voxel.z.tdiv 24 < 0
      ∨ voxel.x.tdiv 16 ≥ save.getWidth ∨ voxel.y.tdiv 16 ≥ save.getLength
      ∨ voxel.z.tdiv 24 ≥ save.getHeight := by
    rcases hc with hc | hc | hc | hc | hc | hc
    · rcases kx.mpr (Or.inl hc) with h' | h'
      · exact Or.inl h'
      · exact Or.inr (Or.inr (Or.inr (Or.inl h')))
    · rcases ky.mpr (Or.inl hc) with h' | h'
      · exact Or.inr (Or.inl h')
      · exact Or.inr (Or.inr (Or.inr (Or.inr (Or.inl h'))))
    · rcases kz.mpr (Or.inl hc) with h' | h'
      · exact Or.inr (Or.inr (Or.inl h'))
      · exact Or.inr (Or.inr (Or.inr (Or.inr (Or.inr h'))))
    · rcases kx.mpr (Or.inr hc) with h' | h'
      · exact Or.inl h'
      · exact Or.inr (Or.inr (Or.inr (Or.inl h')))
    · rcases ky.mpr (Or.inr hc) with h' | h'
      · exact Or.inr (Or.inl h')
      · exact Or.inr (Or.inr (Or.inr (Or.inr (Or.inl h'))))
    · rcases kz.mpr (Or.inr hc) with h' | h'
      · exact Or.inr (Or.inr (Or.inl h'))
      · exact Or.inr (Or.inr (Or.inr (Or.inr (Or.inr h'))))
  rw [if_pos hc2]

/-- C5: on a 1x1x1 grid of one empty tile, the voxel (-1, 0, 0) has the tile coordinate
`floor(-1/16) = -1`, outside the grid, but `voxelCheck` divides with truncation toward
zero, takes tile (0, 0, 0) and returns -1 (no hit) instead of 5 (out of bounds). -/
theorem voxelCheck_negative_voxel_not_out_of_bounds :
    (emptyBattle 1 1 1).getTile ⟨(-1) / 16, 0 / 16, 0 / 24⟩ = none
    ∧ voxelCheck (emptyBattle 1 1 1) [] ⟨-1, 0, 0⟩ none = .ok (-1)
    ∧ voxelCheck (emptyBattle 1 1 1) [] ⟨-1, 0, 0⟩ none ≠ .ok 5 :=
  ⟨rfl, by decide, by decide⟩

/-- C6: if part `i` (0..3) of the tile of the voxel is an open UFO door, `voxelCheck` does
not return `i`, whatever the voxel mask table and the loft of the part are. -/
theorem voxelCheck_skips_open_ufo_door (save : SavedBattleGame) (voxelData : List Nat)
    (voxel : Position) (excludeUnit : Option BattleUnit) (tile : Tile) (i : Int)
    (hi : 0 ≤ i ∧ i ≤ 3)
    (htile : save.getTile ⟨voxel.x.tdiv 16, voxel.y.tdiv 16, voxel.z.tdiv 24⟩ = some tile)
    (hopen : tile.isUfoDoorOpen i = true) :
    voxelCheck save voxelData voxel excludeUnit ≠ .ok i := by
  intro h
  simp only [voxelCheck, htile] at h
  split at h
  · cases h
  · simp only [Except.ok.injEq] at h
    omega
  · rcases voxelCheck_parts_ok _ _ _ _ _ h with h1 | ⟨-, h2⟩
    · omega
    · rw [hopen] at h2
      cases h2

theorem voxelCheck_skips_open_ufo_door_witness :
    (doorTile ⟨0, 0, 0⟩).isUfoDoorOpen 1 = true
    ∧ voxelCheck doorBattle solidVoxelData ⟨3, 4, 5⟩ none = .ok (-1)
    ∧ voxelCheck doorBattle solidVoxelData ⟨3, 4, 5⟩ none ≠ .ok 1 :=
  ⟨by decide, by decide,
    voxelCheck_skips_open_ufo_door doorBattle solidVoxelData ⟨3, 4, 5⟩ none
      (doorTile ⟨0, 0, 0⟩) 1 (by decide) rfl (by decide)⟩

/-- C7: for an in-grid voxel with non-negative coordinates, `voxelCheck` returns 4 exactly
when the tile has an occupant other than the excluded unit, `z mod 24` is below the
occupant's kneel height (kneeling) or stand height (otherwise), and bit `15 - x mod 16`
of row `loft * 16 + (15 - y mod 16)` of the mask table is set; the terrain parts of the
tile play no role. -/
theorem voxelCheck_unit_iff (save : SavedBattleGame) (voxelData : List Nat)
    (voxel : Position) (excludeUnit : Option BattleUnit) (tile : Tile)
    (hx : 0 ≤ voxel.x) (hy : 0 ≤ voxel.y) (hz : 0 ≤ voxel.z)
    (htile : save.getTile ⟨voxel.x / 16, voxel.y / 16, voxel.z / 24⟩ = some tile) :
    voxelCheck save voxelData voxel excludeUnit = .ok 4 ↔
      ∃ unit, tile.getUnit = some unit
        ∧ some unit.id ≠ excludeUnit.map BattleUnit.id
        ∧ voxel.z % 24
            < (if unit.isKneeled = true then unit.getKneelHeight else unit.getStandHeight)
        ∧ ∃ row, 0 ≤ unit.gotLoftemps * 16 + (15 - voxel.y % 16)
          ∧ voxelData[(unit.gotLoftemps * 16 + (15 - voxel.y % 16)).toNat]? = some row
          ∧ row.testBit (15 - voxel.x % 16).toNat = true := by
  have hdx : voxel.x.tdiv 16 = voxel.x / 16 := Int.tdiv_eq_ediv hx (by decide)
  have hdy : voxel.y.tdiv 16 = voxel.y / 16 := Int.tdiv_eq_ediv hy (by decide)
  have hdz : voxel.z.tdiv 24 = voxel.z / 24 := Int.tdiv_eq_ediv hz (by decide)
  have hmx : voxel.x.tmod 16 = voxel.x % 16 := Int.tmod_eq_emod hx (by decide)
  have hmy : voxel.y.tmod 16 = voxel.y % 16 := Int.tmod_eq_emod hy (by decide)
  have hmz : voxel.z.tmod 24 = voxel.z % 24 := Int.tmod_eq_emod hz (by decide)
  have hunit : voxelCheck save voxelData voxel excludeUnit = .ok 4 ↔
      voxelCheck.unit tile voxelData voxel excludeUnit = .ok true := by
    simp only [voxelCheck, hdx, hdy, hdz, htile]
    constructor
    · intro h
      split at h
      · cases h
      · assumption
      · rcases voxelCheck_parts_ok _ _ _ _ _ h with h1 | ⟨h1, -⟩
        · omega
        · simp at h1
    · intro h
      simp [h]
  rw [hunit]
  unfold voxelCheck.unit
  cases hu : tile.getUnit with
  | none => simp
  | some unit =>
    simp only [hmx, hmy, hmz, Option.some.injEq, exists_eq_left']
    by_cases hex : some unit.id ≠ excludeUnit.map BattleUnit.id
    · by_cases hh : voxel.z % 24
          < (if unit.isKneeled = true then unit.getKneelHeight else unit.getStandHeight)
      · simp only [hex, hh, if_true, not_false_eq_true, true_and, ne_eq]
        exact voxelBit_eq_ok_true _ _ _
      · simp [hex, hh]
    · simp [hex]

theorem voxelCheck_unit_iff_witness :
    voxelCheck soldierBattle solidVoxelData ⟨3, 4, 5⟩ none = .ok 4 ∧
    (voxelCheck soldierBattle solidVoxelData ⟨3, 4, 5⟩ none = .ok 4 ↔
      ∃ unit, (soldierTile ⟨0, 0, 0⟩).getUnit = some unit
        ∧ some unit.id ≠ (none : Option BattleUnit).map BattleUnit.id
        ∧ (5 : Int) % 24
            < (if unit.isKneeled = true then unit.getKneelHeight else unit.getStandHeight)
        ∧ ∃ row, 0 ≤ unit.gotLoftemps * 16 + (15 - (4 : Int) % 16)
          ∧ solidVoxelData[(unit.gotLoftemps * 16 + (15 - (4 : Int) % 16)).toNat]? = some row
          ∧ row.testBit (15 - (3 : Int) % 16).toNat = true) :=
  ⟨by decide,
    voxelCheck_unit_iff soldierBattle solidVoxelData ⟨3, 4, 5⟩ none (soldierTile ⟨0, 0, 0⟩)
      (by decide) (by decide) (by decide) rfl⟩

/-! ## 3D line trace: the loop -/

theorem calculateLine_loop_eq_scan (check : Position → Except Fault Int)
    (st has : Bool) (s : LineSetup) (hstep : s.step_x = 1 ∨ s.step_x = -1) :
    ∀ (n : Nat) (v : LineVars), s.x1 = v.x + n * s.step_x →
      calculateLine.loop check st has s n v
        = calculateLine.scan check st has (calculateLine.path s n v) := by
  intro n
  induction n with
  | zero =>
    intro v h
    have hx : v.x = s.x1 := by simp at h; omega
    simp [calculateLine.loop, calculateLine.path, calculateLine.scan, hx]
  | succ n ih =>
    intro v h
    have hx : v.x ≠ s.x1 := by
      push_cast at h
      rcases hstep with h1 | h1 <;> rw [h1] at h <;> omega
    have hnext : s.x1 = (calculateLine.advance s v).x + n * s.step_x := by
      have : (calculateLine.advance s v).x = v.x + s.step_x := by
        simp [calculateLine.advance]
      rw [this]
      push_cast at h
      rw [h]
      ring
    rw [calculateLine.loop, calculateLine.path, calculateLine.scan, if_pos hx,
      ih _ hnext]

theorem calculateLine_path_length (s : LineSetup) :
    ∀ (n : Nat) (v : LineVars), (calculateLine.path s n v).length = n := by
  intro n
  induction n with
  | zero => intro v; rfl
  | succ n ih => intro v; simp [calculateLine.path, ih]

theorem calculateLine_path_mem (s : LineSetup) :
    ∀ (n : Nat) (v : LineVars) (p : Position), p ∈ calculateLine.path s n v →
      ∃ (w : LineVars) (i : Nat), i < n ∧ w.x = v.x + i * s.step_x
        ∧ p = calculateLine.unswap s w := by
  intro n
  induction n with
  | zero =>
    intro v p hp
    simp [calculateLine.path] at hp
  | succ n ih =>
    intro v p hp
    simp only [calculateLine.path, List.mem_cons] at hp
    rcases hp with hp | hp
    · exact ⟨v, 0, by omega, by simp, hp⟩
    · obtain ⟨w, i, hi, hw, hpw⟩ := ih _ p hp
      refine ⟨w, i + 1, by omega, ?_, hpw⟩
      have : (calculateLine.advance s v).x = v.x + s.step_x := by
        simp [calculateLine.advance]
      rw [hw, this]
      push_cast
      ring

theorem calculateLine_advance_centred (s : LineSetup) (v : LineVars)
    (hy : 0 ≤ s.delta_y ∧ s.delta_y ≤ s.delta_x) (hz : 0 ≤ s.delta_z ∧ s.delta_z ≤ s.delta_x)
    (hv : calculateLine.Centred s v) :
    calculateLine.Centred s (calculateLine.advance s v) := by
  unfold calculateLine.Centred at *
  unfold calculateLine.advance
  dsimp only
  split_ifs <;> dsimp only <;> omega

theorem calculateLine_path_chain (s : LineSetup)
    (hy : 0 ≤ s.delta_y ∧ s.delta_y ≤ s.delta_x) (hz : 0 ≤ s.delta_z ∧ s.delta_z ≤ s.delta_x) :
    ∀ (n : Nat) (v : LineVars), calculateLine.Centred s v →
      List.Chain' (fun p q => ∃ w, calculateLine.Centred s w ∧ p = calculateLine.unswap s w
        ∧ q = calculateLine.unswap s (calculateLine.advance s w))
        (calculateLine.path s n v) := by
  intro n
  induction n with
  | zero =>
    intro v _
    exact List.chain'_nil
  | succ n ih =>
    intro v hv
    rw [calculateLine.path, List.chain'_cons']
    refine ⟨?_, ih _ (calculateLine_advance_centred s v hy hz hv)⟩
    intro q hq
    cases n with
    | zero => simp [calculateLine.path] at hq
    | succ k =>
      simp only [calculateLine.path, List.head?_cons, Option.mem_def, Option.some.injEq] at hq
      exact ⟨v, hv, rfl, hq.symm⟩

/-! ## 3D line trace: first hit wins -/

theorem calculateLine_scan_ok (check : Position → Except Fault Int) (st has : Bool) :
    ∀ (cs : List Position) (r : LineTrace), calculateLine.scan check st has cs = .ok r →
      (∃ rest, cs = r.checked ++ rest)
      ∧ (∀ p ∈ r.checked.dropLast, check p = .ok (-1))
      ∧ (r.result ≠ -1 → ∃ p, r.checked.getLast? = some p ∧ check p = .ok r.result)
      ∧ (r.result = -1 → r.checked = cs ∧ ∀ p ∈ cs, check p = .ok (-1))
      ∧ (st = true → r.pushed = r.checked) := by
  intro cs
  induction cs with
  | nil =>
    intro r h
    simp only [calculateLine.scan, Except.ok.injEq] at h
    subst h
    simp
  | cons c cs ih =>
    intro r h
    rw [calculateLine.scan] at h
    by_cases hnull : st = true ∧ has = false
    · rw [if_pos hnull] at h
      cases h
    rw [if_neg hnull] at h
    cases hc : check c with
    | error e => simp [hc] at h
    | ok result =>
      simp only [hc] at h
      by_cases hres : result = -1
      · simp only [hres, ne_eq, not_true_eq_false, if_false] at h
        cases hs : calculateLine.scan check st has cs with
        | error e => simp [hs] at h
        | ok r2 =>
          simp only [hs, Except.ok.injEq] at h
          obtain ⟨⟨rest, hrest⟩, hdrop, hlast, hall, hpush⟩ := ih r2 hs
          subst h
          refine ⟨⟨rest, by simp [← hrest]⟩, ?_, ?_, ?_, ?_⟩
          · intro p hp
            cases hck : r2.checked with
            | nil => simp [hck] at hp
            | cons a l =>
              rw [hck, List.dropLast_cons₂, List.mem_cons] at hp
              rcases hp with hp | hp
              · rw [hp, hc, hres]
              · exact hdrop p (by rw [hck]; exact hp)
          · intro hne
            obtain ⟨p, hp, hcp⟩ := hlast hne
            refine ⟨p, ?_, hcp⟩
            cases hck : r2.checked with
            | nil => simp [hck] at hp
            | cons a l =>
              rw [hck] at hp
              simpa [List.getLast?_cons_cons] using hp
          · intro heq
            obtain ⟨h1, h2⟩ := hall heq
            refine ⟨by simp [h1], ?_⟩
            intro p hp
            rcases List.mem_cons.mp hp with hp | hp
            · rw [hp, hc, hres]
            · exact h2 p hp
          · intro hst
            simp [hst, hpush hst]
      · simp only [ne_eq, hres, not_false_eq_true, if_true, Except.ok.injEq] at h
        subst h
        refine ⟨⟨cs, by simp⟩, by simp, ?_, ?_, ?_⟩
        · intro _
          exact ⟨c, by simp, hc⟩
        · intro heq
          exact absurd heq hres
        · intro hst
          simp [hst]

theorem calculateLine_scan_clear (check : Position → Except Fault Int) (st has : Bool) :
    ∀ (cs : List Position), (st = true → cs ≠ [] → has = true) →
      (∀ p ∈ cs, check p = .ok (-1)) →
      calculateLine.scan check st has cs = .ok ⟨-1, if st then cs else [], cs⟩ := by
  intro cs
  induction cs with
  | nil =>
    intro _ _
    simp [calculateLine.scan]
  | cons c cs ih =>
    intro hptr hall
    have hnull : ¬ (st = true ∧ has = false) := by
      rintro ⟨h1, h2⟩
      rw [hptr h1 (by simp)] at h2
      cases h2
    have hc : check c = .ok (-1) := hall c (by simp)
    have hrec := ih (fun h1 _ => hptr h1 (by simp)) (fun p hp => hall p (by simp [hp]))
    rw [calculateLine.scan, if_neg hnull, hc]
    simp only [ne_eq, not_true_eq_false, if_false, hrec]
    cases st <;> simp

theorem calculateLine_scan_error (check : Position → Except Fault Int) (st has : Bool) :
    ∀ (cs : List Position) (e : Fault), calculateLine.scan check st has cs = .error e →
      (e = .nullPointer ∧ st = true ∧ has = false) ∨ ∃ p ∈ cs, check p = .error e := by
  intro cs
  induction cs with
  | nil =>
    intro e h
    simp [calculateLine.scan] at h
  | cons c cs ih =>
    intro e h
    rw [calculateLine.scan] at h
    by_cases hnull : st = true ∧ has = false
    · rw [if_pos hnull] at h
      simp only [Except.error.injEq] at h
      exact Or.inl ⟨h.symm, hnull.1, hnull.2⟩
    · rw [if_neg hnull] at h
      cases hc : check c with
      | error e2 =>
        simp only [hc, Except.error.injEq] at h
        subst h
        exact Or.inr ⟨c, by simp, hc⟩
      | ok result =>
        simp only [hc] at h
        by_cases hres : result ≠ -1
        · rw [if_pos hres] at h
          cases h
        rw [if_neg hres] at h
        cases hs : calculateLine.scan check st has cs with
        | error e2 =>
          simp only [hs, Except.error.injEq] at h
          subst h
          rcases ih _ hs with h1 | ⟨p, hp, hcp⟩
          · exact Or.inl h1
          · exact Or.inr ⟨p, by simp [hp], hcp⟩
        | ok r2 => simp [hs] at h

/-! ## 3D line trace: the setup -/

theorem int_sign_eq_ite (d : Int) :
    Int.sign d = if d < 0 then -1 else if d = 0 then 0 else 1 := by
  rcases lt_trichotomy d 0 with h | h | h
  · rw [Int.sign_eq_neg_one_of_neg h, if_pos h]
  · subst h
    rfl
  · rw [Int.sign_eq_one_of_pos h, if_neg (by omega), if_neg (by omega)]

theorem calculateLine_setup_basic (o t : Position) :
    ((calculateLine.setup o t).step_x = 1 ∨ (calculateLine.setup o t).step_x = -1)
    ∧ (calculateLine.setup o t).x1 = (calculateLine.setup o t).x0
        + (if (calculateLine.setup o t).step_x = 1
            then ((calculateLine.setup o t).delta_x.toNat : Int)
            else - ((calculateLine.setup o t).delta_x.toNat : Int))
    ∧ (calculateLine.setup o t).delta_x.toNat
        = max (max (t.x - o.x).natAbs (t.y - o.y).natAbs) (t.z - o.z).natAbs
    ∧ (0 ≤ (calculateLine.setup o t).delta_y
        ∧ (calculateLine.setup o t).delta_y ≤ (calculateLine.setup o t).delta_x)
    ∧ (0 ≤ (calculateLine.setup o t).delta_z
        ∧ (calculateLine.setup o t).delta_z ≤ (calculateLine.setup o t).delta_x)
    ∧ 0 ≤ (calculateLine.setup o t).delta_x := by
  unfold calculateLine.setup
  by_cases h1 : (t.y - o.y).natAbs > (t.x - o.x).natAbs
  · by_cases h2 : (t.z - o.z).natAbs > (t.y - o.y).natAbs
    · simp only [h1, h2, decide_True, if_true]
      refine ⟨?_, ?_, ?_, ?_, ?_, ?_⟩ <;> omega
    · simp only [h1, h2, decide_True, decide_False, if_true, if_false, Bool.false_eq_true]
      refine ⟨?_, ?_, ?_, ?_, ?_, ?_⟩ <;> omega
  · by_cases h2 : (t.z - o.z).natAbs > (t.x - o.x).natAbs
    · simp only [h1, h2, decide_True, decide_False, if_true, if_false, Bool.false_eq_true]
      refine ⟨?_, ?_, ?_, ?_, ?_, ?_⟩ <;> omega
    · simp only [h1, h2, decide_False, if_false, Bool.false_eq_true]
      refine ⟨?_, ?_, ?_, ?_, ?_, ?_⟩ <;> omega

theorem calculateLine_setup_origin (o t : Position) (d1 d2 : Int) :
    calculateLine.unswap (calculateLine.setup o t)
      ⟨(calculateLine.setup o t).x0, (calculateLine.setup o t).y0,
        (calculateLine.setup o t).z0, d1, d2⟩ = o := by
  unfold calculateLine.setup calculateLine.unswap
  by_cases h1 : (t.y - o.y).natAbs > (t.x - o.x).natAbs
  · by_cases h2 : (t.z - o.z).natAbs > (t.y - o.y).natAbs <;> simp [h1, h2]
  · by_cases h2 : (t.z - o.z).natAbs > (t.x - o.x).natAbs <;> simp [h1, h2]

theorem calculateLine_setup_target (o t : Position) (v : LineVars)
    (h : calculateLine.unswap (calculateLine.setup o t) v = t) :
    v.x = (calculateLine.setup o t).x1 := by
  unfold calculateLine.setup calculateLine.unswap at h
  unfold calculateLine.setup
  by_cases h1 : (t.y - o.y).natAbs > (t.x - o.x).natAbs
  · by_cases h2 : (t.z - o.z).natAbs > (t.y - o.y).natAbs
    · simp [h1, h2] at h ⊢
      rw [← h]
    · simp [h1, h2] at h ⊢
      rw [← h]
  · by_cases h2 : (t.z - o.z).natAbs > (t.x - o.x).natAbs
    · simp [h1, h2] at h ⊢
      rw [← h]
    · simp [h1, h2] at h ⊢
      rw [← h]

theorem calculateLine_advance_facts (s : LineSetup) (v : LineVars)
    (hv : calculateLine.Centred s v) :
    (calculateLine.advance s v).x = v.x + s.step_x
    ∧ ((calculateLine.advance s v).y = v.y ∨ (calculateLine.advance s v).y = v.y + s.step_y)
    ∧ (s.delta_y = s.delta_x → (calculateLine.advance s v).y = v.y + s.step_y)
    ∧ ((calculateLine.advance s v).z = v.z ∨ (calculateLine.advance s v).z = v.z + s.step_z)
    ∧ (s.delta_z = s.delta_x → (calculateLine.advance s v).z = v.z + s.step_z) := by
  unfold calculateLine.Centred at hv
  unfold calculateLine.advance
  dsimp only
  split_ifs <;> dsimp only <;> refine ⟨rfl, ?_, ?_, ?_, ?_⟩ <;> omega

theorem calculateLine_setup_step (o t : Position) (v : LineVars)
    (hv : calculateLine.Centred (calculateLine.setup o t) v) :
    calculateLine.Step o t (calculateLine.unswap (calculateLine.setup o t) v)
      (calculateLine.unswap (calculateLine.setup o t)
        (calculateLine.advance (calculateLine.setup o t) v)) := by
  obtain ⟨hf1, hf2, hf3, hf4, hf5⟩ := calculateLine_advance_facts _ v hv
  generalize calculateLine.advance (calculateLine.setup o t) v = w at hf1 hf2 hf3 hf4 hf5 ⊢
  obtain ⟨hv1, hv2, -, -⟩ := hv
  unfold calculateLine.Step calculateLine.unswap
  unfold calculateLine.setup at hv2 hf1 hf2 hf3 hf4 hf5 ⊢
  simp only [int_sign_eq_ite]
  by_cases h1 : (t.y - o.y).natAbs > (t.x - o.x).natAbs
  · by_cases h2 : (t.z - o.z).natAbs > (t.y - o.y).natAbs
    · simp only [h1, h2, decide_True, if_true] at hv2 hf1 hf2 hf3 hf4 hf5 ⊢
      refine ⟨?_, ?_, ?_, ?_, ?_, ?_⟩
      · clear hf1 hf2 hf4 hf5
        omega
      · clear hf1 hf2 hf3 hf4
        omega
      · clear hf2 hf3 hf4 hf5
        omega
      · clear hf1 hf3 hf4 hf5 h1 h2 hv1 hv2
        omega
      · clear hf1 hf2 hf3 hf5 h1 h2 hv1 hv2
        omega
      · clear hf2 hf3 hf4 hf5 h1 h2 hv1 hv2
        omega
    · simp only [h1, h2, decide_True, decide_False, if_true, if_false,
        Bool.false_eq_true] at hv2 hf1 hf2 hf3 hf4 hf5 ⊢
      refine ⟨?_, ?_, ?_, ?_, ?_, ?_⟩
      · clear hf1 hf2 hf4 hf5
        omega
      · clear hf2 hf3 hf4 hf5
        omega
      · clear hf1 hf2 hf3 hf4
        omega
      · clear hf1 hf3 hf4 hf5 h1 h2 hv1 hv2
        omega
      · clear hf2 hf3 hf4 hf5 h1 h2 hv1 hv2
        omega
      · clear hf1 hf2 hf3 hf5 h1 h2 hv1 hv2
        omega
  · by_cases h2 : (t.z - o.z).natAbs > (t.x - o.x).natAbs
    · simp only [h1, h2, decide_True, decide_False, if_true, if_false,
        Bool.false_eq_true] at hv2 hf1 hf2 hf3 hf4 hf5 ⊢
      refine ⟨?_, ?_, ?_, ?_, ?_, ?_⟩
      · clear hf1 hf2 hf3 hf4
        omega
      · clear hf1 hf2 hf4 hf5
        omega
      · clear hf2 hf3 hf4 hf5
        omega
      · clear hf1 hf2 hf3 hf5 h1 h2 hv1 hv2
        omega
      · clear hf1 hf3 hf4 hf5 h1 h2 hv1 hv2
        omega
      · clear hf2 hf3 hf4 hf5 h1 h2 hv1 hv2
        omega
    · simp only [h1, h2, decide_False, if_false, Bool.false_eq_true]
        at hv2 hf1 hf2 hf3 hf4 hf5 ⊢
      refine ⟨?_, ?_, ?_, ?_, ?_, ?_⟩
      · clear hf2 hf3 hf4 hf5
        omega
      · clear hf1 hf2 hf4 hf5
        omega
      · clear hf1 hf2 hf3 hf4
        omega
      · clear hf2 hf3 hf4 hf5 h1 h2 hv1 hv2
        omega
      · clear hf1 hf3 hf4 hf5 h1 h2 hv1 hv2
        omega
      · clear hf1 hf2 hf3 hf5 h1 h2 hv1 hv2
        omega

/-! ## 3D line trace: the voxels visited -/

theorem calculateLine_run_eq_scan (check : Position → Except Fault Int) (o t : Position)
    (st has : Bool) :
    calculateLine.run check o t st has
      = calculateLine.scan check st has
          (calculateLine.path (calculateLine.setup o t)
            (calculateLine.setup o t).delta_x.toNat
            ⟨(calculateLine.setup o t).x0, (calculateLine.setup o t).y0,
              (calculateLine.setup o t).z0, (calculateLine.setup o t).delta_x.tdiv 2,
              (calculateLine.setup o t).delta_x.tdiv 2⟩) := by
  obtain ⟨hstep, hx1, -⟩ := calculateLine_setup_basic o t
  unfold calculateLine.run
  apply calculateLine_loop_eq_scan _ _ _ _ hstep
  dsimp only
  rw [hx1]
  rcases hstep with h | h <;> rw [h] <;> simp

theorem calculateLine_visits_eq_path (o t : Position) :
    calculateLine.visits o t
      = calculateLine.path (calculateLine.setup o t)
          (calculateLine.setup o t).delta_x.toNat
          ⟨(calculateLine.setup o t).x0, (calculateLine.setup o t).y0,
            (calculateLine.setup o t).z0, (calculateLine.setup o t).delta_x.tdiv 2,
            (calculateLine.setup o t).delta_x.tdiv 2⟩ := by
  unfold calculateLine.visits
  rw [calculateLine_run_eq_scan,
    calculateLine_scan_clear _ _ _ _ (by simp) (fun _ _ => rfl)]

theorem calculateLine_visits_length (o t : Position) :
    (calculateLine.visits o t).length
      = max (max (t.x - o.x).natAbs (t.y - o.y).natAbs) (t.z - o.z).natAbs := by
  rw [calculateLine_visits_eq_path, calculateLine_path_length]
  exact (calculateLine_setup_basic o t).2.2.1

theorem calculateLine_visits_same (o : Position) : calculateLine.visits o o = [] := by
  apply List.eq_nil_of_length_eq_zero
  rw [calculateLine_visits_length]
  simp

theorem calculateLine_visits_head (o t : Position) (h : o ≠ t) :
    ∃ rest, calculateLine.visits o t = o :: rest := by
  have hlen := calculateLine_visits_length o t
  have hpos : 0 < (calculateLine.visits o t).length := by
    rw [hlen]
    by_contra hzero
    apply h
    cases o
    cases t
    simp only [Position.mk.injEq]
    simp only at hzero
    omega
  rw [calculateLine_visits_eq_path] at hpos ⊢
  rw [calculateLine_path_length] at hpos
  obtain ⟨n, hn⟩ : ∃ n, (calculateLine.setup o t).delta_x.toNat = n + 1 :=
    ⟨(calculateLine.setup o t).delta_x.toNat - 1, by omega⟩
  rw [hn, calculateLine.path, calculateLine_setup_origin]
  exact ⟨_, rfl⟩

theorem calculateLine_visits_target (o t : Position) : t ∉ calculateLine.visits o t := by
  intro hmem
  rw [calculateLine_visits_eq_path] at hmem
  obtain ⟨w, i, hi, hw, hp⟩ := calculateLine_path_mem _ _ _ _ hmem
  have hx := calculateLine_setup_target o t w hp.symm
  obtain ⟨hstep, hx1, -⟩ := calculateLine_setup_basic o t
  dsimp only at hw
  rw [hx, hx1] at hw
  rcases hstep with h | h <;> rw [h] at hw <;> simp at hw <;> omega

theorem calculateLine_visits_chain (o t : Position) :
    List.Chain' (calculateLine.Step o t) (calculateLine.visits o t) := by
  obtain ⟨-, -, -, hy, hz, hx⟩ := calculateLine_setup_basic o t
  rw [calculateLine_visits_eq_path]
  by_cases hpos : 0 < (calculateLine.setup o t).delta_x
  · have hstart : calculateLine.Centred (calculateLine.setup o t)
        ⟨(calculateLine.setup o t).x0, (calculateLine.setup o t).y0,
          (calculateLine.setup o t).z0, (calculateLine.setup o t).delta_x.tdiv 2,
          (calculateLine.setup o t).delta_x.tdiv 2⟩ := by
      unfold calculateLine.Centred
      dsimp only
      rw [Int.tdiv_eq_ediv hx (by decide)]
      omega
    refine List.Chain'.imp ?_ (calculateLine_path_chain _ hy hz _ _ hstart)
    rintro p q ⟨w, hw, rfl, rfl⟩
    exact calculateLine_setup_step o t w hw
  · have hzero : (calculateLine.setup o t).delta_x.toNat = 0 := by omega
    rw [hzero]
    exact List.chain'_nil

theorem nodup_of_chain_step (f : Position → Int) (d : Int) (hd : d ≠ 0) (l : List Position)
    (h : List.Chain' (fun p q => f q - f p = d) l) : (l.map f).Nodup := by
  rcases lt_or_gt_of_ne hd with hneg | hpos
  · have h1 : List.Chain' (fun a b : Int => a > b) (l.map f) := by
      rw [List.chain'_map]
      exact h.imp (fun p q hpq => by omega)
    exact (List.chain'_iff_pairwise.mp h1).imp (fun hab => by omega)
  · have h1 : List.Chain' (fun a b : Int => a < b) (l.map f) := by
      rw [List.chain'_map]
      exact h.imp (fun p q hpq => by omega)
    exact (List.chain'_iff_pairwise.mp h1).imp (fun hab => by omega)

/-! ## 3D line trace: `calculateLine` -/

theorem calculateLine_run_eq_scan_visits (check : Position → Except Fault Int)
    (o t : Position) (st has : Bool) :
    calculateLine.run check o t st has
      = calculateLine.scan check st has (calculateLine.visits o t) := by
  rw [calculateLine_run_eq_scan, calculateLine_visits_eq_path]

theorem calculateLine_eq_ok (save : SavedBattleGame) (voxelData : List Nat)
    (o t : Position) (st : Bool) (traj : Option (List Position))
    (ex : Option BattleUnit) (r : LineResult)
    (h : calculateLine save voxelData o t st traj ex = .ok r) :
    ∃ tr, calculateLine.scan (fun voxel => voxelCheck save voxelData voxel ex) st traj.isSome
        (calculateLine.visits o t) = .ok tr
      ∧ r = ⟨tr.result, traj.map (fun l => l ++ tr.pushed), tr.checked⟩ := by
  unfold calculateLine at h
  rw [calculateLine_run_eq_scan_visits] at h
  cases hs : calculateLine.scan (fun voxel => voxelCheck save voxelData voxel ex) st
      traj.isSome (calculateLine.visits o t) with
  | error e => simp [hs] at h
  | ok tr =>
    simp only [hs, Except.ok.injEq] at h
    exact ⟨tr, rfl, h.symm⟩

/-- C1: `calculateLine` is first-hit-wins. It returns a result whenever the trajectory
pointer is usable and no call of `voxelCheck` throws; its only failures are those two.
When it returns, the voxels it checked are an initial part of the visit order, every
checked voxel but the last reports -1, a result other than -1 is the report of the last
checked voxel, and the result is -1 exactly when every checked voxel reports -1 (the whole
visit order was then checked). -/
theorem calculateLine_first_hit_wins (save : SavedBattleGame) (voxelData : List Nat)
    (origin target : Position) (storeTrajectory : Bool) (trajectory : Option (List Position))
    (excludeUnit : Option BattleUnit) :
    ((storeTrajectory = true → origin ≠ target → trajectory.isSome = true) →
      (∀ p ∈ calculateLine.visits origin target,
        ∃ res, voxelCheck save voxelData p excludeUnit = .ok res) →
      ∃ r, calculateLine save voxelData origin target storeTrajectory trajectory excludeUnit
        = .ok r)
    ∧ (∀ e, calculateLine save voxelData origin target storeTrajectory trajectory excludeUnit
        = .error e → e = .nullPointer ∨ e = .outOfRange)
    ∧ ∀ r, calculateLine save voxelData origin target storeTrajectory trajectory excludeUnit
        = .ok r →
      (∃ rest, calculateLine.visits origin target = r.checked ++ rest)
      ∧ (∀ p ∈ r.checked.dropLast, voxelCheck save voxelData p excludeUnit = .ok (-1))
      ∧ (r.result ≠ -1 → ∃ p, r.checked.getLast? = some p
          ∧ voxelCheck save voxelData p excludeUnit = .ok r.result)
      ∧ (r.result = -1 ↔ ∀ p ∈ r.checked, voxelCheck save voxelData p excludeUnit = .ok (-1))
      ∧ (r.result = -1 → r.checked = calculateLine.visits origin target) := by
  have herr : ∀ e, calculateLine save voxelData origin target storeTrajectory trajectory
      excludeUnit = .error e →
      (e = .nullPointer ∧ storeTrajectory = true ∧ trajectory.isSome = false)
      ∨ ∃ p ∈ calculateLine.visits origin target,
          voxelCheck save voxelData p excludeUnit = .error e := by
    intro e he
    unfold calculateLine at he
    rw [calculateLine_run_eq_scan_visits] at he
    cases hs : calculateLine.scan (fun voxel => voxelCheck save voxelData voxel excludeUnit)
        storeTrajectory trajectory.isSome (calculateLine.visits origin target) with
    | error e2 =>
      simp only [hs, Except.error.injEq] at he
      subst he
      exact calculateLine_scan_error _ _ _ _ _ hs
    | ok tr => simp [hs] at he
  refine ⟨?_, ?_, ?_⟩
  · intro hptr hchk
    cases hc : calculateLine save voxelData origin target storeTrajectory trajectory
        excludeUnit with
    | ok r => exact ⟨r, rfl⟩
    | error e =>
      exfalso
      rcases herr e hc with ⟨-, h1, h2⟩ | ⟨p, hp, hpe⟩
      · by_cases hot : origin = target
        · subst hot
          unfold calculateLine at hc
          rw [calculateLine_run_eq_scan_visits, calculateLine_visits_same] at hc
          simp [calculateLine.scan] at hc
        · rw [hptr h1 hot] at h2
          cases h2
      · obtain ⟨res, hres⟩ := hchk p hp
        rw [hres] at hpe
        cases hpe
  · intro e he
    rcases herr e he with ⟨h1, -, -⟩ | ⟨p, -, hpe⟩
    · exact Or.inl h1
    · exact Or.inr (voxelCheck_fault _ _ _ _ _ hpe)
  · intro r hr
    obtain ⟨tr, hs, rfl⟩ := calculateLine_eq_ok _ _ _ _ _ _ _ _ hr
    obtain ⟨hrest, hdrop, hlast, hall, -⟩ := calculateLine_scan_ok _ _ _ _ _ hs
    refine ⟨hrest, hdrop, hlast, ⟨fun h => ?_, fun h => ?_⟩, fun h => (hall h).1⟩
    · intro p hp
      obtain ⟨h1, h2⟩ := hall h
      exact h2 p (by rw [← h1]; exact hp)
    · by_contra hne
      obtain ⟨p, hp, hcp⟩ := hlast hne
      have hmem : p ∈ tr.checked := List.mem_of_getLast?_eq_some hp
      have := h p hmem
      rw [hcp] at this
      simp only [Except.ok.injEq] at this
      exact hne this

/-- C2: when no voxel of the visit order reports a collision, `calculateLine` returns -1
after checking exactly the voxels of the visit order; these are
`max(|dx|, |dy|, |dz|)` voxels, the first of them is the origin, the target is not among
them, and for `origin = target` there are none. -/
theorem calculateLine_no_collision (save : SavedBattleGame) (voxelData : List Nat)
    (origin target : Position) (storeTrajectory : Bool) (trajectory : Option (List Position))
    (excludeUnit : Option BattleUnit)
    (hptr : storeTrajectory = true → origin ≠ target → trajectory.isSome = true)
    (hclear : ∀ p ∈ calculateLine.visits origin target,
      voxelCheck save voxelData p excludeUnit = .ok (-1)) :
    calculateLine save voxelData origin target storeTrajectory trajectory excludeUnit
      = .ok ⟨-1,
          trajectory.map (fun l =>
            l ++ if storeTrajectory = true then calculateLine.visits origin target else []),
          calculateLine.visits origin target⟩
    ∧ (calculateLine.visits origin target).length
        = max (max (target.x - origin.x).natAbs (target.y - origin.y).natAbs)
            (target.z - origin.z).natAbs
    ∧ (calculateLine.visits origin target).head?
        = (if origin = target then none else some origin)
    ∧ target ∉ calculateLine.visits origin target
    ∧ (origin = target → calculateLine.visits origin target = []) := by
  refine ⟨?_, calculateLine_visits_length _ _, ?_, calculateLine_visits_target _ _, ?_⟩
  · unfold calculateLine
    rw [calculateLine_run_eq_scan_visits, calculateLine_scan_clear _ _ _ _ ?_ hclear]
    intro hst hne
    apply hptr hst
    intro hot
    subst hot
    exact hne (calculateLine_visits_same _)
  · by_cases hot : origin = target
    · subst hot
      simp [calculateLine_visits_same]
    · obtain ⟨rest, hrest⟩ := calculateLine_visits_head _ _ hot
      simp [hrest, hot]
  · intro hot
    subst hot
    exact calculateLine_visits_same _

theorem calculateLine_no_collision_witness :
    calculateLine (emptyBattle 2 2 2) [] ⟨0, 0, 0⟩ ⟨2, 1, 3⟩ true (some []) none
      = .ok ⟨-1,
          (some []).map (fun l =>
            l ++ if true = true then calculateLine.visits ⟨0, 0, 0⟩ ⟨2, 1, 3⟩ else []),
          calculateLine.visits ⟨0, 0, 0⟩ ⟨2, 1, 3⟩⟩
    ∧ (calculateLine.visits ⟨0, 0, 0⟩ ⟨2, 1, 3⟩).length
        = max (max ((2 : Int) - 0).natAbs ((1 : Int) - 0).natAbs) ((3 : Int) - 0).natAbs
    ∧ (calculateLine.visits ⟨0, 0, 0⟩ ⟨2, 1, 3⟩).head?
        = (if (⟨0, 0, 0⟩ : Position) = ⟨2, 1, 3⟩ then none else some ⟨0, 0, 0⟩)
    ∧ (⟨2, 1, 3⟩ : Position) ∉ calculateLine.visits ⟨0, 0, 0⟩ ⟨2, 1, 3⟩
    ∧ ((⟨0, 0, 0⟩ : Position) = ⟨2, 1, 3⟩ → calculateLine.visits ⟨0, 0, 0⟩ ⟨2, 1, 3⟩ = []) :=
  calculateLine_no_collision (emptyBattle 2 2 2) [] ⟨0, 0, 0⟩ ⟨2, 1, 3⟩ true (some []) none
    (by decide) (by decide)

/-- C3: with `storeTrajectory = true`, the voxels `calculateLine` records are the voxels it
checked, and they form a connected sequence that is monotonic in the driving axis:
between consecutive voxels every axis of greatest absolute delta moves by exactly one
toward the target and no axis moves by more than one; so the coordinates along an axis
of greatest absolute delta are all different. A run that reports no collision records
the whole visit order. -/
theorem calculateLine_trajectory_connected (save : SavedBattleGame) (voxelData : List Nat)
    (origin target : Position) (before : List Position) (excludeUnit : Option BattleUnit)
    (r : LineResult)
    (h : calculateLine save voxelData origin target true (some before) excludeUnit = .ok r) :
    r.trajectory = some (before ++ r.checked)
    ∧ List.Chain' (calculateLine.Step origin target) r.checked
    ∧ ((target.x - origin.x).natAbs
          = max (max (target.x - origin.x).natAbs (target.y - origin.y).natAbs)
              (target.z - origin.z).natAbs →
        (r.checked.map Position.x).Nodup)
    ∧ ((target.y - origin.y).natAbs
          = max (max (target.x - origin.x).natAbs (target.y - origin.y).natAbs)
              (target.z - origin.z).natAbs →
        (r.checked.map Position.y).Nodup)
    ∧ ((target.z - origin.z).natAbs
          = max (max (target.x - origin.x).natAbs (target.y - origin.y).natAbs)
              (target.z - origin.z).natAbs →
        (r.checked.map Position.z).Nodup)
    ∧ (r.result = -1 → r.checked = calculateLine.visits origin target) := by
  obtain ⟨tr, hs, rfl⟩ := calculateLine_eq_ok _ _ _ _ _ _ _ _ h
  obtain ⟨⟨rest, hrest⟩, -, -, hall, hpush⟩ := calculateLine_scan_ok _ _ _ _ _ hs
  have hchain : List.Chain' (calculateLine.Step origin target) tr.checked := by
    have := calculateLine_visits_chain origin target
    rw [hrest] at this
    exact this.left_of_append
  have hlen : tr.checked.length ≤ max (max (target.x - origin.x).natAbs
      (target.y - origin.y).natAbs) (target.z - origin.z).natAbs := by
    rw [← calculateLine_visits_length, hrest, List.length_append]
    omega
  have hnodup : ∀ (f : Position → Int) (d : Int),
      (d.natAbs = max (max (target.x - origin.x).natAbs (target.y - origin.y).natAbs)
          (target.z - origin.z).natAbs) →
      (∀ p q, calculateLine.Step origin target p q →
        d.natAbs = max (max (target.x - origin.x).natAbs (target.y - origin.y).natAbs)
          (target.z - origin.z).natAbs → f q - f p = Int.sign d) →
      (tr.checked.map f).Nodup := by
    intro f d hd hstep
    by_cases hzero : d = 0
    · have : tr.checked = [] := by
        apply List.eq_nil_of_length_eq_zero
        rw [hzero] at hd
        simp only [Int.natAbs_zero] at hd
        omega
      rw [this]
      exact List.nodup_nil
    · apply nodup_of_chain_step f (Int.sign d) (by simpa [Int.sign_eq_zero_iff_zero] using hzero)
      exact hchain.imp (fun p q hpq => hstep p q hpq hd)
  refine ⟨?_, hchain, ?_, ?_, ?_, fun hres => (hall hres).1⟩
  · simp [hpush rfl]
  · intro hd
    exact hnodup Position.x _ hd (fun p q hpq => hpq.1)
  · intro hd
    exact hnodup Position.y _ hd (fun p q hpq => hpq.2.1)
  · intro hd
    exact hnodup Position.z _ hd (fun p q hpq => hpq.2.2.1)

theorem calculateLine_trajectory_connected_witness :
    calculateLine (emptyBattle 2 2 2) [] ⟨0, 0, 0⟩ ⟨2, 1, 3⟩ true (some []) none
      = .ok ⟨-1, some [⟨0, 0, 0⟩, ⟨1, 0, 1⟩, ⟨1, 1, 2⟩], [⟨0, 0, 0⟩, ⟨1, 0, 1⟩, ⟨1, 1, 2⟩]⟩
    ∧ List.Chain' (calculateLine.Step ⟨0, 0, 0⟩ ⟨2, 1, 3⟩)
        [⟨0, 0, 0⟩, ⟨1, 0, 1⟩, ⟨1, 1, 2⟩]
    ∧ (([⟨0, 0, 0⟩, ⟨1, 0, 1⟩, ⟨1, 1, 2⟩] : List Position).map Position.z).Nodup :=
  have h := calculateLine_trajectory_connected (emptyBattle 2 2 2) [] ⟨0, 0, 0⟩ ⟨2, 1, 3⟩ []
    none ⟨-1, some [⟨0, 0, 0⟩, ⟨1, 0, 1⟩, ⟨1, 1, 2⟩], [⟨0, 0, 0⟩, ⟨1, 0, 1⟩, ⟨1, 1, 2⟩]⟩
    (by decide)
  ⟨by decide, h.2.1, h.2.2.2.2.1 (by decide)⟩

/-- C4, as stated, fails: in the open 1x1x1 grid neither trace between A = (0,0,0) and
B = (1,0,0) meets a collision, the trace from A to B visits A only and the trace from B
to A visits B only, so the two visited sets differ. -/
theorem calculateLine_reverse_counterexample :
    calculateLine (emptyBattle 1 1 1) [] ⟨0, 0, 0⟩ ⟨1, 0, 0⟩ true (some []) none
      = .ok ⟨-1, some [⟨0, 0, 0⟩], [⟨0, 0, 0⟩]⟩
    ∧ calculateLine (emptyBattle 1 1 1) [] ⟨1, 0, 0⟩ ⟨0, 0, 0⟩ true (some []) none
      = .ok ⟨-1, some [⟨1, 0, 0⟩], [⟨1, 0, 0⟩]⟩
    ∧ ¬ (∀ p, p ∈ calculateLine.visits ⟨0, 0, 0⟩ ⟨1, 0, 0⟩
          ↔ p ∈ calculateLine.visits ⟨1, 0, 0⟩ ⟨0, 0, 0⟩) := by
  refine ⟨by decide, by decide, ?_⟩
  intro h
  exact absurd ((h ⟨0, 0, 0⟩).mp (by decide)) (by decide)

/-- C4, amended: the traces from A to B and from B to A visit the same number of voxels;
for A different from B, A is visited by the trace from A only and B by the trace from B
only; so the two traces visit the same set of voxels exactly when A = B (and then both
visit nothing). -/
theorem calculateLine_reverse_visits (a b : Position) :
    (calculateLine.visits a b).length = (calculateLine.visits b a).length
    ∧ (a ≠ b → a ∈ calculateLine.visits a b ∧ a ∉ calculateLine.visits b a
        ∧ b ∈ calculateLine.visits b a ∧ b ∉ calculateLine.visits a b)
    ∧ ((∀ p, p ∈ calculateLine.visits a b ↔ p ∈ calculateLine.visits b a) ↔ a = b) := by
  have hends : a ≠ b → a ∈ calculateLine.visits a b ∧ a ∉ calculateLine.visits b a
      ∧ b ∈ calculateLine.visits b a ∧ b ∉ calculateLine.visits a b := by
    intro hab
    obtain ⟨r1, h1⟩ := calculateLine_visits_head a b hab
    obtain ⟨r2, h2⟩ := calculateLine_visits_head b a (Ne.symm hab)
    refine ⟨?_, calculateLine_visits_target b a, ?_, calculateLine_visits_target a b⟩
    · rw [h1]
      exact List.mem_cons_self _ _
    · rw [h2]
      exact List.mem_cons_self _ _
  refine ⟨?_, hends, ?_⟩
  · rw [calculateLine_visits_length, calculateLine_visits_length]
    omega
  · constructor
    · intro h
      by_contra hab
      obtain ⟨h1, h2, -, -⟩ := hends hab
      exact h2 ((h a).mp h1)
    · intro hab
      subst hab
      intro p
      rfl

/-! ## Horizontal blockage -/

theorem position_sub_x (a b : Position) : (a - b).x = a.x - b.x := rfl

theorem position_sub_y (a b : Position) : (a - b).y = a.y - b.y := rfl

/-- A direction found by `vectorToDirection` is one of 0..7. -/
theorem vectorToDirection_range (v : Position) (d : Int) (h : vectorToDirection v = .ok d) :
    0 ≤ d ∧ d ≤ 7 := by
  rw [vectorToDirection_eq] at h
  split_ifs at h <;> simp only [Except.ok.injEq, reduceCtorEq] at h <;> omega

/-- For a pair of tiles whose offset has a direction, `horizontalBlockage` is the
directional term plus the object blockage of the start tile. -/
theorem horizontalBlockage_of_direction (save : SavedBattleGame) (s e : Tile)
    (type : ItemDamageType) (d : Int)
    (hd : vectorToDirection (e.getPosition - s.getPosition) = .ok d) :
    horizontalBlockage save (some s) (some e) type
      = .ok (horizontalBlockage.directional save s e d type
          + blockage (some s) MapData.O_OBJECT type) := by
  have hr := vectorToDirection_range _ _ hd
  have hne : d ≠ -1 := by omega
  simp only [horizontalBlockage, hd, if_neg hne]

theorem horizontalBlockage_cardinal_aux (save : SavedBattleGame) (a b : Tile)
    (type : ItemDamageType)
    (h : (b.getPosition.x - a.getPosition.x).natAbs
        + (b.getPosition.y - a.getPosition.y).natAbs = 1) :
    horizontalBlockage save (some a) (some b) type
      = .ok (horizontalBlockage.sharedWall a b type + blockage (some a) MapData.O_OBJECT type)
    ∧ horizontalBlockage.sharedWall b a type = horizontalBlockage.sharedWall a b type := by
  have hcases : (b.getPosition.x - a.getPosition.x = 0 ∧ b.getPosition.y - a.getPosition.y = 1)
      ∨ (b.getPosition.x - a.getPosition.x = 1 ∧ b.getPosition.y - a.getPosition.y = 0)
      ∨ (b.getPosition.x - a.getPosition.x = 0 ∧ b.getPosition.y - a.getPosition.y = -1)
      ∨ (b.getPosition.x - a.getPosition.x = -1 ∧ b.getPosition.y - a.getPosition.y = 0) := by
    omega
  rcases hcases with ⟨hx, hy⟩ | ⟨hx, hy⟩ | ⟨hx, hy⟩ | ⟨hx, hy⟩
  · have hd : vectorToDirection (b.getPosition - a.getPosition) = .ok 0 := by
      rw [vectorToDirection_eq, position_sub_x, position_sub_y, hx, hy]
      simp
    have h1 : b.getPosition.y = a.getPosition.y + 1 := by omega
    have h2 : ¬ a.getPosition.y = b.getPosition.y + 1 := by omega
    have h3 : a.getPosition.y = b.getPosition.y - 1 := by omega
    have hw : horizontalBlockage.sharedWall a b type
        = blockage (some a) MapData.O_NORTHWALL type := by
      simp only [horizontalBlockage.sharedWall, if_pos h1]
    have hw' : horizontalBlockage.sharedWall b a type
        = blockage (some a) MapData.O_NORTHWALL type := by
      simp only [horizontalBlockage.sharedWall, if_neg h2, if_pos h3]
    refine ⟨?_, by rw [hw, hw']⟩
    rw [horizontalBlockage_of_direction save a b type 0 hd, hw]
    simp [horizontalBlockage.directional]
  · have hd : vectorToDirection (b.getPosition - a.getPosition) = .ok 2 := by
      rw [vectorToDirection_eq, position_sub_x, position_sub_y, hx, hy]
      simp
    have h1 : ¬ b.getPosition.y = a.getPosition.y + 1 := by omega
    have h2 : ¬ b.getPosition.y = a.getPosition.y - 1 := by omega
    have h3 : b.getPosition.x = a.getPosition.x + 1 := by omega
    have h4 : ¬ a.getPosition.y = b.getPosition.y + 1 := by omega
    have h5 : ¬ a.getPosition.y = b.getPosition.y - 1 := by omega
    have h6 : ¬ a.getPosition.x = b.getPosition.x + 1 := by omega
    have hw : horizontalBlockage.sharedWall a b type
        = blockage (some b) MapData.O_WESTWALL type := by
      simp only [horizontalBlockage.sharedWall, if_neg h1, if_neg h2, if_pos h3]
    have hw' : horizontalBlockage.sharedWall b a type
        = blockage (some b) MapData.O_WESTWALL type := by
      simp only [horizontalBlockage.sharedWall, if_neg h4, if_neg h5, if_neg h6]
    refine ⟨?_, by rw [hw, hw']⟩
    rw [horizontalBlockage_of_direction save a b type 2 hd, hw]
    simp [horizontalBlockage.directional]
  · have hd : vectorToDirection (b.getPosition - a.getPosition) = .ok 4 := by
      rw [vectorToDirection_eq, position_sub_x, position_sub_y, hx, hy]
      simp
    have h1 : ¬ b.getPosition.y = a.getPosition.y + 1 := by omega
    have h2 : b.getPosition.y = a.getPosition.y - 1 := by omega
    have h3 : a.getPosition.y = b.getPosition.y + 1 := by omega
    have hw : horizontalBlockage.sharedWall a b type
        = blockage (some b) MapData.O_NORTHWALL type := by
      simp only [horizontalBlockage.sharedWall, if_neg h1, if_pos h2]
    have hw' : horizontalBlockage.sharedWall b a type
        = blockage (some b) MapData.O_NORTHWALL type := by
      simp only [horizontalBlockage.sharedWall, if_pos h3]
    refine ⟨?_, by rw [hw, hw']⟩
    rw [horizontalBlockage_of_direction save a b type 4 hd, hw]
    simp [horizontalBlockage.directional]
  · have hd : vectorToDirection (b.getPosition - a.getPosition) = .ok 6 := by
      rw [vectorToDirection_eq, position_sub_x, position_sub_y, hx, hy]
      simp
    have h1 : ¬ b.getPosition.y = a.getPosition.y + 1 := by omega
    have h2 : ¬ b.getPosition.y = a.getPosition.y - 1 := by omega
    have h3 : ¬ b.getPosition.x = a.getPosition.x + 1 := by omega
    have h4 : ¬ a.getPosition.y = b.getPosition.y + 1 := by omega
    have h5 : ¬ a.getPosition.y = b.getPosition.y - 1 := by omega
    have h6 : a.getPosition.x = b.getPosition.x + 1 := by omega
    have hw : horizontalBlockage.sharedWall a b type
        = blockage (some a) MapData.O_WESTWALL type := by
      simp only [horizontalBlockage.sharedWall, if_neg h1, if_neg h2, if_neg h3]
    have hw' : horizontalBlockage.sharedWall b a type
        = blockage (some a) MapData.O_WESTWALL type := by
      simp only [horizontalBlockage.sharedWall, if_neg h4, if_neg h5, if_pos h6]
    refine ⟨?_, by rw [hw, hw']⟩
    rw [horizontalBlockage_of_direction save a b type 6 hd, hw]
    simp [horizontalBlockage.directional]

/-- C11, as stated, fails: in a 2 x 1 x 1 grid whose western tile holds an object that
blocks 100 and whose eastern tile is empty, with no wall between them, the blockage from
west to east is 100 and the blockage from east to west is 0. -/
theorem horizontalBlockage_cardinal_counterexample :
    horizontalBlockage crateBattle (crateBattle.getTile ⟨0, 0, 0⟩)
        (crateBattle.getTile ⟨1, 0, 0⟩) ItemDamageType.DT_HE = .ok 100
    ∧ horizontalBlockage crateBattle (crateBattle.getTile ⟨1, 0, 0⟩)
        (crateBattle.getTile ⟨0, 0, 0⟩) ItemDamageType.DT_HE = .ok 0 := by
  decide

/-- C11, amended: for tiles A and B adjacent in a cardinal direction and every energy
type, `horizontalBlockage(A, B)` is the blockage of the wall part shared by A and B plus
the object blockage of A, and `horizontalBlockage(B, A)` is the blockage of the same wall
plus the object blockage of B; the two differ by the object blockage of the start tile
only. -/
theorem horizontalBlockage_cardinal (save : SavedBattleGame) (a b : Tile)
    (type : ItemDamageType)
    (h : (b.getPosition.x - a.getPosition.x).natAbs
        + (b.getPosition.y - a.getPosition.y).natAbs = 1) :
    horizontalBlockage save (some a) (some b) type
      = .ok (horizontalBlockage.sharedWall a b type + blockage (some a) MapData.O_OBJECT type)
    ∧ horizontalBlockage save (some b) (some a) type
      = .ok (horizontalBlockage.sharedWall a b type
          + blockage (some b) MapData.O_OBJECT type) := by
  have h' : (a.getPosition.x - b.getPosition.x).natAbs
      + (a.getPosition.y - b.getPosition.y).natAbs = 1 := by omega
  obtain ⟨h1, -⟩ := horizontalBlockage_cardinal_aux save a b type h
  obtain ⟨h2, h3⟩ := horizontalBlockage_cardinal_aux save b a type h'
  exact ⟨h1, by rw [h2, h3]⟩

theorem horizontalBlockage_cardinal_witness :
    horizontalBlockage crateBattle (some (crateTile ⟨0, 0, 0⟩)) (some (crateTile ⟨1, 0, 0⟩))
        ItemDamageType.DT_HE
      = .ok (horizontalBlockage.sharedWall (crateTile ⟨0, 0, 0⟩) (crateTile ⟨1, 0, 0⟩)
            ItemDamageType.DT_HE
          + blockage (some (crateTile ⟨0, 0, 0⟩)) MapData.O_OBJECT ItemDamageType.DT_HE)
    ∧ horizontalBlockage crateBattle (some (crateTile ⟨1, 0, 0⟩)) (some (crateTile ⟨0, 0, 0⟩))
        ItemDamageType.DT_HE
      = .ok (horizontalBlockage.sharedWall (crateTile ⟨0, 0, 0⟩) (crateTile ⟨1, 0, 0⟩)
            ItemDamageType.DT_HE
          + blockage (some (crateTile ⟨1, 0, 0⟩)) MapData.O_OBJECT ItemDamageType.DT_HE) :=
  horizontalBlockage_cardinal crateBattle (crateTile ⟨0, 0, 0⟩) (crateTile ⟨1, 0, 0⟩)
    ItemDamageType.DT_HE (by decide)

theorem int_tdiv_two_nonneg (a : Int) (h : 0 ≤ a) : 0 ≤ a.tdiv 2 := by
  rw [Int.tdiv_eq_ediv h (by decide)]
  omega

/-- With part blockages that are not negative, the directional term is not negative. -/
theorem horizontalBlockage_directional_nonneg (save : SavedBattleGame) (s e : Tile)
    (type : ItemDamageType) (d : Int)
    (hs : ∀ part, 0 ≤ blockage (some s) part type)
    (he : ∀ part, 0 ≤ blockage (some e) part type)
    (hg : ∀ pos part, 0 ≤ blockage (save.getTile pos) part type) :
    0 ≤ horizontalBlockage.directional save s e d type := by
  unfold horizontalBlockage.directional
  dsimp only
  split_ifs
  all_goals
    first
    | exact hs _
    | exact he _
    | exact le_refl _
    | (apply add_nonneg
       · apply add_nonneg
         · exact int_tdiv_two_nonneg _ (add_nonneg (by first | exact hs _ | exact he _)
             (by first | exact hs _ | exact he _))
         · exact int_tdiv_two_nonneg _ (add_nonneg (hg _ _) (hg _ _))
       · exact int_tdiv_two_nonneg _ (add_nonneg (hg _ _) (hg _ _)))

/-! ## Lighting: sun shading -/

/-- Against pure vision the floor part of a tile blocks 255 when the tile is present and
has a floor, and 0 otherwise. -/
theorem blockage_floor_vision (t : Option Tile) :
    (blockage t MapData.O_FLOOR ItemDamageType.DT_NONE = 255
      ∧ ∃ tile, t = some tile ∧ (tile.getMapData MapData.O_FLOOR).isSome = true)
    ∨ (blockage t MapData.O_FLOOR ItemDamageType.DT_NONE = 0
      ∧ ¬ ∃ tile, t = some tile ∧ (tile.getMapData MapData.O_FLOOR).isSome = true) := by
  cases t with
  | none => exact Or.inr ⟨rfl, by simp⟩
  | some tile =>
    cases hf : tile.getMapData MapData.O_FLOOR with
    | none =>
      refine Or.inr ⟨?_, by simp [hf]⟩
      simp [blockage, hf]
    | some floor =>
      refine Or.inl ⟨?_, tile, rfl, by simp [hf]⟩
      simp [blockage, hf]

theorem calculateSunShading_power_eq (save : SavedBattleGame) (tile : Tile)
    (hgrid : ∀ pos, (save.tiles pos).getPosition = pos)
    (htile : save.getTile tile.getPosition = some tile) :
    (save.getGlobalShade ≤ 5
        ∧ (∃ z, tile.getPosition.z < z ∧ z < save.getHeight
          ∧ ((save.tiles ⟨tile.getPosition.x, tile.getPosition.y, z⟩).getMapData
              MapData.O_FLOOR).isSome = true) →
      calculateSunShading.power save tile = .ok (15 - save.getGlobalShade - 2))
    ∧ (¬ (save.getGlobalShade ≤ 5
        ∧ (∃ z, tile.getPosition.z < z ∧ z < save.getHeight
          ∧ ((save.tiles ⟨tile.getPosition.x, tile.getPosition.y, z⟩).getMapData
              MapData.O_FLOOR).isSome = true)) →
      calculateSunShading.power save tile = .ok (15 - save.getGlobalShade)) := by
  -- the tile is inside the grid
  have hin : ¬ (tile.getPosition.x < 0 ∨ tile.getPosition.y < 0 ∨ tile.getPosition.z < 0
      ∨ tile.getPosition.x ≥ save.getWidth ∨ tile.getPosition.y ≥ save.getLength
      ∨ tile.getPosition.z ≥ save.getHeight) := by
    intro hout
    simp only [SavedBattleGame.getTile, if_pos hout] at htile
    cases htile
  have hcol : ∀ z, 0 ≤ z → z < save.getHeight →
      save.getTile ⟨tile.getPosition.x, tile.getPosition.y, z⟩
        = some (save.tiles ⟨tile.getPosition.x, tile.getPosition.y, z⟩) := by
    intro z h0 h1
    have : ¬ (tile.getPosition.x < 0 ∨ tile.getPosition.y < 0 ∨ z < 0
        ∨ tile.getPosition.x ≥ save.getWidth ∨ tile.getPosition.y ≥ save.getLength
        ∨ z ≥ save.getHeight) := by omega
    simp only [SavedBattleGame.getTile, if_neg this]
  -- the blockage from the top of the column down to the tile
  have hblock : ∃ block, verticalBlockage save
        (save.getTile ⟨tile.getPosition.x, tile.getPosition.y, save.getHeight - 1⟩)
        (some tile) ItemDamageType.DT_NONE = .ok block
      ∧ (block ≠ 0 ↔ ∃ z, tile.getPosition.z < z ∧ z < save.getHeight
          ∧ ((save.tiles ⟨tile.getPosition.x, tile.getPosition.y, z⟩).getMapData
              MapData.O_FLOOR).isSome = true) := by
    rw [hcol (save.getHeight - 1) (by omega) (by omega)]
    simp only [verticalBlockage, hgrid]
    by_cases htop : tile.getPosition.z - (save.getHeight - 1) < 0
    · rw [if_pos htop, verticalBlockageDown_eq save _ _ _ _ _ _ 0 (by omega)]
      refine ⟨_, rfl, ?_⟩
      rw [zero_add]
      constructor
      · intro hne
        obtain ⟨k, hk, hterm⟩ := Finset.exists_ne_zero_of_sum_ne_zero hne
        rw [Finset.mem_Icc] at hk
        rcases blockage_floor_vision
            (save.getTile ⟨tile.getPosition.x, tile.getPosition.y, k⟩) with
          ⟨-, t, ht, hfloor⟩ | ⟨h0, -⟩
        · rw [hcol k (by omega) (by omega)] at ht
          cases ht
          exact ⟨k, by omega, by omega, hfloor⟩
        · exact absurd h0 hterm
      · rintro ⟨z, hz1, hz2, hfloor⟩
        have hz : z ∈ Finset.Icc (tile.getPosition.z + 1) (save.getHeight - 1) := by
          rw [Finset.mem_Icc]
          omega
        have hnonneg : ∀ k ∈ Finset.Icc (tile.getPosition.z + 1) (save.getHeight - 1),
            0 ≤ blockage (save.getTile ⟨tile.getPosition.x, tile.getPosition.y, k⟩)
              MapData.O_FLOOR ItemDamageType.DT_NONE := by
          intro k _
          rcases blockage_floor_vision
              (save.getTile ⟨tile.getPosition.x, tile.getPosition.y, k⟩) with
            ⟨h255, -⟩ | ⟨h0, -⟩ <;> omega
        have hle := Finset.single_le_sum hnonneg hz
        rcases blockage_floor_vision
            (save.getTile ⟨tile.getPosition.x, tile.getPosition.y, z⟩) with
          ⟨h255, -⟩ | ⟨-, hno⟩
        · omega
        · exact absurd ⟨_, hcol z (by omega) (by omega), hfloor⟩ hno
    · have hzero : ¬ tile.getPosition.z - (save.getHeight - 1) > 0 := by omega
      rw [if_neg htop, if_neg hzero]
      refine ⟨0, rfl, ?_⟩
      constructor
      · intro h
        exact absurd rfl h
      · rintro ⟨z, hz1, hz2, -⟩
        omega
  obtain ⟨block, hb, hiff⟩ := hblock
  constructor
  · rintro ⟨hshade, hroof⟩
    have hne : block ≠ 0 := hiff.mpr hroof
    simp only [calculateSunShading.power, if_pos hshade, hb, if_pos hne]
  · intro hnot
    by_cases hshade : save.getGlobalShade ≤ 5
    · have hzero : ¬ block ≠ 0 := fun hne => hnot ⟨hshade, hiff.mp hne⟩
      simp only [calculateSunShading.power, if_pos hshade, hb, if_neg hzero]
    · simp only [calculateSunShading.power, if_neg hshade]

/-- C13: for a tile of a grid whose tile objects know their positions,
`calculateSunShading` offers the ambient layer 0 the intensity 15 minus the global shade,
reduced by 2 exactly when the shade is at most 5 and some tile strictly above it in its
column, up to the top level, has a floor part; otherwise (shade above 5, no floor above,
tile on the top level) it offers exactly 15 minus the shade. The value is handed to the
tile's `addLight` on layer 0. -/
theorem calculateSunShading_offers (accumulate : Int → Int → Int) (save : SavedBattleGame)
    (tile : Tile)
    (hgrid : ∀ pos, (save.tiles pos).getPosition = pos)
    (htile : save.getTile tile.getPosition = some tile) :
    (save.getGlobalShade ≤ 5
        ∧ (∃ z, tile.getPosition.z < z ∧ z < save.getHeight
          ∧ ((save.tiles ⟨tile.getPosition.x, tile.getPosition.y, z⟩).getMapData
              MapData.O_FLOOR).isSome = true) →
      calculateSunShading.power save tile = .ok (15 - save.getGlobalShade - 2))
    ∧ (¬ (save.getGlobalShade ≤ 5
        ∧ (∃ z, tile.getPosition.z < z ∧ z < save.getHeight
          ∧ ((save.tiles ⟨tile.getPosition.x, tile.getPosition.y, z⟩).getMapData
              MapData.O_FLOOR).isSome = true)) →
      calculateSunShading.power save tile = .ok (15 - save.getGlobalShade))
    ∧ ∃ power, calculateSunShading.power save tile = .ok power
      ∧ calculateSunShading accumulate save tile
        = .ok (save.modifyTile tile.getPosition (fun t => t.addLight accumulate power 0)) := by
  obtain ⟨h1, h2⟩ := calculateSunShading_power_eq save tile hgrid htile
  refine ⟨h1, h2, ?_⟩
  by_cases hc : save.getGlobalShade ≤ 5
      ∧ (∃ z, tile.getPosition.z < z ∧ z < save.getHeight
        ∧ ((save.tiles ⟨tile.getPosition.x, tile.getPosition.y, z⟩).getMapData
            MapData.O_FLOOR).isSome = true)
  · exact ⟨_, h1 hc, by simp only [calculateSunShading, h1 hc]⟩
  · exact ⟨_, h2 hc, by simp only [calculateSunShading, h2 hc]⟩

theorem calculateSunShading_offers_witness :
    calculateSunShading.power (floorBattle 50) ((floorBattle 50).tiles ⟨0, 0, 0⟩) = .ok 13
    ∧ calculateSunShading.power (floorBattle 50) ((floorBattle 50).tiles ⟨0, 0, 1⟩) = .ok 15
    ∧ ∃ power, calculateSunShading.power (floorBattle 50) ((floorBattle 50).tiles ⟨0, 0, 0⟩)
        = .ok power
      ∧ calculateSunShading max (floorBattle 50) ((floorBattle 50).tiles ⟨0, 0, 0⟩)
        = .ok ((floorBattle 50).modifyTile ((floorBattle 50).tiles ⟨0, 0, 0⟩).getPosition
            (fun t => t.addLight max power 0)) :=
  ⟨by decide, by decide,
    (calculateSunShading_offers max (floorBattle 50) ((floorBattle 50).tiles ⟨0, 0, 0⟩)
      (fun _ => rfl) rfl).2.2⟩

/-! ## Lighting: day gating -/

/-- C14, as stated, fails: on a one-tile grid in full daylight (shade 0) whose tile holds
5 on the static layer and 7 on the dynamic layer, `calculateTerrainLighting` followed by
`calculateUnitLighting` leaves 5 and 7 there, not zero. -/
theorem lighting_day_counterexample :
    litBattle.getGlobalShade = 0
    ∧ ((calculateUnitLighting max (calculateTerrainLighting max litBattle)).tiles
        ⟨0, 0, 0⟩).light 1 = 5
    ∧ ((calculateUnitLighting max (calculateTerrainLighting max litBattle)).tiles
        ⟨0, 0, 0⟩).light 2 = 7 := by
  decide

/-- C14, amended: with global shade 0, `calculateTerrainLighting` and
`calculateUnitLighting` return at once and change nothing: every layer of every tile
keeps the value it had before, so the static and the dynamic layer are zero everywhere
after the recompute exactly when they were zero everywhere before. -/
theorem lighting_day_unchanged (accumulate : Int → Int → Int) (save : SavedBattleGame)
    (hday : save.getGlobalShade = 0) :
    calculateTerrainLighting accumulate save = save
    ∧ calculateUnitLighting accumulate save = save
    ∧ (∀ pos layer,
        ((calculateUnitLighting accumulate (calculateTerrainLighting accumulate save)).tiles
          pos).light layer = (save.tiles pos).light layer)
    ∧ ((∀ pos,
          ((calculateUnitLighting accumulate (calculateTerrainLighting accumulate save)).tiles
            pos).light 1 = 0
          ∧ ((calculateUnitLighting accumulate (calculateTerrainLighting accumulate save)).tiles
            pos).light 2 = 0)
        ↔ ∀ pos, (save.tiles pos).light 1 = 0 ∧ (save.tiles pos).light 2 = 0) := by
  have h1 : calculateTerrainLighting accumulate save = save := by
    simp [calculateTerrainLighting, hday]
  have h2 : calculateUnitLighting accumulate save = save := by
    simp [calculateUnitLighting, hday]
  refine ⟨h1, h2, ?_, ?_⟩
  · intro pos layer
    rw [h1, h2]
  · rw [h1, h2]

theorem lighting_day_unchanged_witness :
    calculateTerrainLighting max litBattle = litBattle
    ∧ calculateUnitLighting max litBattle = litBattle :=
  ⟨(lighting_day_unchanged max litBattle rfl).1, (lighting_day_unchanged max litBattle rfl).2.1⟩

/-! ## Lighting: circular falloff -/

theorem addLight_nearestRoot_spec (n : Nat) :
    ∀ (fuel d : Nat), (∀ d', d' < d → d' * d' + d' < n) → n ≤ fuel + d →
      n ≤ addLight.nearestRoot n fuel d * addLight.nearestRoot n fuel d
            + addLight.nearestRoot n fuel d
      ∧ ∀ d', d' < addLight.nearestRoot n fuel d → d' * d' + d' < n := by
  intro fuel
  induction fuel with
  | zero =>
    intro d hmin hfuel
    simp only [addLight.nearestRoot]
    refine ⟨?_, hmin⟩
    have : d ≤ d * d + d := Nat.le_add_left _ _
    omega
  | succ fuel ih =>
    intro d hmin hfuel
    rw [addLight.nearestRoot]
    by_cases hd : n ≤ d * d + d
    · rw [if_pos hd]
      exact ⟨hd, hmin⟩
    · rw [if_neg hd]
      apply ih (d + 1)
      · intro d' hd'
        rcases Nat.lt_succ_iff_lt_or_eq.mp hd' with h | h
        · exact hmin d' h
        · subst h
          omega
      · omega

theorem addLight_nearestRoot_mono (n m : Nat) (h : n ≤ m) :
    addLight.nearestRoot n n 0 ≤ addLight.nearestRoot m m 0 := by
  obtain ⟨-, hn⟩ := addLight_nearestRoot_spec n n 0 (fun _ h => absurd h (Nat.not_lt_zero _))
    (by omega)
  obtain ⟨hm, -⟩ := addLight_nearestRoot_spec m m 0 (fun _ h => absurd h (Nat.not_lt_zero _))
    (by omega)
  by_contra hlt
  have := hn _ (by omega : addLight.nearestRoot m m 0 < addLight.nearestRoot n n 0)
  omega

theorem addLight_nearestRoot_ge (n p : Nat) (h : p * p ≤ n) :
    p ≤ addLight.nearestRoot n n 0 := by
  obtain ⟨hn, -⟩ := addLight_nearestRoot_spec n n 0 (fun _ h => absurd h (Nat.not_lt_zero _))
    (by omega)
  by_contra hlt
  have h1 : addLight.nearestRoot n n 0 + 1 ≤ p := by omega
  have h2 := Nat.mul_le_mul h1 h1
  have h3 : (addLight.nearestRoot n n 0 + 1) * (addLight.nearestRoot n n 0 + 1)
      = addLight.nearestRoot n n 0 * addLight.nearestRoot n n 0
        + 2 * addLight.nearestRoot n n 0 + 1 := by ring
  omega

theorem addLight_distance_neg_left (x y : Int) :
    addLight.distance (-x) y = addLight.distance x y := by
  simp [addLight.distance]

theorem addLight_distance_neg_right (x y : Int) :
    addLight.distance x (-y) = addLight.distance x y := by
  simp [addLight.distance]

theorem addLight_distance_natAbs (x y : Int) :
    addLight.distance x y = addLight.distance x.natAbs y.natAbs := by
  have hx : (x.natAbs : Int) * x.natAbs = x * x := Int.natAbs_mul_self
  have hy : (y.natAbs : Int) * y.natAbs = y * y := Int.natAbs_mul_self
  simp only [addLight.distance, hx, hy]

/-- The distance is monotone in the squared Euclidean length. -/
theorem addLight_distance_mono (x y x' y' : Int) (h : x * x + y * y ≤ x' * x' + y' * y') :
    addLight.distance x y ≤ addLight.distance x' y' := by
  simp only [addLight.distance]
  exact_mod_cast addLight_nearestRoot_mono _ _ (Int.toNat_le_toNat h)

/-- At Euclidean length `p` or more the distance is at least `p`. -/
theorem addLight_distance_ge (x y p : Int) (h : p * p ≤ x * x + y * y) :
    p ≤ addLight.distance x y := by
  by_cases hp : p ≤ 0
  · have : (0 : Int) ≤ addLight.distance x y := by
      simp only [addLight.distance]
      exact Int.ofNat_nonneg _
    omega
  · simp only [addLight.distance]
    have h1 : p.toNat * p.toNat ≤ (x * x + y * y).toNat := by
      have hpp : ((p.toNat * p.toNat : Nat) : Int) = p * p := by
        push_cast
        rw [Int.toNat_of_nonneg (by omega)]
      have hnn : 0 ≤ x * x + y * y := add_nonneg (mul_self_nonneg x) (mul_self_nonneg y)
      have : ((p.toNat * p.toNat : Nat) : Int) ≤ ((x * x + y * y).toNat : Int) := by
        rw [hpp, Int.toNat_of_nonneg hnn]
        exact h
      exact_mod_cast this
    have h2 := addLight_nearestRoot_ge _ _ h1
    omega

/-- The offers of `addLight`: a position gets an offer exactly when it is a tile of the
grid within the scanned square, and each offer is the power minus the distance. -/
theorem addLight_mem_offers (save : SavedBattleGame) (center : Position) (power : Int)
    (p : Position) (v : Int) :
    (p, v) ∈ addLight.offers save center power ↔
      (save.getTile p).isSome = true
      ∧ (p.x - center.x).natAbs ≤ power ∧ (p.y - center.y).natAbs ≤ power
      ∧ v = power - addLight.distance (p.x - center.x) (p.y - center.y) := by
  simp only [addLight.offers, List.mem_flatMap, List.mem_range, List.mem_filterMap,
    List.mem_cons, List.mem_singleton, List.not_mem_nil, or_false]
  constructor
  · rintro ⟨x, hx, y, hy, z, hz, q, hq, hsome⟩
    split_ifs at hsome with htile
    simp only [Option.some.injEq, Prod.mk.injEq] at hsome
    obtain ⟨rfl, rfl⟩ := hsome
    rcases hq with rfl | rfl | rfl | rfl
    · refine ⟨htile, by simp; omega, by simp; omega, ?_⟩
      simp
    · refine ⟨htile, by simp; omega, by simp; omega, ?_⟩
      simp [addLight_distance_neg_left, addLight_distance_neg_right]
    · refine ⟨htile, by simp; omega, by simp; omega, ?_⟩
      simp [addLight_distance_neg_left]
    · refine ⟨htile, by simp; omega, by simp; omega, ?_⟩
      simp [addLight_distance_neg_right]
  · rintro ⟨htile, hx, hy, rfl⟩
    have hz : 0 ≤ p.z ∧ p.z < save.getHeight := by
      unfold SavedBattleGame.getTile at htile
      split_ifs at htile with hout
      · cases htile
      · omega
    refine ⟨(p.x - center.x).natAbs, by omega, (p.y - center.y).natAbs, by omega,
      p.z.toNat, by omega, p, ?_, ?_⟩
    · have hzz : ((p.z.toNat : Nat) : Int) = p.z := Int.toNat_of_nonneg hz.1
      obtain ⟨px, py, pz⟩ := p
      simp only [Position.mk.injEq] at hzz ⊢
      simp only [hzz, and_true]
      omega
    · rw [if_pos htile, addLight_distance_natAbs (p.x - center.x) (p.y - center.y)]

/-! ## Explosions: one newly visited tile -/

theorem minRNG_inBounds : minRNG.InBounds :=
  ⟨fun _ _ _ h => ⟨le_refl _, h⟩, fun _ _ _ h => ⟨le_refl _, h⟩⟩

theorem maxRNG_inBounds : maxRNG.InBounds :=
  ⟨fun _ _ _ h => ⟨h, le_refl _⟩, fun _ _ _ h => ⟨h, le_refl _⟩⟩

/-- The conversion `(int)` of a real that is not negative is its floor. -/
theorem explode_castInt_eq_floor (r : ℚ) (h : 0 ≤ r) : explode.castInt r = ⌊r⌋ := by
  rw [Rat.floor_def, explode.castInt,
    Int.tdiv_eq_ediv (Rat.num_nonneg.mpr h) (Int.ofNat_nonneg _)]

theorem explode_he_occupant_damage_only (rng : RNG) (dest : Tile) (power_ : Int) (draws : Nat) :
    ∀ e ∈ (explode.he.occupant rng dest power_ draws).1, ∃ u v, e = Effect.damage u v := by
  intro e he
  unfold explode.he.occupant at he
  split at he
  · simp only [List.mem_singleton] at he
    exact ⟨_, _, he⟩
  · simp at he

theorem explode_he_unitAbove_damage_only (rng : RNG) (t : Tile) (power_ : Int) (draws : Nat) :
    ∀ e ∈ (explode.he.unitAbove rng t power_ draws).1, ∃ u v, e = Effect.damage u v := by
  intro e he
  unfold explode.he.unitAbove at he
  split at he
  · simp only [List.mem_singleton] at he
    exact ⟨_, _, he⟩
  · simp at he

theorem explode_he_unitBelow_damage_only (save : SavedBattleGame) (rng : RNG) (tile : Position)
    (dest : Tile) (power_ : Int) (draws : Nat) :
    ∀ e ∈ (explode.he.unitBelow save rng tile dest power_ draws).1,
      ∃ u v, e = Effect.damage u v := by
  intro e he
  unfold explode.he.unitBelow at he
  split at he
  · split at he
    · simp only [List.mem_singleton] at he
      exact ⟨_, _, he⟩
    · simp at he
  · simp at he

/-- The floor above is destroyed exactly when the tile above exists, has a floor, and the
armor of the floor is at most half the power left. -/
theorem explode_he_floorAbove_iff (save : SavedBattleGame) (tile : Position) (p : Int)
    (hp : 0 < p) :
    Effect.destroy ⟨tile.x, tile.y, tile.z + 1⟩ MapData.O_FLOOR
        ∈ explode.he.floorAbove save tile p ↔
      ∃ tileAbove floor, save.getTile ⟨tile.x, tile.y, tile.z + 1⟩ = some tileAbove
        ∧ tileAbove.getMapData MapData.O_FLOOR = some floor ∧ floor.getArmor ≤ p / 2 := by
  have hdiv : p.tdiv 2 = p / 2 := Int.tdiv_eq_ediv (le_of_lt hp) (by decide)
  unfold explode.he.floorAbove
  cases hab : save.getTile ⟨tile.x, tile.y, tile.z + 1⟩ with
  | none => simp
  | some tileAbove =>
    cases hfl : tileAbove.getMapData MapData.O_FLOOR with
    | none =>
      simp only [hfl, List.not_mem_nil, false_iff]
      rintro ⟨t, floor, ht, hfloor, -⟩
      cases ht
      rw [hfl] at hfloor
      cases hfloor
    | some floor =>
      simp only [hfl, hdiv]
      by_cases harm : floor.getArmor ≤ p / 2
      · simp only [ge_iff_le, harm, if_true, List.mem_singleton, true_iff]
        exact ⟨tileAbove, floor, rfl, hfl, harm⟩
      · simp only [ge_iff_le, harm, if_false, List.not_mem_nil, false_iff]
        rintro ⟨t, floor2, ht, hfl2, harm2⟩
        cases ht
        rw [hfl] at hfl2
        cases hfl2
        exact harm harm2

/-- With the tile above present, the HE handler runs through; its calls are the damage to
the occupant, the destruction of the floor above, and the damage above and below. -/
theorem explode_he_ok (save : SavedBattleGame) (rng : RNG) (tile : Position) (dest : Tile)
    (p : Int) (draws : Nat) (tileAbove : Tile)
    (habove : save.getTile ⟨tile.x, tile.y, tile.z + 1⟩ = some tileAbove) :
    explode.he save rng tile dest p draws
      = .ok ((explode.he.occupant rng dest p draws).1 ++ explode.he.floorAbove save tile p
          ++ (explode.he.unitAbove rng tileAbove p (explode.he.occupant rng dest p draws).2).1
          ++ (explode.he.unitBelow save rng tile dest p
              (explode.he.unitAbove rng tileAbove p
                (explode.he.occupant rng dest p draws).2).2).1,
        (explode.he.unitBelow save rng tile dest p
          (explode.he.unitAbove rng tileAbove p
            (explode.he.occupant rng dest p draws).2).2).2) := by
  simp only [explode.he, habove]

/-- With the tile above absent, the HE handler dereferences a null pointer. -/
theorem explode_he_fault (save : SavedBattleGame) (rng : RNG) (tile : Position) (dest : Tile)
    (p : Int) (draws : Nat)
    (habove : save.getTile ⟨tile.x, tile.y, tile.z + 1⟩ = none) :
    explode.he save rng tile dest p draws = .error .nullPointer := by
  simp only [explode.he, habove]

theorem explode_newTile_he (save : SavedBattleGame) (rng : RNG) (tile : Position) (dest : Tile)
    (p : Int) (draws : Nat) :
    explode.newTile save rng ItemDamageType.DT_HE tile dest p draws
      = (match explode.he save rng tile dest p draws with
          | .error e => .error e
          | .ok he => .ok (he.1, he.2)) := by
  unfold explode.newTile
  cases explode.he save rng tile dest p draws with
  | error e => simp
  | ok he => simp

/-- C16: in an HE explosion, at a newly visited tile reached with power `p > 0` left: when
the tile directly above exists, the visit runs through and destroys the floor of that
tile if and only if the tile has a floor part whose armor is at most `p / 2` (integer
division), so armor `p / 2` is destroyed and armor `p / 2 + 1` is left intact; when the
tile above does not exist, no floor is destroyed and the visit ends in the null pointer
fault of line 594. -/
theorem explode_visit_floor_breach (save : SavedBattleGame) (rng : RNG) (tile : Position)
    (dest : Tile) (p : Int) (st : ExplodeState) (hp : 0 < p)
    (hnew : tile ∉ st.tilesAffected) :
    (∀ tileAbove, save.getTile ⟨tile.x, tile.y, tile.z + 1⟩ = some tileAbove →
      ∃ new draws, explode.visit save rng ItemDamageType.DT_HE tile dest p st
          = .ok ⟨st.effects ++ [Effect.setExplosive tile (p / 2)] ++ new,
              st.tilesAffected ++ [tile], draws, st.reached ++ [(tile, p)]⟩
        ∧ (Effect.destroy ⟨tile.x, tile.y, tile.z + 1⟩ MapData.O_FLOOR ∈ new ↔
            ∃ floor, tileAbove.getMapData MapData.O_FLOOR = some floor
              ∧ floor.getArmor ≤ p / 2))
    ∧ (save.getTile ⟨tile.x, tile.y, tile.z + 1⟩ = none →
        explode.he.floorAbove save tile p = []
        ∧ explode.visit save rng ItemDamageType.DT_HE tile dest p st = .error .nullPointer) := by
  have hdiv : p.tdiv 2 = p / 2 := Int.tdiv_eq_ediv (le_of_lt hp) (by decide)
  have hgt : p > 0 := hp
  constructor
  · intro tileAbove habove
    refine ⟨(explode.he.occupant rng dest p st.draws).1 ++ explode.he.floorAbove save tile p
        ++ (explode.he.unitAbove rng tileAbove p
            (explode.he.occupant rng dest p st.draws).2).1
        ++ (explode.he.unitBelow save rng tile dest p
            (explode.he.unitAbove rng tileAbove p
              (explode.he.occupant rng dest p st.draws).2).2).1,
      (explode.he.unitBelow save rng tile dest p
        (explode.he.unitAbove rng tileAbove p
          (explode.he.occupant rng dest p st.draws).2).2).2, ?_, ?_⟩
    · simp only [explode.visit, if_pos hgt, if_true, hnew, if_false, explode_newTile_he,
        explode_he_ok save rng tile dest p st.draws tileAbove habove, hdiv,
        List.append_assoc]
    · constructor
      · intro hmem
        simp only [List.mem_append] at hmem
        rcases hmem with ((h | h) | h) | h
        · obtain ⟨u, v, huv⟩ := explode_he_occupant_damage_only _ _ _ _ _ h
          cases huv
        · obtain ⟨t, floor, ht, hfl, harm⟩ := (explode_he_floorAbove_iff save tile p hp).mp h
          rw [habove] at ht
          cases ht
          exact ⟨floor, hfl, harm⟩
        · obtain ⟨u, v, huv⟩ := explode_he_unitAbove_damage_only _ _ _ _ _ h
          cases huv
        · obtain ⟨u, v, huv⟩ := explode_he_unitBelow_damage_only _ _ _ _ _ _ _ h
          cases huv
      · rintro ⟨floor, hfl, harm⟩
        simp only [List.mem_append]
        exact Or.inl (Or.inl (Or.inr
          ((explode_he_floorAbove_iff save tile p hp).mpr ⟨tileAbove, floor, habove, hfl, harm⟩)))
  · intro habove
    constructor
    · simp only [explode.he.floorAbove, habove]
    · simp only [explode.visit, if_pos hgt, if_true, hnew, if_false, explode_newTile_he,
        explode_he_fault save rng tile dest p st.draws habove]

theorem explode_visit_floor_breach_witness :
    (∃ new draws,
      explode.visit (floorBattle 50) minRNG ItemDamageType.DT_HE ⟨0, 0, 0⟩
          ((floorBattle 50).tiles ⟨0, 0, 0⟩) 100 ⟨[], [], 0, []⟩
        = .ok ⟨[] ++ [Effect.setExplosive ⟨0, 0, 0⟩ (100 / 2)] ++ new, [] ++ [⟨0, 0, 0⟩], draws,
            [] ++ [(⟨0, 0, 0⟩, 100)]⟩
      ∧ (Effect.destroy ⟨0, 0, 0 + 1⟩ MapData.O_FLOOR ∈ new ↔
          ∃ floor, ((floorBattle 50).tiles ⟨0, 0, 1⟩).getMapData MapData.O_FLOOR = some floor
            ∧ floor.getArmor ≤ 100 / 2))
    ∧ explode.visit (floorBattle 50) minRNG ItemDamageType.DT_HE ⟨0, 0, 0⟩
          ((floorBattle 50).tiles ⟨0, 0, 0⟩) 100 ⟨[], [], 0, []⟩
        = .ok ⟨[Effect.setExplosive ⟨0, 0, 0⟩ 50, Effect.destroy ⟨0, 0, 1⟩ MapData.O_FLOOR],
            [⟨0, 0, 0⟩], 0, [(⟨0, 0, 0⟩, 100)]⟩
    ∧ explode.visit (floorBattle 51) minRNG ItemDamageType.DT_HE ⟨0, 0, 0⟩
          ((floorBattle 51).tiles ⟨0, 0, 0⟩) 100 ⟨[], [], 0, []⟩
        = .ok ⟨[Effect.setExplosive ⟨0, 0, 0⟩ 50], [⟨0, 0, 0⟩], 0, [(⟨0, 0, 0⟩, 100)]⟩ :=
  ⟨(explode_visit_floor_breach (floorBattle 50) minRNG ⟨0, 0, 0⟩
      ((floorBattle 50).tiles ⟨0, 0, 0⟩) 100 ⟨[], [], 0, []⟩ (by decide) (by decide)).1
      ((floorBattle 50).tiles ⟨0, 0, 1⟩) rfl,
    by decide, by decide⟩

/-! ## Explosions: damage to the occupant -/

/-- The damage drawn for the occupant lies between half the power left and one and a half
times the power left. -/
theorem explode_he_occupant_bounds (rng : RNG) (hrng : rng.InBounds) (p : Int) (draws : Nat)
    (hp : 0 < p) :
    ((p : ℚ) / 2 - 1
        < explode.castInt (rng.generateReal ((p : ℚ) / 2) ((p : ℚ) * (3 / 2)) draws)
      ∧ (explode.castInt (rng.generateReal ((p : ℚ) / 2) ((p : ℚ) * (3 / 2)) draws) : ℚ)
        ≤ (p : ℚ) * (3 / 2))
    ∧ p / 2 ≤ explode.castInt (rng.generateReal ((p : ℚ) / 2) ((p : ℚ) * (3 / 2)) draws)
    ∧ explode.castInt (rng.generateReal ((p : ℚ) / 2) ((p : ℚ) * (3 / 2)) draws)
        ≤ 3 * p / 2 := by
  have hpq : (0 : ℚ) < p := by exact_mod_cast hp
  have hle : (p : ℚ) / 2 ≤ (p : ℚ) * (3 / 2) := by linarith
  obtain ⟨hlo, hhi⟩ := hrng.2 _ _ draws hle
  have hnn : 0 ≤ rng.generateReal ((p : ℚ) / 2) ((p : ℚ) * (3 / 2)) draws := by linarith
  rw [explode_castInt_eq_floor _ hnn]
  have h1 := Int.floor_le (rng.generateReal ((p : ℚ) / 2) ((p : ℚ) * (3 / 2)) draws)
  have h2 := Int.lt_floor_add_one (rng.generateReal ((p : ℚ) / 2) ((p : ℚ) * (3 / 2)) draws)
  have hq1 : (p : ℚ) / 2 - 1 < ⌊rng.generateReal ((p : ℚ) / 2) ((p : ℚ) * (3 / 2)) draws⌋ := by
    linarith
  have hq2 : (⌊rng.generateReal ((p : ℚ) / 2) ((p : ℚ) * (3 / 2)) draws⌋ : ℚ)
      ≤ (p : ℚ) * (3 / 2) := by linarith
  refine ⟨⟨hq1, hq2⟩, ?_, ?_⟩
  · have h3 : ((p - 2 : Int) : ℚ)
        < ((2 * ⌊rng.generateReal ((p : ℚ) / 2) ((p : ℚ) * (3 / 2)) draws⌋ : Int) : ℚ) := by
      push_cast
      linarith
    have h4 : p - 2 < 2 * ⌊rng.generateReal ((p : ℚ) / 2) ((p : ℚ) * (3 / 2)) draws⌋ := by
      exact_mod_cast h3
    omega
  · have h3 : ((2 * ⌊rng.generateReal ((p : ℚ) / 2) ((p : ℚ) * (3 / 2)) draws⌋ : Int) : ℚ)
        ≤ ((3 * p : Int) : ℚ) := by
      push_cast
      linarith
    have h4 : 2 * ⌊rng.generateReal ((p : ℚ) / 2) ((p : ℚ) * (3 / 2)) draws⌋ ≤ 3 * p := by
      exact_mod_cast h3
    omega

/-- C19, as stated, fails: at a newly visited tile reached with power 10 left, with the
tile above present, the HE handler inflicts the damage 15 on the occupant when the
generator draws the upper bound of its range `[10/2.0, 10*1.5]`; that is more than 150%
of half the power left, 1.5 * (10/2) = 7.5. -/
theorem explode_he_damage_counterexample :
    explode.he soldierBelowBattle maxRNG ⟨0, 0, 0⟩ (soldierBelowBattle.tiles ⟨0, 0, 0⟩) 10 0
      = .ok ([Effect.damage soldier.id 15], 1)
    ∧ ¬ ((15 : ℚ) ≤ 3 / 2 * (10 / 2)) := by
  constructor
  · have hdraw : explode.castInt
        (maxRNG.generateReal (((10 : Int) : ℚ) / 2) (((10 : Int) : ℚ) * (3 / 2)) 0) = 15 := by
      have h : (((10 : Int) : ℚ) * (3 / 2)) = 15 := by norm_num
      simp only [maxRNG, h]
      rfl
    have hocc : explode.he.occupant maxRNG (soldierBelowBattle.tiles ⟨0, 0, 0⟩) 10 0
        = ([Effect.damage soldier.id 15], 1) := by
      have hu : (soldierBelowBattle.tiles ⟨0, 0, 0⟩).getUnit = some soldier := rfl
      simp only [explode.he.occupant, hu, hdraw]
    have hfl : explode.he.floorAbove soldierBelowBattle ⟨0, 0, 0⟩ 10 = [] := by decide
    have hab : soldierBelowBattle.getTile ⟨0, 0, 0 + 1⟩ = some (emptyTile ⟨0, 0, 1⟩) := rfl
    have hua : explode.he.unitAbove maxRNG (emptyTile ⟨0, 0, 1⟩) 10 1 = ([], 1) := rfl
    have hub : explode.he.unitBelow soldierBelowBattle maxRNG ⟨0, 0, 0⟩
        (soldierBelowBattle.tiles ⟨0, 0, 0⟩) 10 1 = ([], 1) := rfl
    rw [explode_he_ok _ _ _ _ _ _ _ hab, hocc, hfl, hua, hub]
    rfl
  · norm_num

/-- C19, amended: in an HE explosion, at a newly visited tile reached with power `p > 0`
left and with the tile above present, the first call of the handler is the damage to the
occupant; for every outcome of the generator within its bounds the damage is the drawn
real truncated to an integer and lies between 50% and 150% of the power left:
`p/2 - 1 < damage <= 1.5 * p`, that is `p / 2 <= damage <= 3 * p / 2` in integer
division. -/
theorem explode_he_occupant_damage (save : SavedBattleGame) (rng : RNG) (tile : Position)
    (dest : Tile) (p : Int) (draws : Nat) (unit : BattleUnit) (tileAbove : Tile)
    (hrng : rng.InBounds) (hp : 0 < p) (hunit : dest.getUnit = some unit)
    (habove : save.getTile ⟨tile.x, tile.y, tile.z + 1⟩ = some tileAbove) :
    ∃ damage rest draws', explode.he save rng tile dest p draws
        = .ok (Effect.damage unit.id damage :: rest, draws')
      ∧ damage = explode.castInt (rng.generateReal ((p : ℚ) / 2) ((p : ℚ) * (3 / 2)) draws)
      ∧ (p : ℚ) / 2 - 1 < damage ∧ (damage : ℚ) ≤ (p : ℚ) * (3 / 2)
      ∧ p / 2 ≤ damage ∧ damage ≤ 3 * p / 2 := by
  obtain ⟨⟨h1, h2⟩, h3, h4⟩ := explode_he_occupant_bounds rng hrng p draws hp
  have hocc : explode.he.occupant rng dest p draws
      = ([Effect.damage unit.id
          (explode.castInt (rng.generateReal ((p : ℚ) / 2) ((p : ℚ) * (3 / 2)) draws))],
        draws + 1) := by
    simp only [explode.he.occupant, hunit]
  refine ⟨_, explode.he.floorAbove save tile p
      ++ (explode.he.unitAbove rng tileAbove p (draws + 1)).1
      ++ (explode.he.unitBelow save rng tile dest p
          (explode.he.unitAbove rng tileAbove p (draws + 1)).2).1,
    (explode.he.unitBelow save rng tile dest p
      (explode.he.unitAbove rng tileAbove p (draws + 1)).2).2, ?_, rfl, h1, h2, h3, h4⟩
  rw [explode_he_ok save rng tile dest p draws tileAbove habove, hocc]
  simp only [List.singleton_append, List.cons_append, List.append_assoc, List.nil_append]

theorem explode_he_occupant_damage_witness :
    ∃ damage rest draws',
      explode.he soldierBelowBattle maxRNG ⟨0, 0, 0⟩ (soldierBelowBattle.tiles ⟨0, 0, 0⟩) 10 0
        = .ok (Effect.damage soldier.id damage :: rest, draws')
      ∧ damage = explode.castInt
          (maxRNG.generateReal (((10 : Int) : ℚ) / 2) (((10 : Int) : ℚ) * (3 / 2)) 0)
      ∧ ((10 : Int) : ℚ) / 2 - 1 < damage ∧ (damage : ℚ) ≤ ((10 : Int) : ℚ) * (3 / 2)
      ∧ (10 : Int) / 2 ≤ damage ∧ damage ≤ 3 * (10 : Int) / 2 :=
  explode_he_occupant_damage soldierBelowBattle maxRNG ⟨0, 0, 0⟩
    (soldierBelowBattle.tiles ⟨0, 0, 0⟩) 10 0 soldier (emptyTile ⟨0, 0, 1⟩)
    maxRNG_inBounds (by decide) rfl rfl

/-! ## Explosions: smoke -/

/-- The smoke a smoke explosion puts on a newly visited tile whose smoke is below 10 is
the draw `RNG::generate(power_ / 10, 14)`. -/
theorem explode_smoke_deposit (rng : RNG) (tile : Position) (dest : Tile) (p : Int)
    (draws : Nat) (hsmoke : dest.getSmoke < 10) :
    explode.smoke rng tile dest p draws
      = ([Effect.addSmoke tile (rng.generate (p.tdiv 10) 14 draws)], draws + 1) := by
  simp only [explode.smoke, if_pos hsmoke]

/-- C18: a smoke explosion of power 4 on an open one-tile grid, with a generator that
draws the lower bound of the requested range, reaches the tile (whose smoke is 0, below
10) with power 5 left and adds `RNG::generate(5/10, 14) = 0` smoke to it, the only call it
makes: the smoke of the tile stays 0, not between 10 and 20. -/
theorem explode_smoke_too_short :
    ((emptyBattle 1 1 1).tiles ⟨0, 0, 0⟩).getSmoke = 0
    ∧ (explode.area (emptyBattle 1 1 1) minRNG (eastRay ⟨8, 8, 12⟩) ⟨8, 8, 12⟩ 4
        ItemDamageType.DT_SMOKE 0).map (fun st => st.effects)
      = .ok [Effect.addSmoke ⟨0, 0, 0⟩ 0]
    ∧ minRNG.generate ((5 : Int).tdiv 10) 14 0 = 0
    ∧ ¬ (10 ≤ (0 : Int) + 0) := by
  decide

/-! ## Explosions: the top level -/

/-- C20: an HE explosion of power 10 on the only level of an open one-tile grid: the first
ray reaches the centre tile with power 11 left, the tile above is absent, and line 594
reads its unit through the null pointer; the explosion does not run to completion. -/
theorem explode_top_level_fault :
    (emptyBattle 1 1 1).getTile ⟨0, 0, 1⟩ = none
    ∧ explode.area (emptyBattle 1 1 1) minRNG (eastRay ⟨8, 8, 12⟩) ⟨8, 8, 12⟩ 10
        ItemDamageType.DT_HE 1 = .error .nullPointer :=
  ⟨rfl, by decide⟩

/-- On the bottom level the absent tile below is tested for: an HE explosion of power 9 on
the lower level of an open column of two tiles runs to completion. -/
theorem explode_bottom_level_ok :
    (emptyBattle 1 1 2).getTile ⟨0, 0, -1⟩ = none
    ∧ (explode.area (emptyBattle 1 1 2) minRNG (eastRay ⟨8, 8, 12⟩) ⟨8, 8, 12⟩ 9
        ItemDamageType.DT_HE 0).map (fun st => st.tilesAffected) = .ok [⟨0, 0, 0⟩] :=
  ⟨rfl, by decide⟩

/-! ## Explosions: the power along a ray -/

/-- A visit of an HE explosion with power left, with the tile above present: it runs
through, records the tile as reached, keeps the calls made before and adds the explosive
marker of half the power left. -/
theorem explode_visit_he_ok (save : SavedBattleGame) (rng : RNG) (tile : Position)
    (dest : Tile) (p : Int) (st : ExplodeState) (hp : 0 < p)
    (habove : (save.getTile ⟨tile.x, tile.y, tile.z + 1⟩).isSome = true) :
    ∃ st', explode.visit save rng ItemDamageType.DT_HE tile dest p st = .ok st'
      ∧ st'.reached = st.reached ++ [(tile, p)]
      ∧ ∃ more, st'.effects = st.effects ++ Effect.setExplosive tile (p / 2) :: more := by
  have hdiv : p.tdiv 2 = p / 2 := Int.tdiv_eq_ediv (le_of_lt hp) (by decide)
  have hgt : p > 0 := hp
  obtain ⟨tileAbove, hab⟩ := Option.isSome_iff_exists.mp habove
  by_cases hnew : tile ∈ st.tilesAffected
  · refine ⟨{ st with reached := st.reached ++ [(tile, p)]
                      effects := st.effects ++ [Effect.setExplosive tile (p / 2)] },
      ?_, rfl, [], rfl⟩
    simp only [explode.visit, if_pos hgt, if_true, hnew, hdiv]
  · obtain ⟨he, hhe⟩ : ∃ he, explode.he save rng tile dest p st.draws = .ok he :=
      ⟨_, explode_he_ok save rng tile dest p st.draws tileAbove hab⟩
    refine ⟨{ st with reached := st.reached ++ [(tile, p)]
                      effects := st.effects ++ [Effect.setExplosive tile (p / 2)] ++ he.1
                      tilesAffected := st.tilesAffected ++ [tile]
                      draws := he.2 },
      ?_, rfl, he.1, ?_⟩
    · simp only [explode.visit, if_pos hgt, if_true, hnew, if_false, explode_newTile_he,
        hhe, hdiv]
    · simp only [List.append_assoc, List.singleton_append]

/-- With no power left the loop along a ray stops at once. -/
theorem explode_rayLoop_done (save : SavedBattleGame) (rng : RNG) (tileAt : Nat → Position)
    (type : ItemDamageType) (maxRadius : Int) (fuel : Nat) (power_ : Int) (l : Nat)
    (origin : Option Tile) (st : ExplodeState) (h : power_ ≤ 0) :
    explode.rayLoop save rng tileAt type maxRadius fuel power_ l origin st = .ok st := by
  have hc : ¬ (power_ > 0 ∧ (l : Int) ≤ maxRadius) := by omega
  cases fuel with
  | zero => simp only [explode.rayLoop, if_neg hc]
  | succ f => simp only [explode.rayLoop, if_neg hc]

/-- Along a ray in open terrain the power left at step `k + i` is `P + 1 - 10 * (k + i)`,
and an explosive marker of half of it is put on the tile of the step. -/
theorem explode_rayLoop_open (save : SavedBattleGame) (rng : RNG) (tileAt : Nat → Position)
    (P maxRadius : Int) (q : Nat) (hq1 : 10 * (q : Int) ≤ P) (hq2 : P < 10 * ((q : Int) + 1))
    (hmax : (q : Int) ≤ maxRadius)
    (hgrid : ∀ l : Nat, 10 * (l : Int) ≤ P →
      (save.getTile (tileAt l)).isSome = true
      ∧ (save.getTile ⟨(tileAt l).x, (tileAt l).y, (tileAt l).z + 1⟩).isSome = true)
    (hblock : ∀ l : Nat, 10 * ((l : Int) + 1) ≤ P →
      horizontalBlockage save (save.getTile (tileAt l)) (save.getTile (tileAt (l + 1)))
        ItemDamageType.DT_HE = .ok 0) :
    ∀ (n k fuel : Nat) (origin : Option Tile) (st : ExplodeState),
      k + n = q + 1 → n ≤ fuel →
      (10 * (k : Int) ≤ P →
        horizontalBlockage save origin (save.getTile (tileAt k)) ItemDamageType.DT_HE = .ok 0) →
      ∃ st', explode.rayLoop save rng tileAt ItemDamageType.DT_HE maxRadius fuel
          (P + 1 - 10 * (k : Int)) k origin st = .ok st'
        ∧ st'.reached = st.reached
            ++ (List.range n).map (fun i => (tileAt (k + i), P + 1 - 10 * ((k + i : Nat) : Int)))
        ∧ (∀ e ∈ st.effects, e ∈ st'.effects)
        ∧ ∀ i, i < n →
            Effect.setExplosive (tileAt (k + i)) ((P + 1 - 10 * ((k + i : Nat) : Int)) / 2)
              ∈ st'.effects := by
  intro n
  induction n with
  | zero =>
    intro k fuel origin st hk _ _
    refine ⟨st, ?_, by simp, fun e he => he, fun i hi => absurd hi (Nat.not_lt_zero _)⟩
    apply explode_rayLoop_done
    have : (k : Int) = (q : Int) + 1 := by omega
    omega
  | succ n ih =>
    intro k fuel origin st hk hfuel horigin
    obtain ⟨f, rfl⟩ : ∃ f, fuel = f + 1 := ⟨fuel - 1, by omega⟩
    have hkq : (k : Int) ≤ q := by omega
    have hkP : 10 * (k : Int) ≤ P := by omega
    have hpos : 0 < P + 1 - 10 * (k : Int) := by omega
    have hc : P + 1 - 10 * (k : Int) > 0 ∧ (k : Int) ≤ maxRadius := ⟨hpos, by omega⟩
    obtain ⟨hdest, habove⟩ := hgrid k hkP
    obtain ⟨dest, hd⟩ := Option.isSome_iff_exists.mp hdest
    have hb := horigin hkP
    rw [hd] at hb
    obtain ⟨st1, hvisit, hreach1, more, heff1⟩ :=
      explode_visit_he_ok save rng (tileAt k) dest (P + 1 - 10 * (k : Int)) st hpos habove
    have hnext : P + 1 - 10 * (k : Int) - 0 - 10 = P + 1 - 10 * ((k + 1 : Nat) : Int) := by
      push_cast
      ring
    have horigin' : 10 * ((k + 1 : Nat) : Int) ≤ P →
        horizontalBlockage save (some dest) (save.getTile (tileAt (k + 1)))
          ItemDamageType.DT_HE = .ok 0 := by
      intro h
      have := hblock k (by push_cast at h; omega)
      rw [hd] at this
      exact this
    obtain ⟨st', hloop, hreach, hkeep, hmark⟩ :=
      ih (k + 1) f (some dest) st1 (by omega) (by omega) horigin'
    refine ⟨st', ?_, ?_, ?_, ?_⟩
    · rw [explode.rayLoop, if_pos hc, hd]
      simp only [hb, sub_zero, hvisit]
      have hnext' : P + 1 - 10 * (k : Int) - 10 = P + 1 - 10 * ((k + 1 : Nat) : Int) := by
        rw [← hnext]
        ring
      rw [hnext']
      exact hloop
    · rw [hreach, hreach1, List.range_succ_eq_map, List.map_cons, List.map_map,
        List.append_assoc]
      simp only [List.singleton_append, Nat.add_zero, List.cons.injEq, List.append_cancel_left_eq,
        true_and]
      apply List.map_congr_left
      intro i _
      have hi : k + 1 + i = k + Nat.succ i := by omega
      simp only [Function.comp_apply, hi]
    · intro e he
      apply hkeep
      rw [heff1]
      exact List.mem_append_left _ he
    · intro i hi
      cases i with
      | zero =>
        apply hkeep
        rw [heff1]
        simp
      | succ j =>
        have := hmark j (by omega)
        have hidx : k + (j + 1) = k + 1 + j := by omega
        rw [hidx]
        exact this

/-- C17 (the claim as stated fails): an HE explosion of nominal power 100 with
`maxRadius = 10` on an open grid of 11 by 1 tiles and two levels, along the ray with
`te = 0` from the voxel (8, 8, 12). The ray runs the steps 0 to 10 with 101, 91, ..., 1 of
power left, and the explosive marker it sets at step 10 = 100 / 10, on the tile
(10, 0, 0), is `1 / 2 = 0`. -/
theorem explode_ray_last_marker_zero :
    (explode.ray (emptyBattle 11 1 2) minRNG (eastRay ⟨8, 8, 12⟩) ⟨8, 8, 12⟩ 100
        ItemDamageType.DT_HE 10 0 ⟨[], [], 0, []⟩).map (fun st => (st.reached, st.effects))
      = .ok ([(⟨0, 0, 0⟩, 101), (⟨1, 0, 0⟩, 91), (⟨2, 0, 0⟩, 81), (⟨3, 0, 0⟩, 71),
              (⟨4, 0, 0⟩, 61), (⟨5, 0, 0⟩, 51), (⟨6, 0, 0⟩, 41), (⟨7, 0, 0⟩, 31),
              (⟨8, 0, 0⟩, 21), (⟨9, 0, 0⟩, 11), (⟨10, 0, 0⟩, 1)],
             [Effect.setExplosive ⟨0, 0, 0⟩ 50, Effect.setExplosive ⟨1, 0, 0⟩ 45,
              Effect.setExplosive ⟨2, 0, 0⟩ 40, Effect.setExplosive ⟨3, 0, 0⟩ 35,
              Effect.setExplosive ⟨4, 0, 0⟩ 30, Effect.setExplosive ⟨5, 0, 0⟩ 25,
              Effect.setExplosive ⟨6, 0, 0⟩ 20, Effect.setExplosive ⟨7, 0, 0⟩ 15,
              Effect.setExplosive ⟨8, 0, 0⟩ 10, Effect.setExplosive ⟨9, 0, 0⟩ 5,
              Effect.setExplosive ⟨10, 0, 0⟩ 0])
    ∧ (10 : Int) ≤ (100 : Int).tdiv 10 := by
  decide

/-- C17 (amended): an HE explosion of nominal power `P ≥ 0` with `maxRadius ≥ P / 10`,
along one ray all of whose tiles for the steps `l` with `10 * l ≤ P` exist together with
the tiles above them, with zero horizontal blockage from the start tile to the first tile
and between consecutive tiles of the ray. The ray runs through; the tiles it reaches are
those of the steps `0 .. P / 10`, in this order, with `P + 1 - 10 * l` of power left at
step `l`; at each of these steps the marker `(P + 1 - 10 * l) / 2` is set on the tile; and
this marker is nonzero exactly when `10 * l < P`: at the last step of a power that is a
multiple of 10 it is `1 / 2 = 0`. -/
theorem explode_ray_power_and_marker (save : SavedBattleGame) (rng : RNG)
    (ray : Nat → Nat → Position) (center : Position) (P maxRadius : Int) (te : Nat)
    (st : ExplodeState) (hP : 0 ≤ P) (hmax : P.tdiv 10 ≤ maxRadius)
    (hgrid : ∀ l : Nat, 10 * (l : Int) ≤ P →
      (save.getTile (ray te l)).isSome = true
      ∧ (save.getTile ⟨(ray te l).x, (ray te l).y, (ray te l).z + 1⟩).isSome = true)
    (hstart : horizontalBlockage save (save.getTile center) (save.getTile (ray te 0))
        ItemDamageType.DT_HE = .ok 0)
    (hblock : ∀ l : Nat, 10 * ((l : Int) + 1) ≤ P →
      horizontalBlockage save (save.getTile (ray te l)) (save.getTile (ray te (l + 1)))
        ItemDamageType.DT_HE = .ok 0) :
    ∃ st', explode.ray save rng ray center P ItemDamageType.DT_HE maxRadius te st = .ok st'
      ∧ st'.reached = st.reached
          ++ (List.range ((P.tdiv 10).toNat + 1)).map
              (fun l => (ray te l, P + 1 - 10 * (l : Int)))
      ∧ ∀ l : Nat, 10 * (l : Int) ≤ P →
          Effect.setExplosive (ray te l) ((P + 1 - 10 * (l : Int)).tdiv 2) ∈ st'.effects
          ∧ ((P + 1 - 10 * (l : Int)).tdiv 2 ≠ 0 ↔ 10 * (l : Int) < P) := by
  have hdiv : P.tdiv 10 = P / 10 := Int.tdiv_eq_ediv hP (by decide)
  rw [hdiv] at hmax
  rw [hdiv]
  obtain ⟨st', hrun, hreach, _, hmark⟩ :=
    explode_rayLoop_open save rng (ray te) P maxRadius (P / 10).toNat (by omega) (by omega)
      (by omega) hgrid hblock ((P / 10).toNat + 1) 0 (maxRadius + 1).toNat
      (save.getTile center) st (by omega) (by omega) (fun _ => hstart)
  refine ⟨st', ?_, ?_, ?_⟩
  · simpa only [explode.ray, Nat.cast_zero, mul_zero, sub_zero] using hrun
  · simpa only [Nat.zero_add] using hreach
  · intro l hl
    have hhalf : (P + 1 - 10 * (l : Int)).tdiv 2 = (P + 1 - 10 * (l : Int)) / 2 :=
      Int.tdiv_eq_ediv (by omega) (by decide)
    rw [hhalf]
    constructor
    · have := hmark l (by omega)
      simpa only [Nat.zero_add] using this
    · omega

theorem explode_ray_power_and_marker_witness :
    ∃ st', explode.ray (emptyBattle 11 1 2) minRNG (eastRay ⟨8, 8, 12⟩) ⟨8, 8, 12⟩ 100
          ItemDamageType.DT_HE 10 0 ⟨[], [], 0, []⟩ = .ok st'
      ∧ st'.reached = [] ++ (List.range (((100 : Int).tdiv 10).toNat + 1)).map
              (fun l => (eastRay ⟨8, 8, 12⟩ 0 l, 100 + 1 - 10 * (l : Int)))
      ∧ ∀ l : Nat, 10 * (l : Int) ≤ 100 →
          Effect.setExplosive (eastRay ⟨8, 8, 12⟩ 0 l) ((100 + 1 - 10 * (l : Int)).tdiv 2)
            ∈ st'.effects
          ∧ ((100 + 1 - 10 * (l : Int)).tdiv 2 ≠ 0 ↔ 10 * (l : Int) < 100) :=
  explode_ray_power_and_marker (emptyBattle 11 1 2) minRNG (eastRay ⟨8, 8, 12⟩) ⟨8, 8, 12⟩
    100 10 0 ⟨[], [], 0, []⟩ (by decide) (by decide)
    (fun l hl => by
      have h : l ≤ 10 := by omega
      interval_cases l <;> exact ⟨rfl, rfl⟩)
    (by decide)
    (fun l hl => by
      have h : l ≤ 9 := by omega
      interval_cases l <;> decide)

/-! ## Item drop -/

/-- A position is in the grid exactly when `getTile` finds the tile stored there. -/
theorem getTile_eq_some_iff (save : SavedBattleGame) (pos : Position) :
    (save.getTile pos).isSome = true ↔
      (0 ≤ pos.x ∧ pos.x < save.getWidth) ∧ (0 ≤ pos.y ∧ pos.y < save.getLength)
        ∧ (0 ≤ pos.z ∧ pos.z < save.getHeight) := by
  unfold SavedBattleGame.getTile
  split_ifs with h
  · simp only [Option.isSome_none, Bool.false_eq_true, false_iff]
    omega
  · simp only [Option.isSome_some, true_iff]
    omega

theorem getTile_of_isSome (save : SavedBattleGame) (pos : Position)
    (h : (save.getTile pos).isSome = true) : save.getTile pos = some (save.tiles pos) := by
  unfold SavedBattleGame.getTile at h ⊢
  split_ifs with hc
  · rw [if_pos hc] at h
    cases h
  · rfl

/-- The loop of `spawnItem`, started in the grid with at least `p.z` rounds, ends on the
greatest level at or below `p.z` that has a floor, or on level 0. -/
theorem spawnItem_fall_spec (save : SavedBattleGame) (x y : Int) :
    ∀ (fuel : Nat) (z : Int), (save.getTile ⟨x, y, z⟩).isSome = true → z ≤ fuel →
      ∃ z', spawnItem.fall save fuel ⟨x, y, z⟩ = .ok ⟨x, y, z'⟩
        ∧ 0 ≤ z' ∧ z' ≤ z
        ∧ (((save.tiles ⟨x, y, z'⟩).getMapData MapData.O_FLOOR).isSome = true ∨ z' = 0)
        ∧ ∀ l, z' < l → l ≤ z → (save.tiles ⟨x, y, l⟩).getMapData MapData.O_FLOOR = none := by
  intro fuel
  induction fuel with
  | zero =>
    intro z hin hz
    have hgrid := (getTile_eq_some_iff save ⟨x, y, z⟩).mp hin
    have hz0 : z = 0 := by
      have := hgrid.2.2.1
      simp only at this
      push_cast at hz
      omega
    subst hz0
    refine ⟨0, ?_, le_refl _, le_refl _, Or.inr rfl, fun l h1 h2 => by omega⟩
    have hc : ¬ (((save.tiles ⟨x, y, 0⟩).getMapData MapData.O_FLOOR).isNone = true
        ∧ (0 : Int) > 0) := by
      omega
    simp only [spawnItem.fall, getTile_of_isSome save _ hin, if_neg hc]
  | succ n ih =>
    intro z hin hz
    have hgrid := (getTile_eq_some_iff save ⟨x, y, z⟩).mp hin
    simp only at hgrid
    by_cases hc : ((save.tiles ⟨x, y, z⟩).getMapData MapData.O_FLOOR).isNone = true ∧ z > 0
    · have hin' : (save.getTile ⟨x, y, z - 1⟩).isSome = true := by
        rw [getTile_eq_some_iff]
        simp only
        omega
      obtain ⟨z', hrun, h0, hle, hfloor, habove⟩ := ih (z - 1) hin' (by push_cast at hz; omega)
      refine ⟨z', ?_, h0, by omega, hfloor, ?_⟩
      · simp only [spawnItem.fall, getTile_of_isSome save _ hin, if_pos hc]
        exact hrun
      · intro l h1 h2
        by_cases hl : l = z
        · subst hl
          exact Option.isNone_iff_eq_none.mp hc.1
        · exact habove l h1 (by omega)
    · refine ⟨z, ?_, hgrid.2.2.1, le_refl _, ?_, fun l h1 h2 => by omega⟩
      · simp only [spawnItem.fall, getTile_of_isSome save _ hin, if_neg hc]
      · by_cases hz0 : z = 0
        · exact Or.inr hz0
        · left
          have : ¬ ((save.tiles ⟨x, y, z⟩).getMapData MapData.O_FLOOR).isNone = true := by
            intro h
            exact hc ⟨h, by omega⟩
          cases hm : (save.tiles ⟨x, y, z⟩).getMapData MapData.O_FLOOR with
          | none => rw [hm] at this; exact absurd rfl this
          | some m => rfl

/-- C21: `spawnItem` returns for every position. For a position outside the grid it adds
the item to no tile. For a position in the grid it adds the item to exactly one tile: the
tile of the same column on the greatest level `z` at or below `position.z` that has a
floor part, or on level 0 when no level at or below `position.z` has one. -/
theorem spawnItem_lands_on_floor (save : SavedBattleGame) (position : Position) :
    (save.getTile position = none → spawnItem save position = .ok [])
    ∧ ((save.getTile position).isSome = true →
        ∃ z, spawnItem save position = .ok [⟨position.x, position.y, z⟩]
          ∧ 0 ≤ z ∧ z ≤ position.z
          ∧ (((save.tiles ⟨position.x, position.y, z⟩).getMapData MapData.O_FLOOR).isSome
                = true
              ∨ (z = 0 ∧ ∀ l, 0 ≤ l → l ≤ position.z →
                  (save.tiles ⟨position.x, position.y, l⟩).getMapData MapData.O_FLOOR = none))
          ∧ ∀ l, z < l → l ≤ position.z →
              (save.tiles ⟨position.x, position.y, l⟩).getMapData MapData.O_FLOOR = none) := by
  obtain ⟨x, y, z⟩ := position
  constructor
  · intro h
    simp only [spawnItem, h]
  · intro hin
    have hgrid := (getTile_eq_some_iff save ⟨x, y, z⟩).mp hin
    simp only at hgrid
    obtain ⟨z', hrun, h0, hle, hfloor, habove⟩ :=
      spawnItem_fall_spec save x y z.toNat z hin (by omega)
    have hin' : (save.getTile ⟨x, y, z'⟩).isSome = true := by
      rw [getTile_eq_some_iff]
      simp only
      omega
    refine ⟨z', ?_, h0, hle, ?_, habove⟩
    · simp only [spawnItem, getTile_of_isSome save _ hin, hrun, getTile_of_isSome save _ hin']
    · by_cases hf : ((save.tiles ⟨x, y, z'⟩).getMapData MapData.O_FLOOR).isSome = true
      · exact Or.inl hf
      · right
        have hz' : z' = 0 := by
          rcases hfloor with h | h
          · exact absurd h hf
          · exact h
        refine ⟨hz', fun l hl0 hlz => ?_⟩
        by_cases hl : l = z'
        · subst hl
          cases hm : (save.tiles ⟨x, y, l⟩).getMapData MapData.O_FLOOR with
          | none => rfl
          | some m => rw [hm] at hf; exact absurd rfl hf
        · exact habove l (by omega) hlz

theorem spawnItem_lands_on_floor_witness :
    (∃ z, spawnItem shelfBattle ⟨0, 0, 3⟩ = .ok [⟨0, 0, z⟩]
      ∧ 0 ≤ z ∧ z ≤ 3
      ∧ (((shelfBattle.tiles ⟨0, 0, z⟩).getMapData MapData.O_FLOOR).isSome = true
          ∨ (z = 0 ∧ ∀ l, 0 ≤ l → l ≤ 3 →
              (shelfBattle.tiles ⟨0, 0, l⟩).getMapData MapData.O_FLOOR = none))
      ∧ ∀ l, z < l → l ≤ 3 →
          (shelfBattle.tiles ⟨0, 0, l⟩).getMapData MapData.O_FLOOR = none)
    ∧ spawnItem shelfBattle ⟨0, 0, 3⟩ = .ok [⟨0, 0, 1⟩]
    ∧ spawnItem shelfBattle ⟨0, 0, 0⟩ = .ok [⟨0, 0, 0⟩]
    ∧ spawnItem shelfBattle ⟨0, 0, 4⟩ = .ok [] :=
  ⟨(spawnItem_lands_on_floor shelfBattle ⟨0, 0, 3⟩).2 (by decide), by decide, by decide,
    by decide⟩

/-! ## Reaction fire: the failure paths -/

/-- The forced facing turn leaves the visible units, the time units and the AI states
alone. -/
theorem checkReactionFire_turn_keeps (rules : ReactionRules) (rng : RNG) (unit : BattleUnit)
    (potentialVictim : Option BattleUnit) (recalculateFOV : Bool) (st : ReactionState) :
    (checkReactionFire.turn rules rng unit potentialVictim recalculateFOV st).2.timeUnits
        = st.timeUnits
    ∧ (checkReactionFire.turn rules rng unit potentialVictim recalculateFOV st).2.aiState
        = st.aiState := by
  unfold checkReactionFire.turn
  cases potentialVictim with
  | none => exact ⟨rfl, rfl⟩
  | some victim =>
    dsimp only
    split_ifs <;> exact ⟨rfl, rfl⟩

/-- When the part of `checkReactionFire` after the loop reports failure, the time units and
the AI states are those before it, provided a failed `spendTimeUnits` spends nothing; the
type, the target and the weapon of the action descriptor are either left alone or
overwritten with the snap shot of the candidate at the acting unit. -/
theorem checkReactionFire_shoot_failure (save : SavedBattleGame) (rules : ReactionRules)
    (unit : BattleUnit) (action : BattleAction) (highestReactionScore : ℚ)
    (st : ReactionState)
    (hspend : ∀ tu cost debug, (rules.spendTimeUnits tu cost debug).1 = false →
      (rules.spendTimeUnits tu cost debug).2 = tu)
    (hfail : (checkReactionFire.shoot save rules unit action highestReactionScore st).1
      = false) :
    (checkReactionFire.shoot save rules unit action highestReactionScore st).2.2.timeUnits
        = st.timeUnits
    ∧ (checkReactionFire.shoot save rules unit action highestReactionScore st).2.2.aiState
        = st.aiState
    ∧ (checkReactionFire.shoot save rules unit action highestReactionScore st).2.1.actor
        = action.actor
    ∧ ((checkReactionFire.shoot save rules unit action highestReactionScore st).2.1 = action
      ∨ ∃ actor, action.actor = some actor
          ∧ (checkReactionFire.shoot save rules unit action highestReactionScore st).2.1
            = ⟨some actor, BattleActionType.BA_SNAPSHOT, unit.getPosition,
                save.getMainHandWeapon actor⟩) := by
  obtain ⟨a, ty, tg, w⟩ := action
  cases a with
  | none => exact ⟨rfl, rfl, rfl, Or.inl rfl⟩
  | some actor =>
    unfold checkReactionFire.shoot at hfail ⊢
    dsimp only at hfail ⊢
    by_cases hscore : highestReactionScore > unit.getReactionScore
    · rw [if_pos hscore] at hfail ⊢
      by_cases hammo : checkReactionFire.loaded (save.getMainHandWeapon actor) = true
      · rw [if_pos hammo] at hfail ⊢
        by_cases hs : (rules.spendTimeUnits (st.timeUnits actor.id)
            (rules.getActionTUs actor BattleActionType.BA_SNAPSHOT
              (save.getMainHandWeapon actor)) save.getDebugMode).1 = true
        · rw [if_pos hs] at hfail
          exact absurd hfail (by simp)
        · rw [if_neg hs]
          have hkeep := hspend _ _ _ (by simpa using hs)
          refine ⟨?_, rfl, rfl, Or.inr ⟨actor, rfl, rfl⟩⟩
          funext k
          by_cases hk : k = actor.id
          · subst hk
            simp only [if_true, hkeep]
          · simp only [if_neg hk]
      · rw [if_neg hammo]
        exact ⟨rfl, rfl, rfl, Or.inr ⟨actor, rfl, rfl⟩⟩
    · rw [if_neg hscore]
      exact ⟨rfl, rfl, rfl, Or.inl rfl⟩

/-- C22 (the claim as stated fails): in the turn of the player, with the sniper seeing the
observer and carrying a rifle without ammo, `checkReactionFire` for the observer reports
failure and leaves the caller's action descriptor (actor the bystander, no action, target
(9, 9, 9), no weapon) overwritten with the sniper, the snap shot, the position of the
observer and the rifle; for an acting unit that is not of the side in turn it reports
failure and leaves the actor reset to null. -/
theorem checkReactionFire_failure_overwrites_action :
    (checkReactionFire ambushBattle solidVoxelData 0 0 eastSights sampleRules minRNG observer
        ⟨some bystander, BattleActionType.BA_NONE, ⟨9, 9, 9⟩, none⟩ none false
        ambushState).map (fun r => (r.1, r.2.1))
      = .ok (false, ⟨some sniper, BattleActionType.BA_SNAPSHOT, ⟨0, 0, 0⟩, some emptyRifle⟩)
    ∧ (checkReactionFire ambushBattle solidVoxelData 0 0 eastSights sampleRules minRNG alien
        ⟨some bystander, BattleActionType.BA_NONE, ⟨9, 9, 9⟩, none⟩ none false
        ambushState).map (fun r => (r.1, r.2.1))
      = .ok (false, ⟨none, BattleActionType.BA_NONE, ⟨9, 9, 9⟩, none⟩) := by
  decide

/-! ## New turn: the drift of the smoke -/

theorem turnState_addSmoke_effects (rules : TileRules) (st : TurnState) (pos : Position)
    (smoke : Int) :
    (st.addSmoke rules pos smoke).effects = st.effects ++ [Effect.addSmoke pos smoke] := rfl

theorem list_append_singleton_ne (l : List Effect) (e : Effect) : l ++ [e] ≠ l := by
  intro h
  have := congrArg List.length h
  simp at this

/-- C23 (the claim as stated fails): on a row of three tiles with 8 of smoke on tile
(0, 0, 0) and a wall that blocks smoke between the tiles (0, 0, 0) and (1, 0, 0), with the
drift (+1, 0): the blockage from the source to the one-step tile is 100, the blockage from
the one-step tile to the two-step tile is 0, and the only deposit of `prepareNewTurn` is a
quarter of the smoke, 2, on the two-step tile (2, 0, 0). -/
theorem prepareNewTurn_smoke_jumps_wall :
    driftEastRNG.generate (-1) 1 0 = 1 ∧ driftEastRNG.generate (-1) 1 1 = 0
    ∧ horizontalBlockage smokeWallBattle (smokeWallBattle.getTile ⟨0, 0, 0⟩)
        (smokeWallBattle.getTile ⟨1, 0, 0⟩) ItemDamageType.DT_SMOKE = .ok 100
    ∧ horizontalBlockage smokeWallBattle (smokeWallBattle.getTile ⟨1, 0, 0⟩)
        (smokeWallBattle.getTile ⟨2, 0, 0⟩) ItemDamageType.DT_SMOKE = .ok 0
    ∧ (prepareNewTurn sampleTileRules max driftEastRNG smokeWallBattle).map
        (fun st => st.effects) = .ok [Effect.addSmoke ⟨2, 0, 0⟩ 2] := by
  decide

/-! ## New turn: the spreading of fire -/

theorem turnState_ignite_effects (rules : TileRules) (st : TurnState) (pos : Position) :
    (st.ignite rules pos).effects = st.effects ++ [Effect.ignite pos] := rfl

/-- A neighbour visit either adds no call or adds the ignition of the neighbour. -/
theorem prepareNewTurn_spread_effects (rules : TileRules) (rng : RNG) (i pos : Position)
    (st st' : TurnState) (hrun : prepareNewTurn.spread rules rng i pos st = .ok st') :
    st'.effects = st.effects ∨ st'.effects = st.effects ++ [Effect.ignite pos] := by
  unfold prepareNewTurn.spread at hrun
  dsimp only at hrun
  cases ht : st.save.getTile pos with
  | none =>
    rw [ht] at hrun
    simp only [Except.ok.injEq] at hrun
    exact Or.inl (by rw [← hrun])
  | some t =>
    rw [ht] at hrun
    dsimp only at hrun
    cases hb : horizontalBlockage st.save (some (st.save.tiles i)) (some t)
        ItemDamageType.DT_IN with
    | error e =>
      rw [hb] at hrun
      split_ifs at hrun
      simp only [Except.ok.injEq] at hrun
      subst hrun
      exact Or.inl rfl
    | ok block =>
      rw [hb] at hrun
      dsimp only at hrun
      split_ifs at hrun
      all_goals first
        | (simp only [Except.ok.injEq] at hrun; subst hrun; exact Or.inl rfl)
        | (simp only [Except.ok.injEq] at hrun; subst hrun; exact Or.inr rfl)

/-- The calls added by the visits of a list of neighbours are ignitions of tiles of the
list. -/
theorem prepareNewTurn_spreadAll_effects (rules : TileRules) (rng : RNG) (i : Position) :
    ∀ (l : List Position) (st st' : TurnState),
      prepareNewTurn.spreadAll rules rng i l st = .ok st' →
      ∃ added, st'.effects = st.effects ++ added
        ∧ ∀ e ∈ added, ∃ p ∈ l, e = Effect.ignite p := by
  intro l
  induction l with
  | nil =>
    intro st st' h
    simp only [prepareNewTurn.spreadAll, Except.ok.injEq] at h
    exact ⟨[], by rw [h, List.append_nil], fun e he => absurd he (List.not_mem_nil e)⟩
  | cons pos rest ih =>
    intro st st' h
    simp only [prepareNewTurn.spreadAll] at h
    cases h1 : prepareNewTurn.spread rules rng i pos st with
    | error e => rw [h1] at h; cases h
    | ok st1 =>
      rw [h1] at h
      dsimp only at h
      obtain ⟨added, hadd, hmem⟩ := ih st1 st' h
      rcases prepareNewTurn_spread_effects rules rng i pos st st1 h1 with h2 | h2
      · refine ⟨added, by rw [hadd, h2], ?_⟩
        intro e he
        obtain ⟨p, hp, hep⟩ := hmem e he
        exact ⟨p, List.mem_cons_of_mem _ hp, hep⟩
      · refine ⟨Effect.ignite pos :: added, by rw [hadd, h2, List.append_assoc]; rfl, ?_⟩
        intro e he
        rcases List.mem_cons.mp he with he | he
        · exact ⟨pos, List.mem_cons_self _ _, he⟩
        · obtain ⟨p, hp, hep⟩ := hmem e he
          exact ⟨p, List.mem_cons_of_mem _ hp, hep⟩

/-- C24 (the claim as stated fails): on a row of two tiles with a fire on tile (0, 0, 0)
and, between the two tiles, a wall that blocks 100 of smoke and nothing of the incendiary
type, the tile (1, 0, 0) of flammability 0 is ignited by `prepareNewTurn` although the
smoke-type blockage from the source to it is not zero: the test is made with the
incendiary type. -/
theorem prepareNewTurn_fire_passes_smoke_wall :
    horizontalBlockage fireBattle (fireBattle.getTile ⟨0, 0, 0⟩)
        (fireBattle.getTile ⟨1, 0, 0⟩) ItemDamageType.DT_SMOKE = .ok 100
    ∧ horizontalBlockage fireBattle (fireBattle.getTile ⟨0, 0, 0⟩)
        (fireBattle.getTile ⟨1, 0, 0⟩) ItemDamageType.DT_IN = .ok 0
    ∧ (prepareNewTurn sampleTileRules max sparkRNG fireBattle).map (fun st => st.effects)
      = .ok [Effect.ignite ⟨1, 0, 0⟩] := by
  decide

/-- C24 (amended): for the burning tile stored at `i`. A neighbour looked up at `pos` is
ignited exactly when it exists, does not burn, the incendiary-type horizontal blockage
from the source to it is zero, its flammability is below 255 and below the folded normal
sample, and the integer draw from 0 to the flammability is below 2. So a neighbour whose
incendiary-type blockage from the source is not zero is never ignited, nor is a tile of
flammability 255 or more; and every tile ignited from the source is one of the nine tiles
around it on its level. -/
theorem prepareNewTurn_fire_spread (rules : TileRules) (rng : RNG) (i pos : Position)
    (st : TurnState) :
    ((∃ t, st.save.getTile pos = some t ∧ t.getFire = 0
        ∧ horizontalBlockage st.save (some (st.save.tiles i)) (some t)
            ItemDamageType.DT_IN = .ok 0
        ∧ t.getFlammability < 255
        ∧ (t.getFlammability : ℚ) < |rng.boxMuller 0 126 st.draws|
        ∧ rng.generate 0 t.getFlammability (st.draws + 1) < 2) →
      prepareNewTurn.spread rules rng i pos st
        = .ok (TurnState.ignite rules { st with draws := st.draws + 1 + 1 } pos))
    ∧ (∀ st', prepareNewTurn.spread rules rng i pos st = .ok st' →
        st'.effects ≠ st.effects →
        ∃ t, st.save.getTile pos = some t ∧ t.getFire = 0
          ∧ horizontalBlockage st.save (some (st.save.tiles i)) (some t)
              ItemDamageType.DT_IN = .ok 0
          ∧ t.getFlammability < 255
          ∧ (t.getFlammability : ℚ) < |rng.boxMuller 0 126 st.draws|
          ∧ rng.generate 0 t.getFlammability (st.draws + 1) < 2)
    ∧ (∀ st', prepareNewTurn.fireTile rules rng i st = .ok st' →
        ∃ added, st'.effects = (prepareNewTurn.burn rng (st.save.tiles i) st).effects ++ added
          ∧ ∀ e ∈ added, ∃ p, e = Effect.ignite p
            ∧ p.z = (st.save.tiles i).getPosition.z
            ∧ (p.x - (st.save.tiles i).getPosition.x).natAbs ≤ 1
            ∧ (p.y - (st.save.tiles i).getPosition.y).natAbs ≤ 1) := by
  have habs : ∀ b : ℚ, (if b < 0 then b * -1 else b) = |b| := by
    intro b
    split_ifs with h
    · rw [abs_of_neg h]
      ring
    · rw [abs_of_nonneg (not_lt.mp h)]
  refine ⟨?_, ?_, ?_⟩
  · rintro ⟨t, ht, hf, hb, h255, hbase, hroll⟩
    simp only [prepareNewTurn.spread, ht, hf, if_true, hb, h255, habs, hbase, hroll]
  · intro st' hrun hne
    unfold prepareNewTurn.spread at hrun
    dsimp only at hrun
    cases ht : st.save.getTile pos with
    | none =>
      rw [ht] at hrun
      simp only [Except.ok.injEq] at hrun
      exact absurd (by rw [hrun]) hne
    | some t =>
      rw [ht] at hrun
      dsimp only at hrun
      by_cases hf : t.getFire = 0
      · rw [if_pos hf] at hrun
        cases hb : horizontalBlockage st.save (some (st.save.tiles i)) (some t)
            ItemDamageType.DT_IN with
        | error e => rw [hb] at hrun; cases hrun
        | ok block =>
          rw [hb] at hrun
          dsimp only at hrun
          rw [habs] at hrun
          by_cases h0 : block = 0
          · rw [if_pos h0] at hrun
            by_cases h255 : t.getFlammability < 255
            · rw [if_pos h255] at hrun
              by_cases hbase : (t.getFlammability : ℚ) < |rng.boxMuller 0 126 st.draws|
              · rw [if_pos hbase] at hrun
                by_cases hroll : rng.generate 0 t.getFlammability (st.draws + 1) < 2
                · subst h0
                  exact ⟨t, rfl, hf, hb, h255, hbase, hroll⟩
                · rw [if_neg hroll] at hrun
                  simp only [Except.ok.injEq] at hrun
                  exact absurd (by rw [← hrun]) hne
              · rw [if_neg hbase] at hrun
                simp only [Except.ok.injEq] at hrun
                exact absurd (by rw [← hrun]) hne
            · rw [if_neg h255] at hrun
              simp only [Except.ok.injEq] at hrun
              exact absurd (by rw [hrun]) hne
          · rw [if_neg h0] at hrun
            simp only [Except.ok.injEq] at hrun
            exact absurd (by rw [hrun]) hne
      · rw [if_neg hf] at hrun
        simp only [Except.ok.injEq] at hrun
        exact absurd (by rw [hrun]) hne
  · intro st' hrun
    unfold prepareNewTurn.fireTile at hrun
    dsimp only at hrun
    cases hall : prepareNewTurn.spreadAll rules rng i
        (prepareNewTurn.neighbourhood
          ((prepareNewTurn.burn rng (st.save.tiles i) st).save.tiles i).getPosition)
        (prepareNewTurn.burn rng (st.save.tiles i) st) with
    | error e => rw [hall] at hrun; cases hrun
    | ok st1 =>
      rw [hall] at hrun
      simp only [Except.ok.injEq] at hrun
      obtain ⟨added, hadd, hmem⟩ := prepareNewTurn_spreadAll_effects rules rng i _ _ _ hall
      have hsave : (prepareNewTurn.burn rng (st.save.tiles i) st).save = st.save := by
        unfold prepareNewTurn.burn
        cases (st.save.tiles i).getUnit with
        | none => rfl
        | some unit =>
          dsimp only
          split_ifs <;> rfl
      refine ⟨added, by rw [← hrun]; exact hadd, ?_⟩
      intro e he
      obtain ⟨p, hp, hep⟩ := hmem e he
      rw [hsave] at hp
      refine ⟨p, hep, ?_⟩
      simp only [prepareNewTurn.neighbourhood, List.mem_cons, List.mem_singleton,
        List.not_mem_nil, or_false] at hp
      rcases hp with rfl | rfl | rfl | rfl | rfl | rfl | rfl | rfl | rfl <;>
        refine ⟨rfl, ?_, ?_⟩ <;> dsimp only <;> omega

theorem prepareNewTurn_fire_spread_witness :
    prepareNewTurn.spread sampleTileRules sparkRNG ⟨0, 0, 0⟩ ⟨1, 0, 0⟩ ⟨fireBattle, [], 2⟩
      = .ok (TurnState.ignite sampleTileRules ⟨fireBattle, [], 2 + 1 + 1⟩ ⟨1, 0, 0⟩)
    ∧ (fireBattle.tiles ⟨1, 0, 0⟩).getFlammability = 0
    ∧ sparkRNG.boxMuller 0 126 2 = 50 :=
  ⟨(prepareNewTurn_fire_spread sampleTileRules sparkRNG ⟨0, 0, 0⟩ ⟨1, 0, 0⟩
      ⟨fireBattle, [], 2⟩).1
      ⟨fireBattle.tiles ⟨1, 0, 0⟩, rfl, rfl, by decide, by decide,
        by
          show ((0 : Int) : ℚ) < |(50 : ℚ)|
          norm_num,
        by decide⟩,
    rfl, rfl⟩

/-! ## Field of view: units on a tile, the samples -/

/-- When the scan of `checkForVisibleUnits` sets `unitSeen`, some sample of the band, two
voxels apart from the top down, had a trace that returned -1, or returned 4 with the
sample lying in the tile of the target. -/
theorem checkForVisibleUnits_scan_true (save : SavedBattleGame) (voxelData : List Nat)
    (unit bu : BattleUnit) (originVoxel targetVoxel : Position) (targetMinHeight : Int) :
    ∀ (fuel : Nat) (i : Int),
      checkForVisibleUnits.scan save voxelData unit bu originVoxel targetVoxel targetMinHeight
        fuel i = .ok true →
      ∃ (k : Nat) (test : LineResult), i - 2 * (k : Int) > targetMinHeight
        ∧ calculateLine save voxelData originVoxel
            ⟨targetVoxel.x, targetVoxel.y, i - 2 * (k : Int)⟩ false none (some unit) = .ok test
        ∧ (test.result = -1
          ∨ (test.result = 4
            ∧ bu.getPosition
              = ⟨targetVoxel.x.tdiv 16, targetVoxel.y.tdiv 16,
                  (i - 2 * (k : Int)).tdiv 24⟩)) := by
  intro fuel
  induction fuel with
  | zero =>
    intro i h
    simp only [checkForVisibleUnits.scan] at h
    split_ifs at h
    cases h
  | succ n ih =>
    intro i h
    simp only [checkForVisibleUnits.scan] at h
    by_cases hi : i > targetMinHeight
    · rw [if_pos hi] at h
      cases htest : calculateLine save voxelData originVoxel ⟨targetVoxel.x, targetVoxel.y, i⟩
          false none (some unit) with
      | error e => rw [htest] at h; cases h
      | ok test =>
        rw [htest] at h
        dsimp only at h
        by_cases hc : test.result = -1 ∨ (test.result = 4
            ∧ bu.getPosition = ⟨targetVoxel.x.tdiv 16, targetVoxel.y.tdiv 16, i.tdiv 24⟩)
        · refine ⟨0, test, ?_, ?_, ?_⟩
          · simpa using hi
          · simpa using htest
          · simpa using hc
        · rw [if_neg hc] at h
          obtain ⟨k, test', h1, h2, h3⟩ := ih (i - 2) h
          refine ⟨k + 1, test', ?_, ?_, ?_⟩
          · push_cast
            omega
          · have he : i - 2 * ((k + 1 : Nat) : Int) = i - 2 - 2 * (k : Int) := by
              push_cast
              ring
            rw [he]
            exact h2
          · have he : i - 2 * ((k + 1 : Nat) : Int) = i - 2 - 2 * (k : Int) := by
              push_cast
              ring
            rw [he]
            exact h3
    · rw [if_neg hi] at h
      cases h

/-! ## Horizontal blockage: diagonal steps -/

theorem position_add_eq (p q : Position) : p + q = ⟨p.x + q.x, p.y + q.y, p.z + q.z⟩ := rfl

theorem position_ext (p q : Position) (hx : p.x = q.x) (hy : p.y = q.y) (hz : p.z = q.z) :
    p = q := by
  cases p
  cases q
  simp only [Position.mk.injEq]
  exact ⟨hx, hy, hz⟩

/-- The direction found for each of the four diagonal offsets. -/
theorem vectorToDirection_diagonal (v : Position) :
    (v.x = 1 ∧ v.y = 1 → vectorToDirection v = .ok 1)
    ∧ (v.x = 1 ∧ v.y = -1 → vectorToDirection v = .ok 3)
    ∧ (v.x = -1 ∧ v.y = -1 → vectorToDirection v = .ok 5)
    ∧ (v.x = -1 ∧ v.y = 1 → vectorToDirection v = .ok 7) := by
  refine ⟨?_, ?_, ?_, ?_⟩ <;> rintro ⟨hx, hy⟩ <;> rw [vectorToDirection_eq, hx, hy] <;> simp

/-- C26: for a diagonal step from `s` to `e`, `horizontalBlockage` is the sum of three
halved pairs plus the object blockage of `s`, each pair summed and then halved with the
truncating integer division of C++. With north = (0, +1) and east = (+1, 0): north-east
pairs N(s), W(e) | W(s+E), N(s+E) | O(s+N), O(s+E); south-east pairs W(e), N(e) |
W(s+E), N(s+S) | O(s+S), O(s+E); south-west pairs N(e), W(s) | W(s+S), N(s+S) | O(s+S),
O(s+W); north-west pairs W(s), N(s) | W(s+N), N(s+W) | O(s+N), O(s+W). A flanking tile
outside the grid contributes 0, and on blockages that are not negative the halving is the
floor of the half. -/
theorem horizontalBlockage_diagonal (save : SavedBattleGame) (s e : Tile)
    (type : ItemDamageType) :
    (e.getPosition.x - s.getPosition.x = 1 ∧ e.getPosition.y - s.getPosition.y = 1 →
      horizontalBlockage save (some s) (some e) type
        = .ok ((blockage (some s) MapData.O_NORTHWALL type
                + blockage (some e) MapData.O_WESTWALL type).tdiv 2
            + (blockage (save.getTile (s.getPosition + ⟨1, 0, 0⟩)) MapData.O_WESTWALL type
                + blockage (save.getTile (s.getPosition + ⟨1, 0, 0⟩)) MapData.O_NORTHWALL
                    type).tdiv 2
            + (blockage (save.getTile (s.getPosition + ⟨0, 1, 0⟩)) MapData.O_OBJECT type
                + blockage (save.getTile (s.getPosition + ⟨1, 0, 0⟩)) MapData.O_OBJECT
                    type).tdiv 2
            + blockage (some s) MapData.O_OBJECT type))
    ∧ (e.getPosition.x - s.getPosition.x = 1 ∧ e.getPosition.y - s.getPosition.y = -1 →
      horizontalBlockage save (some s) (some e) type
        = .ok ((blockage (some e) MapData.O_WESTWALL type
                + blockage (some e) MapData.O_NORTHWALL type).tdiv 2
            + (blockage (save.getTile (s.getPosition + ⟨1, 0, 0⟩)) MapData.O_WESTWALL type
                + blockage (save.getTile (s.getPosition + ⟨0, -1, 0⟩)) MapData.O_NORTHWALL
                    type).tdiv 2
            + (blockage (save.getTile (s.getPosition + ⟨0, -1, 0⟩)) MapData.O_OBJECT type
                + blockage (save.getTile (s.getPosition + ⟨1, 0, 0⟩)) MapData.O_OBJECT
                    type).tdiv 2
            + blockage (some s) MapData.O_OBJECT type))
    ∧ (e.getPosition.x - s.getPosition.x = -1 ∧ e.getPosition.y - s.getPosition.y = -1 →
      horizontalBlockage save (some s) (some e) type
        = .ok ((blockage (some e) MapData.O_NORTHWALL type
                + blockage (some s) MapData.O_WESTWALL type).tdiv 2
            + (blockage (save.getTile (s.getPosition + ⟨0, -1, 0⟩)) MapData.O_WESTWALL type
                + blockage (save.getTile (s.getPosition + ⟨0, -1, 0⟩)) MapData.O_NORTHWALL
                    type).tdiv 2
            + (blockage (save.getTile (s.getPosition + ⟨0, -1, 0⟩)) MapData.O_OBJECT type
                + blockage (save.getTile (s.getPosition + ⟨-1, 0, 0⟩)) MapData.O_OBJECT
                    type).tdiv 2
            + blockage (some s) MapData.O_OBJECT type))
    ∧ (e.getPosition.x - s.getPosition.x = -1 ∧ e.getPosition.y - s.getPosition.y = 1 →
      horizontalBlockage save (some s) (some e) type
        = .ok ((blockage (some s) MapData.O_WESTWALL type
                + blockage (some s) MapData.O_NORTHWALL type).tdiv 2
            + (blockage (save.getTile (s.getPosition + ⟨0, 1, 0⟩)) MapData.O_WESTWALL type
                + blockage (save.getTile (s.getPosition + ⟨-1, 0, 0⟩)) MapData.O_NORTHWALL
                    type).tdiv 2
            + (blockage (save.getTile (s.getPosition + ⟨0, 1, 0⟩)) MapData.O_OBJECT type
                + blockage (save.getTile (s.getPosition + ⟨-1, 0, 0⟩)) MapData.O_OBJECT
                    type).tdiv 2
            + blockage (some s) MapData.O_OBJECT type))
    ∧ (∀ pos part, save.getTile pos = none → blockage (save.getTile pos) part type = 0)
    ∧ (∀ (t u : Option Tile) (p q : Int), 0 ≤ blockage t p type → 0 ≤ blockage u q type →
        (blockage t p type + blockage u q type).tdiv 2
          = (blockage t p type + blockage u q type) / 2) := by
  have hd := vectorToDirection_diagonal (e.getPosition - s.getPosition)
  simp only [position_sub_x, position_sub_y] at hd
  refine ⟨?_, ?_, ?_, ?_, ?_, ?_⟩
  · intro h
    rw [horizontalBlockage_of_direction save s e type 1 (hd.1 h)]
    simp [horizontalBlockage.directional]
  · intro h
    rw [horizontalBlockage_of_direction save s e type 3 (hd.2.1 h)]
    simp [horizontalBlockage.directional]
  · intro h
    rw [horizontalBlockage_of_direction save s e type 5 (hd.2.2.1 h)]
    simp [horizontalBlockage.directional]
  · intro h
    rw [horizontalBlockage_of_direction save s e type 7 (hd.2.2.2 h)]
    simp [horizontalBlockage.directional]
  · intro pos part h
    rw [h]
    rfl
  · intro t u p q ht hu
    exact Int.tdiv_eq_ediv (by omega) (by decide)

theorem horizontalBlockage_diagonal_witness :
    horizontalBlockage cornerBattle (some (cornerBattle.tiles ⟨0, 0, 0⟩))
        (some (cornerBattle.tiles ⟨1, 1, 0⟩)) ItemDamageType.DT_HE
      = .ok ((blockage (some (cornerBattle.tiles ⟨0, 0, 0⟩)) MapData.O_NORTHWALL
                ItemDamageType.DT_HE
              + blockage (some (cornerBattle.tiles ⟨1, 1, 0⟩)) MapData.O_WESTWALL
                ItemDamageType.DT_HE).tdiv 2
          + (blockage (cornerBattle.getTile
                ((cornerBattle.tiles ⟨0, 0, 0⟩).getPosition + ⟨1, 0, 0⟩))
                MapData.O_WESTWALL ItemDamageType.DT_HE
              + blockage (cornerBattle.getTile
                ((cornerBattle.tiles ⟨0, 0, 0⟩).getPosition + ⟨1, 0, 0⟩))
                MapData.O_NORTHWALL ItemDamageType.DT_HE).tdiv 2
          + (blockage (cornerBattle.getTile
                ((cornerBattle.tiles ⟨0, 0, 0⟩).getPosition + ⟨0, 1, 0⟩))
                MapData.O_OBJECT ItemDamageType.DT_HE
              + blockage (cornerBattle.getTile
                ((cornerBattle.tiles ⟨0, 0, 0⟩).getPosition + ⟨1, 0, 0⟩))
                MapData.O_OBJECT ItemDamageType.DT_HE).tdiv 2
          + blockage (some (cornerBattle.tiles ⟨0, 0, 0⟩)) MapData.O_OBJECT
              ItemDamageType.DT_HE)
    ∧ horizontalBlockage cornerBattle (some (cornerBattle.tiles ⟨0, 0, 0⟩))
        (some (cornerBattle.tiles ⟨1, 1, 0⟩)) ItemDamageType.DT_HE
      = .ok ((3 + 4 : Int).tdiv 2 + (5 + 2 : Int).tdiv 2 + (7 + 2 : Int).tdiv 2 + 10) :=
  ⟨(horizontalBlockage_diagonal cornerBattle (cornerBattle.tiles ⟨0, 0, 0⟩)
      (cornerBattle.tiles ⟨1, 1, 0⟩) ItemDamageType.DT_HE).1 ⟨by decide, by decide⟩,
    by decide⟩

/-! ## Horizontal blockage: both ways -/

/-- C29: for tiles A and B on the same level that are adjacent in any of the eight
directions and every energy type, both calls return and
`horizontalBlockage(A, B) - blockage(A, object) = horizontalBlockage(B, A) - blockage(B, object)`:
the wall and flanking-object terms are the same in both directions. -/
theorem horizontalBlockage_symmetric_up_to_object (save : SavedBattleGame) (a b : Tile)
    (type : ItemDamageType) (hz : a.getPosition.z = b.getPosition.z)
    (hadj : max (b.getPosition.x - a.getPosition.x).natAbs
        (b.getPosition.y - a.getPosition.y).natAbs = 1) :
    ∃ ab ba, horizontalBlockage save (some a) (some b) type = .ok ab
      ∧ horizontalBlockage save (some b) (some a) type = .ok ba
      ∧ ab - blockage (some a) MapData.O_OBJECT type
          = ba - blockage (some b) MapData.O_OBJECT type := by
  by_cases hcard : (b.getPosition.x - a.getPosition.x).natAbs
        + (b.getPosition.y - a.getPosition.y).natAbs = 1
  · have hcard' : (a.getPosition.x - b.getPosition.x).natAbs
        + (a.getPosition.y - b.getPosition.y).natAbs = 1 := by omega
    obtain ⟨h1, _⟩ := horizontalBlockage_cardinal_aux save a b type hcard
    obtain ⟨h2, h3⟩ := horizontalBlockage_cardinal_aux save b a type hcard'
    refine ⟨_, _, h1, h2, ?_⟩
    rw [h3]
    ring
  · have hcases : (b.getPosition.x - a.getPosition.x = 1 ∧ b.getPosition.y - a.getPosition.y = 1)
        ∨ (b.getPosition.x - a.getPosition.x = 1 ∧ b.getPosition.y - a.getPosition.y = -1)
        ∨ (b.getPosition.x - a.getPosition.x = -1 ∧ b.getPosition.y - a.getPosition.y = -1)
        ∨ (b.getPosition.x - a.getPosition.x = -1 ∧ b.getPosition.y - a.getPosition.y = 1) := by
      omega
    have hdab := vectorToDirection_diagonal (b.getPosition - a.getPosition)
    have hdba := vectorToDirection_diagonal (a.getPosition - b.getPosition)
    simp only [position_sub_x, position_sub_y] at hdab hdba
    rcases hcases with ⟨hx, hy⟩ | ⟨hx, hy⟩ | ⟨hx, hy⟩ | ⟨hx, hy⟩
    · have e1 : b.getPosition + (⟨0, -1, 0⟩ : Position) = a.getPosition + ⟨1, 0, 0⟩ :=
        position_ext _ _ (by simp only [position_add_eq]; omega)
          (by simp only [position_add_eq]; omega) (by simp only [position_add_eq]; omega)
      have e2 : b.getPosition + (⟨-1, 0, 0⟩ : Position) = a.getPosition + ⟨0, 1, 0⟩ :=
        position_ext _ _ (by simp only [position_add_eq]; omega)
          (by simp only [position_add_eq]; omega) (by simp only [position_add_eq]; omega)
      refine ⟨_, _, horizontalBlockage_of_direction save a b type 1 (hdab.1 ⟨hx, hy⟩),
        horizontalBlockage_of_direction save b a type 5
          (hdba.2.2.1 ⟨by omega, by omega⟩), ?_⟩
      simp [horizontalBlockage.directional, e1, e2]
      ring_nf
    · have e1 : b.getPosition + (⟨0, 1, 0⟩ : Position) = a.getPosition + ⟨1, 0, 0⟩ :=
        position_ext _ _ (by simp only [position_add_eq]; omega)
          (by simp only [position_add_eq]; omega) (by simp only [position_add_eq]; omega)
      have e2 : b.getPosition + (⟨-1, 0, 0⟩ : Position) = a.getPosition + ⟨0, -1, 0⟩ :=
        position_ext _ _ (by simp only [position_add_eq]; omega)
          (by simp only [position_add_eq]; omega) (by simp only [position_add_eq]; omega)
      refine ⟨_, _, horizontalBlockage_of_direction save a b type 3 (hdab.2.1 ⟨hx, hy⟩),
        horizontalBlockage_of_direction save b a type 7
          (hdba.2.2.2 ⟨by omega, by omega⟩), ?_⟩
      simp [horizontalBlockage.directional, e1, e2]
      ring_nf
    · have e1 : b.getPosition + (⟨0, 1, 0⟩ : Position) = a.getPosition + ⟨-1, 0, 0⟩ :=
        position_ext _ _ (by simp only [position_add_eq]; omega)
          (by simp only [position_add_eq]; omega) (by simp only [position_add_eq]; omega)
      have e2 : b.getPosition + (⟨1, 0, 0⟩ : Position) = a.getPosition + ⟨0, -1, 0⟩ :=
        position_ext _ _ (by simp only [position_add_eq]; omega)
          (by simp only [position_add_eq]; omega) (by simp only [position_add_eq]; omega)
      refine ⟨_, _, horizontalBlockage_of_direction save a b type 5 (hdab.2.2.1 ⟨hx, hy⟩),
        horizontalBlockage_of_direction save b a type 1
          (hdba.1 ⟨by omega, by omega⟩), ?_⟩
      simp [horizontalBlockage.directional, e1, e2]
      ring_nf
    · have e1 : b.getPosition + (⟨0, -1, 0⟩ : Position) = a.getPosition + ⟨-1, 0, 0⟩ :=
        position_ext _ _ (by simp only [position_add_eq]; omega)
          (by simp only [position_add_eq]; omega) (by simp only [position_add_eq]; omega)
      have e2 : b.getPosition + (⟨1, 0, 0⟩ : Position) = a.getPosition + ⟨0, 1, 0⟩ :=
        position_ext _ _ (by simp only [position_add_eq]; omega)
          (by simp only [position_add_eq]; omega) (by simp only [position_add_eq]; omega)
      refine ⟨_, _, horizontalBlockage_of_direction save a b type 7 (hdab.2.2.2 ⟨hx, hy⟩),
        horizontalBlockage_of_direction save b a type 3
          (hdba.2.1 ⟨by omega, by omega⟩), ?_⟩
      simp [horizontalBlockage.directional, e1, e2]
      ring_nf

theorem horizontalBlockage_symmetric_up_to_object_witness :
    (∃ ab ba, horizontalBlockage cornerBattle (some (cornerBattle.tiles ⟨0, 0, 0⟩))
          (some (cornerBattle.tiles ⟨1, 1, 0⟩)) ItemDamageType.DT_HE = .ok ab
      ∧ horizontalBlockage cornerBattle (some (cornerBattle.tiles ⟨1, 1, 0⟩))
          (some (cornerBattle.tiles ⟨0, 0, 0⟩)) ItemDamageType.DT_HE = .ok ba
      ∧ ab - blockage (some (cornerBattle.tiles ⟨0, 0, 0⟩)) MapData.O_OBJECT
            ItemDamageType.DT_HE
          = ba - blockage (some (cornerBattle.tiles ⟨1, 1, 0⟩)) MapData.O_OBJECT
            ItemDamageType.DT_HE)
    ∧ horizontalBlockage cornerBattle (some (cornerBattle.tiles ⟨0, 0, 0⟩))
          (some (cornerBattle.tiles ⟨1, 1, 0⟩)) ItemDamageType.DT_HE = .ok 20
    ∧ horizontalBlockage cornerBattle (some (cornerBattle.tiles ⟨1, 1, 0⟩))
          (some (cornerBattle.tiles ⟨0, 0, 0⟩)) ItemDamageType.DT_HE = .ok 10
    ∧ blockage (some (cornerBattle.tiles ⟨0, 0, 0⟩)) MapData.O_OBJECT
          ItemDamageType.DT_HE = 10
    ∧ blockage (some (cornerBattle.tiles ⟨1, 1, 0⟩)) MapData.O_OBJECT
          ItemDamageType.DT_HE = 0 :=
  ⟨horizontalBlockage_symmetric_up_to_object cornerBattle (cornerBattle.tiles ⟨0, 0, 0⟩)
      (cornerBattle.tiles ⟨1, 1, 0⟩) ItemDamageType.DT_HE (by decide) (by decide),
    by decide, by decide, by decide, by decide⟩

/-! ## Field of view: units on a tile -/

/-- A sample of `checkForVisibleUnits` whose trace stops on a unit is accepted whenever the
voxel aimed at lies in the tile of the target; the voxel where the trace stopped is not
looked at. -/
theorem checkForVisibleUnits_scan_accepts_unit_hit (save : SavedBattleGame)
    (voxelData : List Nat) (unit bu : BattleUnit) (originVoxel targetVoxel : Position)
    (targetMinHeight : Int) (fuel : Nat) (i : Int) (test : LineResult)
    (hi : i > targetMinHeight)
    (htest : calculateLine save voxelData originVoxel ⟨targetVoxel.x, targetVoxel.y, i⟩ false
        none (some unit) = .ok test)
    (hunit : test.result = 4)
    (htile : bu.getPosition = ⟨targetVoxel.x.tdiv 16, targetVoxel.y.tdiv 16, i.tdiv 24⟩) :
    checkForVisibleUnits.scan save voxelData unit bu originVoxel targetVoxel targetMinHeight
      (fuel + 1) i = .ok true := by
  simp only [checkForVisibleUnits.scan, if_pos hi, htest, hunit, htile, and_self, or_true,
    if_true]

/-- C27: on a row of three tiles with the observer on (0, 0, 0), a bystander of height 24
on (1, 0, 0) and the alien on (2, 0, 0), every trace from the eye voxel (8, 8, 20) of the
observer to a sample (40, 8, i) of the body band of the alien, i = 20, 18, ..., 2, stops
with result 4 on a voxel of tile (1, 0, 0), the tile of the bystander, and yet
`checkForVisibleUnits` for the tile of the alien returns true and adds the alien to the
visible units. -/
theorem checkForVisibleUnits_sees_through_unit :
    checkForVisibleUnits queueBattle solidVoxelData observer (queueBattle.tiles ⟨2, 0, 0⟩)
      = .ok (true, [alien])
    ∧ (∀ i ∈ [20, 18, 16, 14, 12, 10, 8, 6, 4, 2],
        (calculateLine queueBattle solidVoxelData ⟨8, 8, 20⟩ ⟨40, 8, i⟩ false none
            (some observer)).map
          (fun test => (test.result,
            test.checked.getLast?.map
              (fun v => (⟨v.x.tdiv 16, v.y.tdiv 16, v.z.tdiv 24⟩ : Position))))
          = .ok (4, some ⟨1, 0, 0⟩))
    ∧ (queueBattle.tiles ⟨1, 0, 0⟩).getUnit = some bystander
    ∧ (queueBattle.tiles ⟨2, 0, 0⟩).getUnit = some alien
    ∧ bystander.id ≠ alien.id := by
  decide

/-! ## Direction from vector: the ninth iteration -/

theorem vectorToDirection_reads_z (x y z : Int) (l : List Nat) :
    vectorToDirection.reads ⟨x, y, z⟩ l = vectorToDirection.reads ⟨x, y, 0⟩ l := by
  induction l with
  | nil => rfl
  | cons i rest ih => simp only [vectorToDirection.reads, ih]

/-- C28: the tables of `vectorToDirection` have 8 entries, and for every vector the loop
`for (int i=0;i<9;++i)` reads them at index 8 exactly when the vector matches none of the
eight entries, which is exactly when the call ends in the out-of-range read instead of
returning a direction: the extra iteration does access the tables outside 0..7. -/
theorem vectorToDirection_ninth_iteration_reads_index_8 (v : Position) :
    vectorToDirection.x.length = 8 ∧ vectorToDirection.y.length = 8
    ∧ (8 ∈ vectorToDirection.reads v (List.range 9)
        ↔ (v.x, v.y) ∉ List.zip vectorToDirection.x vectorToDirection.y)
    ∧ (vectorToDirection v = .error .undefinedRead
        ↔ 8 ∈ vectorToDirection.reads v (List.range 9))
    ∧ (vectorToDirection v ≠ .error .undefinedRead
        → ∀ i ∈ vectorToDirection.reads v (List.range 9), i < 8) := by
  obtain ⟨x, y, z⟩ := v
  have hx : x = 0 ∨ x = 1 ∨ x = -1 ∨ (x ≠ 0 ∧ x ≠ 1 ∧ x ≠ -1) := by omega
  have hy : y = 0 ∨ y = 1 ∨ y = -1 ∨ (y ≠ 0 ∧ y ≠ 1 ∧ y ≠ -1) := by omega
  refine ⟨rfl, rfl, ?_⟩
  rw [vectorToDirection_eq, vectorToDirection_reads_z]
  dsimp only
  rcases hx with rfl | rfl | rfl | ⟨hx0, hx1, hx2⟩
  · rcases hy with rfl | rfl | rfl | ⟨hy0, hy1, hy2⟩
    · decide
    · decide
    · decide
    · simp [List.range, List.range.loop, vectorToDirection.reads,
        vectorToDirection.x, vectorToDirection.y, hy0, hy1, hy2, Ne.symm hy0, Ne.symm hy1,
        Ne.symm hy2]
  · rcases hy with rfl | rfl | rfl | ⟨hy0, hy1, hy2⟩
    · decide
    · decide
    · decide
    · simp [List.range, List.range.loop, vectorToDirection.reads,
        vectorToDirection.x, vectorToDirection.y, hy0, hy1, hy2, Ne.symm hy0, Ne.symm hy1,
        Ne.symm hy2]
  · rcases hy with rfl | rfl | rfl | ⟨hy0, hy1, hy2⟩
    · decide
    · decide
    · decide
    · simp [List.range, List.range.loop, vectorToDirection.reads,
        vectorToDirection.x, vectorToDirection.y, hy0, hy1, hy2, Ne.symm hy0, Ne.symm hy1,
        Ne.symm hy2]
  · simp [List.range, List.range.loop, vectorToDirection.reads,
      vectorToDirection.x, vectorToDirection.y, hx0, hx1, hx2, Ne.symm hx0, Ne.symm hx1,
      Ne.symm hx2]

/-! ## Explosions: the start tile of the rays -/

/-- C30: a smoke explosion of power 20 with `maxRadius = 0` and centre voxel (1, 1, 0) on
the 2 x 2 x 1 grid `cornerBattle`. The centre tile is (1/16, 1/16, 0/24) = (0, 0, 0), but
the rays start from `_save->getTile(center)`, the tile (1, 1, 0) found with the voxel
coordinates: the blockage subtracted at step 0 is that from tile (1, 1, 0) to tile
(0, 0, 0), which is 10, so the first ray reaches the centre tile with 11 of power left,
not 21, and the only smoke deposited by the explosion is `RNG::generate(11/10, 14)`, not `RNG::generate(21/10, 14)`. -/
theorem explode_rays_start_off_centre :
    (⟨(1 : Int).tdiv 16, (1 : Int).tdiv 16, (0 : Int).tdiv 24⟩ : Position) = ⟨0, 0, 0⟩
    ∧ (cornerBattle.getTile ⟨1, 1, 0⟩).map Tile.getPosition = some ⟨1, 1, 0⟩
    ∧ horizontalBlockage cornerBattle (cornerBattle.getTile ⟨1, 1, 0⟩)
        (cornerBattle.getTile ⟨0, 0, 0⟩) ItemDamageType.DT_SMOKE = .ok 10
    ∧ explode.ray cornerBattle minRNG (eastRay ⟨1, 1, 0⟩) ⟨1, 1, 0⟩ 20
        ItemDamageType.DT_SMOKE 0 0 ⟨[], [], 0, []⟩
      = .ok ⟨[Effect.addSmoke ⟨0, 0, 0⟩ 1], [⟨0, 0, 0⟩], 1, [(⟨0, 0, 0⟩, 11)]⟩
    ∧ (explode.area cornerBattle minRNG (eastRay ⟨1, 1, 0⟩) ⟨1, 1, 0⟩ 20
        ItemDamageType.DT_SMOKE 0).map (fun st => st.effects)
      = .ok [Effect.addSmoke ⟨0, 0, 0⟩ 1]
    ∧ minRNG.generate ((11 : Int).tdiv 10) 14 0 = 1
    ∧ minRNG.generate ((20 + 1 : Int).tdiv 10) 14 0 = 2 := by
  decide

/-- When the voxel coordinates of the centre are those of its own tile, the start tile is
the centre tile itself and the first blockage is computed over the zero vector, for which
`vectorToDirection` reads past its tables. -/
theorem explode_centre_voxel_zero_fault :
    explode.area (emptyBattle 1 1 1) minRNG (eastRay ⟨0, 0, 0⟩) ⟨0, 0, 0⟩ 20
        ItemDamageType.DT_SMOKE 0 = .error .undefinedRead := by
  decide

/-- When no tile has the voxel coordinates of the centre as its tile coordinates, the rays
start from no tile, the first blockage is 0 and the centre tile is reached with the
initial budget `power + 1`. -/
theorem explode_ray_start_absent (save : SavedBattleGame) (rng : RNG)
    (ray : Nat → Nat → Position) (center : Position) (power : Int) (type : ItemDamageType)
    (maxRadius : Int) (te : Nat) (st : ExplodeState) (dest : Tile)
    (hstart : save.getTile center = none) (hdest : save.getTile (ray te 0) = some dest)
    (hp : 0 ≤ power) (hr : 0 ≤ maxRadius) :
    explode.ray save rng ray center power type maxRadius te st
      = (match explode.visit save rng type (ray te 0) dest (power + 1) st with
          | .error e => .error e
          | .ok st1 =>
            explode.rayLoop save rng (ray te) type maxRadius maxRadius.toNat (power + 1 - 10) 1
              (some dest) st1) := by
  obtain ⟨n, hn⟩ : ∃ n : Nat, maxRadius = n := ⟨maxRadius.toNat, by omega⟩
  subst hn
  have hfuel : ((n : Int) + 1).toNat = n + 1 := by omega
  have hc : power + 1 > 0 ∧ ((0 : Nat) : Int) ≤ (n : Int) := ⟨by omega, by omega⟩
  simp only [explode.ray, hfuel, explode.rayLoop, if_pos hc, hdest, hstart, horizontalBlockage,
    sub_zero, Int.toNat_ofNat, Nat.zero_add]

/-! ## Horizontal blockage: tiles that are not neighbours -/

/-- The value of `vectorToDirection` for every vector when the reads past the tables yield
the words `x8` and `y8`: the index of the matching compass step; failing that, 8 when the
two words match the vector, and -1 otherwise. -/
theorem vectorToDirection_withStray_eq (x8 y8 : Int) (v : Position) :
    vectorToDirection.withStray x8 y8 v =
      if v.x = 0 ∧ v.y = 1 then 0
      else if v.x = 1 ∧ v.y = 1 then 1
      else if v.x = 1 ∧ v.y = 0 then 2
      else if v.x = 1 ∧ v.y = -1 then 3
      else if v.x = 0 ∧ v.y = -1 then 4
      else if v.x = -1 ∧ v.y = -1 then 5
      else if v.x = -1 ∧ v.y = 0 then 6
      else if v.x = -1 ∧ v.y = 1 then 7
      else if x8 = v.x ∧ y8 = v.y then 8
      else -1 := by
  have hr : List.range 9 = [0, 1, 2, 3, 4, 5, 6, 7, 8] := by decide
  have x0 : (vectorToDirection.x ++ [x8]).getD 0 0 = 0 := rfl
  have x1 : (vectorToDirection.x ++ [x8]).getD 1 0 = 1 := rfl
  have x2 : (vectorToDirection.x ++ [x8]).getD 2 0 = 1 := rfl
  have x3 : (vectorToDirection.x ++ [x8]).getD 3 0 = 1 := rfl
  have x4 : (vectorToDirection.x ++ [x8]).getD 4 0 = 0 := rfl
  have x5 : (vectorToDirection.x ++ [x8]).getD 5 0 = -1 := rfl
  have x6 : (vectorToDirection.x ++ [x8]).getD 6 0 = -1 := rfl
  have x7 : (vectorToDirection.x ++ [x8]).getD 7 0 = -1 := rfl
  have x8' : (vectorToDirection.x ++ [x8]).getD 8 0 = x8 := rfl
  have y0 : (vectorToDirection.y ++ [y8]).getD 0 0 = 1 := rfl
  have y1 : (vectorToDirection.y ++ [y8]).getD 1 0 = 1 := rfl
  have y2 : (vectorToDirection.y ++ [y8]).getD 2 0 = 0 := rfl
  have y3 : (vectorToDirection.y ++ [y8]).getD 3 0 = -1 := rfl
  have y4 : (vectorToDirection.y ++ [y8]).getD 4 0 = -1 := rfl
  have y5 : (vectorToDirection.y ++ [y8]).getD 5 0 = -1 := rfl
  have y6 : (vectorToDirection.y ++ [y8]).getD 6 0 = 0 := rfl
  have y7 : (vectorToDirection.y ++ [y8]).getD 7 0 = 1 := rfl
  have y8' : (vectorToDirection.y ++ [y8]).getD 8 0 = y8 := rfl
  obtain ⟨x, y, z⟩ := v
  have hx : x = 0 ∨ x = 1 ∨ x = -1 ∨ (x ≠ 0 ∧ x ≠ 1 ∧ x ≠ -1) := by omega
  have hy : y = 0 ∨ y = 1 ∨ y = -1 ∨ (y ≠ 0 ∧ y ≠ 1 ∧ y ≠ -1) := by omega
  simp only [vectorToDirection.withStray, hr, vectorToDirection.strayLoop, x0, x1, x2, x3, x4,
    x5, x6, x7, x8', y0, y1, y2, y3, y4, y5, y6, y7, y8']
  rcases hx with rfl | rfl | rfl | ⟨hx0, hx1, hx2⟩
  · rcases hy with rfl | rfl | rfl | ⟨hy0, hy1, hy2⟩
    · simp
    · simp
    · simp
    · simp [hy0, hy1, hy2, Ne.symm hy0, Ne.symm hy1, Ne.symm hy2]
  · rcases hy with rfl | rfl | rfl | ⟨hy0, hy1, hy2⟩
    · simp
    · simp
    · simp
    · simp [hy0, hy1, hy2, Ne.symm hy0, Ne.symm hy1, Ne.symm hy2]
  · rcases hy with rfl | rfl | rfl | ⟨hy0, hy1, hy2⟩
    · simp
    · simp
    · simp
    · simp [hy0, hy1, hy2, Ne.symm hy0, Ne.symm hy1, Ne.symm hy2]
  · simp [hx0, hx1, hx2, Ne.symm hx0, Ne.symm hx1, Ne.symm hx2]

/-- Where `vectorToDirection` returns a direction without reading past its tables, the
reads past the tables play no part. -/
theorem vectorToDirection_withStray_of_ok (x8 y8 : Int) (v : Position) (d : Int)
    (h : vectorToDirection v = .ok d) : vectorToDirection.withStray x8 y8 v = d := by
  rw [vectorToDirection_eq] at h
  rw [vectorToDirection_withStray_eq]
  split_ifs at h ⊢ <;> simp only [Except.ok.injEq, reduceCtorEq] at h <;> omega

/-- Where `horizontalBlockage` returns a value without a read past the tables, the
function with the words behind the tables returns the same value. -/
theorem horizontalBlockage_withStray_of_ok (x8 y8 : Int) (save : SavedBattleGame)
    (s e : Option Tile) (type : ItemDamageType) (v : Int)
    (h : horizontalBlockage save s e type = .ok v) :
    horizontalBlockage.withStray x8 y8 save s e type = v := by
  cases s with
  | none =>
    simp only [horizontalBlockage, Except.ok.injEq] at h
    simp only [horizontalBlockage.withStray, h]
  | some s =>
    cases e with
    | none =>
      simp only [horizontalBlockage, Except.ok.injEq] at h
      simp only [horizontalBlockage.withStray, h]
    | some e =>
      simp only [horizontalBlockage] at h
      cases hd : vectorToDirection (e.getPosition - s.getPosition) with
      | error err => rw [hd] at h; cases h
      | ok d =>
        rw [hd] at h
        have hs := vectorToDirection_withStray_of_ok x8 y8 _ d hd
        simp only [horizontalBlockage.withStray, hs]
        have h' : (if d = -1 then (Except.ok 0 : Except Fault Int)
            else .ok (horizontalBlockage.directional save s e d type
              + blockage (some s) MapData.O_OBJECT type)) = .ok v := h
        by_cases hm : d = -1
        · rw [if_pos hm] at h' ⊢
          exact Except.ok.inj h'
        · rw [if_neg hm] at h' ⊢
          exact Except.ok.inj h'

/-- Where `vectorToDirection` finds no compass step, the reads past the tables decide:
8 when the two words match the vector, -1 otherwise. -/
theorem vectorToDirection_withStray_of_error (x8 y8 : Int) (v : Position)
    (h : vectorToDirection v = .error .undefinedRead) :
    vectorToDirection.withStray x8 y8 v = if x8 = v.x ∧ y8 = v.y then 8 else -1 := by
  rw [vectorToDirection_eq] at h
  rw [vectorToDirection_withStray_eq]
  split_ifs at h ⊢ <;> rfl

/-- For a pair of tiles with no compass direction between them, the function with the
words behind the tables returns 0, without the object term, unless the two words match the
offset; then it returns the object blockage of the start tile alone. -/
theorem horizontalBlockage_withStray_no_direction (x8 y8 : Int) (save : SavedBattleGame)
    (s e : Tile) (type : ItemDamageType)
    (h : vectorToDirection (e.getPosition - s.getPosition) = .error .undefinedRead) :
    horizontalBlockage.withStray x8 y8 save (some s) (some e) type
      = if x8 = (e.getPosition - s.getPosition).x ∧ y8 = (e.getPosition - s.getPosition).y
        then blockage (some s) MapData.O_OBJECT type else 0 := by
  have hs := vectorToDirection_withStray_of_error x8 y8 _ h
  simp only [horizontalBlockage.withStray, hs]
  by_cases hc : x8 = (e.getPosition - s.getPosition).x ∧ y8 = (e.getPosition - s.getPosition).y
  · rw [if_pos hc, if_pos hc]
    simp [horizontalBlockage.directional]
  · rw [if_neg hc, if_neg hc]
    simp

/-- C12 (the claim as stated fails): on a row of four tiles whose western end (0, 0, 0)
holds an object that blocks 100, the tiles (2, 0, 0) and (3, 0, 0) are not neighbours of
(0, 0, 0). Whatever the two words read behind the direction tables are, for at least one
of these two end tiles no direction is found and `horizontalBlockage` from (0, 0, 0)
returns 0, less than the object blockage 100 of the start tile: the object term is added
only after `if (direction == -1) return 0;`. None of the eight table entries matches
either offset: the loop over the indices 0..7 alone ends with -1 for both. -/
theorem horizontalBlockage_far_tile_counterexample :
    blockage (crateRowBattle.getTile ⟨0, 0, 0⟩) MapData.O_OBJECT ItemDamageType.DT_HE = 100
    ∧ vectorToDirection.loop ⟨2, 0, 0⟩ (List.range 8) = .ok (-1)
    ∧ vectorToDirection.loop ⟨3, 0, 0⟩ (List.range 8) = .ok (-1)
    ∧ (∀ x8 y8 : Int, ¬ (x8 = 2 ∧ y8 = 0) →
        horizontalBlockage.withStray x8 y8 crateRowBattle (crateRowBattle.getTile ⟨0, 0, 0⟩)
          (crateRowBattle.getTile ⟨2, 0, 0⟩) ItemDamageType.DT_HE = 0)
    ∧ (∀ x8 y8 : Int, ¬ (x8 = 3 ∧ y8 = 0) →
        horizontalBlockage.withStray x8 y8 crateRowBattle (crateRowBattle.getTile ⟨0, 0, 0⟩)
          (crateRowBattle.getTile ⟨3, 0, 0⟩) ItemDamageType.DT_HE = 0)
    ∧ ∀ x8 y8 : Int,
        horizontalBlockage.withStray x8 y8 crateRowBattle (crateRowBattle.getTile ⟨0, 0, 0⟩)
            (crateRowBattle.getTile ⟨2, 0, 0⟩) ItemDamageType.DT_HE
          < blockage (crateRowBattle.getTile ⟨0, 0, 0⟩) MapData.O_OBJECT ItemDamageType.DT_HE
        ∨ horizontalBlockage.withStray x8 y8 crateRowBattle (crateRowBattle.getTile ⟨0, 0, 0⟩)
            (crateRowBattle.getTile ⟨3, 0, 0⟩) ItemDamageType.DT_HE
          < blockage (crateRowBattle.getTile ⟨0, 0, 0⟩) MapData.O_OBJECT
              ItemDamageType.DT_HE := by
  have hobj : blockage (crateRowBattle.getTile ⟨0, 0, 0⟩) MapData.O_OBJECT
      ItemDamageType.DT_HE = 100 := by decide
  have h2 : ∀ x8 y8 : Int, ¬ (x8 = 2 ∧ y8 = 0) →
      horizontalBlockage.withStray x8 y8 crateRowBattle (crateRowBattle.getTile ⟨0, 0, 0⟩)
        (crateRowBattle.getTile ⟨2, 0, 0⟩) ItemDamageType.DT_HE = 0 := by
    intro x8 y8 hne
    have hg0 : crateRowBattle.getTile ⟨0, 0, 0⟩ = some (crateTile ⟨0, 0, 0⟩) := rfl
    have hg2 : crateRowBattle.getTile ⟨2, 0, 0⟩ = some (crateTile ⟨2, 0, 0⟩) := rfl
    rw [hg0, hg2, horizontalBlockage_withStray_no_direction x8 y8 crateRowBattle _ _ _
      (by decide)]
    exact if_neg hne
  have h3 : ∀ x8 y8 : Int, ¬ (x8 = 3 ∧ y8 = 0) →
      horizontalBlockage.withStray x8 y8 crateRowBattle (crateRowBattle.getTile ⟨0, 0, 0⟩)
        (crateRowBattle.getTile ⟨3, 0, 0⟩) ItemDamageType.DT_HE = 0 := by
    intro x8 y8 hne
    have hg0 : crateRowBattle.getTile ⟨0, 0, 0⟩ = some (crateTile ⟨0, 0, 0⟩) := rfl
    have hg3 : crateRowBattle.getTile ⟨3, 0, 0⟩ = some (crateTile ⟨3, 0, 0⟩) := rfl
    rw [hg0, hg3, horizontalBlockage_withStray_no_direction x8 y8 crateRowBattle _ _ _
      (by decide)]
    exact if_neg hne
  refine ⟨hobj, by decide, by decide, h2, h3, ?_⟩
  intro x8 y8
  by_cases hx : x8 = 2 ∧ y8 = 0
  · right
    rw [h3 x8 y8 (by omega), hobj]
    decide
  · left
    rw [h2 x8 y8 hx, hobj]
    decide

/-- C12, amended: for present tiles `start` and `end` whose offset is one of the eight
compass steps (direction `d`) and every energy type, `horizontalBlockage` is the
directional term plus the object blockage of the start tile, whatever the words behind the
direction tables are; when no part blockage of the tiles involved is negative, it is never
less than the object blockage of the start tile. -/
theorem horizontalBlockage_adds_object (save : SavedBattleGame) (s e : Tile)
    (type : ItemDamageType) (d : Int)
    (hd : vectorToDirection (e.getPosition - s.getPosition) = .ok d) :
    horizontalBlockage save (some s) (some e) type
      = .ok (horizontalBlockage.directional save s e d type
          + blockage (some s) MapData.O_OBJECT type)
    ∧ (∀ x8 y8 : Int, horizontalBlockage.withStray x8 y8 save (some s) (some e) type
        = horizontalBlockage.directional save s e d type
          + blockage (some s) MapData.O_OBJECT type)
    ∧ ((∀ part, 0 ≤ blockage (some s) part type) →
        (∀ part, 0 ≤ blockage (some e) part type) →
        (∀ pos part, 0 ≤ blockage (save.getTile pos) part type) →
        blockage (some s) MapData.O_OBJECT type
          ≤ horizontalBlockage.directional save s e d type
            + blockage (some s) MapData.O_OBJECT type) := by
  refine ⟨horizontalBlockage_of_direction save s e type d hd, ?_, ?_⟩
  · intro x8 y8
    exact horizontalBlockage_withStray_of_ok x8 y8 save _ _ type _
      (horizontalBlockage_of_direction save s e type d hd)
  · intro hs he hg
    have := horizontalBlockage_directional_nonneg save s e type d hs he hg
    omega

theorem horizontalBlockage_adds_object_witness :
    horizontalBlockage crateBattle (some (crateTile ⟨0, 0, 0⟩)) (some (crateTile ⟨1, 0, 0⟩))
        ItemDamageType.DT_HE = .ok 100
    ∧ horizontalBlockage.withStray 0 0 crateBattle (some (crateTile ⟨0, 0, 0⟩))
        (some (crateTile ⟨1, 0, 0⟩)) ItemDamageType.DT_HE = 100
    ∧ horizontalBlockage crateBattle (some (crateTile ⟨0, 0, 0⟩)) (some (crateTile ⟨1, 0, 0⟩))
        ItemDamageType.DT_HE
      = .ok (horizontalBlockage.directional crateBattle (crateTile ⟨0, 0, 0⟩)
            (crateTile ⟨1, 0, 0⟩) 2 ItemDamageType.DT_HE
          + blockage (some (crateTile ⟨0, 0, 0⟩)) MapData.O_OBJECT ItemDamageType.DT_HE) :=
  ⟨by decide, by decide,
    (horizontalBlockage_adds_object crateBattle (crateTile ⟨0, 0, 0⟩) (crateTile ⟨1, 0, 0⟩)
      ItemDamageType.DT_HE 2 (by decide)).1⟩

/-! ## Field of view: a pass returns -/

/-- A read of the voxel mask table at an index inside it returns. -/
theorem voxelBit_returns (voxelData : List Nat) (idx x : Int) (h0 : 0 ≤ idx)
    (h1 : idx < voxelData.length) : ∃ b, voxelBit voxelData idx x = .ok b := by
  unfold voxelBit voxelDataAt
  rw [if_neg (by omega)]
  have hlt : idx.toNat < voxelData.length := by omega
  rw [List.getElem?_eq_getElem hlt]
  exact ⟨_, rfl⟩

/-- The row index `15 - v % 16` of a voxel coordinate lies in 0..30. -/
theorem voxel_row_range (v : Int) : 0 ≤ 15 - v.tmod 16 ∧ 15 - v.tmod 16 ≤ 30 := by
  have h1 : v.tmod 16 < 16 := Int.tmod_lt_of_pos v (by decide)
  have h2 : -16 < v.tmod 16 := by
    cases v with
    | ofNat n =>
      have h3 : 0 ≤ (Int.ofNat n).tmod 16 := Int.tmod_nonneg 16 (Int.ofNat_nonneg n)
      omega
    | negSucc m =>
      show -16 < -((m.succ % 16 : Nat) : Int)
      omega
  omega

/-- With loft descriptors that stay inside the voxel mask table, the scan of the parts of a
tile returns. -/
theorem voxelCheck_parts_returns (tile : Tile) (voxelData : List Nat) (voxel : Position)
    (hparts : ∀ part mp k, tile.getMapData part = some mp →
      0 ≤ mp.getLoftID k ∧ mp.getLoftID k * 16 + 31 ≤ voxelData.length) :
    ∀ l : List Int, ∃ r, voxelCheck.parts tile voxelData voxel l = .ok r := by
  intro l
  induction l with
  | nil => exact ⟨-1, rfl⟩
  | cons i rest ih =>
    rw [voxelCheck.parts]
    by_cases hdoor : tile.isUfoDoorOpen i = true
    · rw [if_pos hdoor]
      exact ih
    · rw [if_neg hdoor]
      cases hmp : tile.getMapData i with
      | none => exact ih
      | some mp =>
        obtain ⟨hl0, hl1⟩ := hparts i mp ((voxel.z.tmod 24).tdiv 2) hmp
        obtain ⟨hy0, hy1⟩ := voxel_row_range voxel.y
        obtain ⟨b, hb⟩ := voxelBit_returns voxelData
          (mp.getLoftID ((voxel.z.tmod 24).tdiv 2) * 16 + (15 - voxel.y.tmod 16))
          (15 - voxel.x.tmod 16) (by omega) (by omega)
        dsimp only
        rw [hb]
        cases b
        · exact ih
        · exact ⟨i, rfl⟩

/-- With loft descriptors that stay inside the voxel mask table, `voxelCheck` returns for
every voxel. -/
theorem voxelCheck_returns (save : SavedBattleGame) (voxelData : List Nat)
    (excludeUnit : Option BattleUnit)
    (hunits : ∀ pos t bu, save.getTile pos = some t → t.getUnit = some bu →
      0 ≤ bu.gotLoftemps ∧ bu.gotLoftemps * 16 + 31 ≤ voxelData.length)
    (hparts : ∀ pos t part mp k, save.getTile pos = some t → t.getMapData part = some mp →
      0 ≤ mp.getLoftID k ∧ mp.getLoftID k * 16 + 31 ≤ voxelData.length)
    (voxel : Position) : ∃ r, voxelCheck save voxelData voxel excludeUnit = .ok r := by
  unfold voxelCheck
  cases ht : save.getTile ⟨voxel.x.tdiv 16, voxel.y.tdiv 16, voxel.z.tdiv 24⟩ with
  | none => exact ⟨5, rfl⟩
  | some tile =>
    have hu : ∃ b, voxelCheck.unit tile voxelData voxel excludeUnit = .ok b := by
      unfold voxelCheck.unit
      cases hocc : tile.getUnit with
      | none => exact ⟨false, rfl⟩
      | some bu =>
        obtain ⟨hl0, hl1⟩ := hunits _ tile bu ht hocc
        obtain ⟨hy0, hy1⟩ := voxel_row_range voxel.y
        dsimp only
        split_ifs <;> first
          | exact ⟨false, rfl⟩
          | exact voxelBit_returns voxelData _ _ (by omega) (by omega)
    obtain ⟨b, hb⟩ := hu
    dsimp only
    rw [hb]
    cases b
    · exact voxelCheck_parts_returns tile voxelData voxel
        (fun part mp k h => hparts _ tile part mp k ht h) _
    · exact ⟨4, rfl⟩

/-- A line trace that stores no trajectory returns when every voxel check returns. -/
theorem calculateLine_returns (save : SavedBattleGame) (voxelData : List Nat)
    (origin target : Position) (excludeUnit : Option BattleUnit)
    (hvox : ∀ voxel, ∃ r, voxelCheck save voxelData voxel excludeUnit = .ok r) :
    ∃ r, calculateLine save voxelData origin target false none excludeUnit = .ok r := by
  unfold calculateLine
  rw [calculateLine_run_eq_scan_visits]
  cases hs : calculateLine.scan (fun voxel => voxelCheck save voxelData voxel excludeUnit)
      false (none : Option (List Position)).isSome (calculateLine.visits origin target) with
  | ok tr => exact ⟨_, rfl⟩
  | error e =>
    exfalso
    rcases calculateLine_scan_error _ _ _ _ _ hs with ⟨-, h, -⟩ | ⟨p, -, hp⟩
    · cases h
    · obtain ⟨r, hr⟩ := hvox p
      rw [hr] at hp
      cases hp

/-- The scan over the sample heights of a unit returns when it has a round for each
sample and every voxel check returns. -/
theorem checkForVisibleUnits_scan_returns (save : SavedBattleGame) (voxelData : List Nat)
    (unit bu : BattleUnit) (originVoxel targetVoxel : Position) (targetMinHeight : Int)
    (hvox : ∀ voxel, ∃ r, voxelCheck save voxelData voxel (some unit) = .ok r) :
    ∀ (fuel : Nat) (i : Int), i - targetMinHeight ≤ fuel →
      ∃ b, checkForVisibleUnits.scan save voxelData unit bu originVoxel targetVoxel
        targetMinHeight fuel i = .ok b := by
  intro fuel
  induction fuel with
  | zero =>
    intro i hi
    rw [checkForVisibleUnits.scan, if_neg (by push_cast at hi; omega)]
    exact ⟨false, rfl⟩
  | succ n ih =>
    intro i hi
    rw [checkForVisibleUnits.scan]
    by_cases hgt : i > targetMinHeight
    · rw [if_pos hgt]
      obtain ⟨r, hr⟩ := calculateLine_returns save voxelData originVoxel
        ⟨targetVoxel.x, targetVoxel.y, i⟩ (some unit) hvox
      dsimp only
      rw [hr]
      dsimp only
      split_ifs
      · exact ⟨true, rfl⟩
      · exact ih (i - 2) (by push_cast at hi; omega)
    · rw [if_neg hgt]
      exact ⟨false, rfl⟩

/-- The check of a tile for a visible unit returns when the occupant of the tile stands in
the grid and every voxel check returns. -/
theorem checkForVisibleUnits_returns (save : SavedBattleGame) (voxelData : List Nat)
    (unit : BattleUnit) (tile : Tile)
    (hocc : ∀ bu, tile.getUnit = some bu → (save.getTile bu.getPosition).isSome = true)
    (hvox : ∀ voxel, ∃ r, voxelCheck save voxelData voxel (some unit) = .ok r) :
    ∃ r, checkForVisibleUnits save voxelData unit tile = .ok r := by
  unfold checkForVisibleUnits
  cases hu : tile.getUnit with
  | none => exact ⟨_, rfl⟩
  | some bu =>
    dsimp only
    by_cases hout : bu.isOut = true
    · rw [if_pos hout]
      exact ⟨_, rfl⟩
    rw [if_neg hout]
    by_cases hfriend : unit.getFaction = UnitFaction.FACTION_PLAYER
        ∧ (bu.getFaction = UnitFaction.FACTION_PLAYER
          ∨ bu.getFaction = UnitFaction.FACTION_NEUTRAL)
    · rw [if_pos hfriend]
      exact ⟨_, rfl⟩
    rw [if_neg hfriend]
    by_cases hfoe : unit.getFaction = UnitFaction.FACTION_HOSTILE
        ∧ bu.getFaction = UnitFaction.FACTION_HOSTILE
    · rw [if_pos hfoe]
      exact ⟨_, rfl⟩
    rw [if_neg hfoe]
    · rw [getTile_of_isSome save _ (hocc bu hu)]
      dsimp only
      obtain ⟨b, hb⟩ := checkForVisibleUnits_scan_returns save voxelData unit bu
        ⟨(unit.getPosition.x * 16) + 8, (unit.getPosition.y * 16) + 8,
          unit.getPosition.z * 24 + -tile.getTerrainLevel
            + (if unit.isKneeled then unit.getKneelHeight else unit.getStandHeight)⟩
        ⟨(bu.getPosition.x * 16) + 8, (bu.getPosition.y * 16) + 8, bu.getPosition.z * 24⟩
        (bu.getPosition.z * 24 - (save.tiles bu.getPosition).getTerrainLevel) hvox
        ((bu.getPosition.z * 24 - (save.tiles bu.getPosition).getTerrainLevel
            + (if bu.isKneeled then bu.getKneelHeight else bu.getStandHeight))
          - (bu.getPosition.z * 24 - (save.tiles bu.getPosition).getTerrainLevel)).toNat
        (bu.getPosition.z * 24 - (save.tiles bu.getPosition).getTerrainLevel
            + (if bu.isKneeled then bu.getKneelHeight else bu.getStandHeight))
        (by omega)
      rw [hb]
      exact ⟨_, rfl⟩

/-- The visit of a tile by a pass returns under the same conditions. -/
theorem calculateFOV_visit_returns (save : SavedBattleGame) (voxelData : List Nat)
    (unit : BattleUnit) (pos : Position) (dest : Tile) (objectViewDistance
      unitViewDistance : Int) (st : FOVState)
    (hocc : ∀ bu, dest.getUnit = some bu → (save.getTile bu.getPosition).isSome = true)
    (hvox : ∀ voxel, ∃ r, voxelCheck save voxelData voxel (some unit) = .ok r) :
    ∃ st2, calculateFOV.visit save voxelData unit pos dest objectViewDistance
      unitViewDistance st = .ok st2 := by
  unfold calculateFOV.visit
  by_cases h1 : objectViewDistance > 0 ∧ dest.getShade < 10
  · rw [if_pos h1]
    by_cases h2 : pos ∈ st.tilesAffected
    · rw [if_pos h2]
      exact ⟨_, rfl⟩
    · rw [if_neg h2]
      by_cases h3 : unitViewDistance > 0
      · rw [if_pos h3]
        obtain ⟨r, hr⟩ := checkForVisibleUnits_returns save voxelData unit dest hocc hvox
        rw [hr]
        dsimp only
        split_ifs <;> exact ⟨_, rfl⟩
      · rw [if_neg h3]
        dsimp only
        split_ifs <;> exact ⟨_, rfl⟩
  · rw [if_neg h1]
    exact ⟨_, rfl⟩

/-- The floor of a tile never blocks a negative amount. -/
theorem blockage_floor_nonneg (t : Option Tile) (type : ItemDamageType) :
    0 ≤ blockage t MapData.O_FLOOR type := by
  cases t with
  | none => exact le_refl _
  | some tile =>
    unfold blockage
    dsimp only
    cases hf : tile.getMapData MapData.O_FLOOR with
    | none =>
      simp only [Option.isSome_none, Bool.false_eq_true, and_false, if_false]
      split_ifs <;> exact le_refl _
    | some floor =>
      simp only [Option.isSome_some, and_true, if_true]
      split_ifs <;> decide

/-- The function `verticalBlockage` always returns, and its value is not negative. -/
theorem verticalBlockage_returns (save : SavedBattleGame) (s e : Option Tile)
    (type : ItemDamageType) :
    ∃ v, verticalBlockage save s e type = .ok v ∧ 0 ≤ v := by
  cases s with
  | none => exact ⟨0, rfl, le_refl _⟩
  | some s =>
    cases e with
    | none => exact ⟨0, rfl, le_refl _⟩
    | some e =>
      unfold verticalBlockage
      dsimp only
      by_cases hlt : e.getPosition.z - s.getPosition.z < 0
      · rw [if_pos hlt, verticalBlockageDown_eq save _ _ _ type _ _ 0 (by omega)]
        exact ⟨_, rfl, by
          rw [zero_add]
          exact Finset.sum_nonneg (fun k _ => blockage_floor_nonneg _ type)⟩
      · rw [if_neg hlt]
        by_cases hgt : e.getPosition.z - s.getPosition.z > 0
        · rw [if_pos hgt, verticalBlockageUp_eq save _ _ _ type _ _ 0 (by omega)]
          exact ⟨_, rfl, by
            rw [zero_add]
            exact Finset.sum_nonneg (fun k _ => blockage_floor_nonneg _ type)⟩
        · rw [if_neg hgt]
          exact ⟨0, rfl, le_refl _⟩

/-- With part blockages that are not negative, the horizontal blockage is not negative,
whatever the words behind the direction tables are. -/
theorem horizontalBlockage_withStray_nonneg (x8 y8 : Int) (save : SavedBattleGame)
    (s e : Option Tile) (type : ItemDamageType)
    (hs : ∀ t, s = some t → ∀ part, 0 ≤ blockage (some t) part type)
    (he : ∀ t, e = some t → ∀ part, 0 ≤ blockage (some t) part type)
    (hg : ∀ pos part, 0 ≤ blockage (save.getTile pos) part type) :
    0 ≤ horizontalBlockage.withStray x8 y8 save s e type := by
  cases s with
  | none => exact le_refl _
  | some s =>
    cases e with
    | none => exact le_refl _
    | some e =>
      unfold horizontalBlockage.withStray
      dsimp only
      split_ifs
      · exact le_refl _
      · exact add_nonneg
          (horizontalBlockage_directional_nonneg save s e type _ (hs s rfl) (he e rfl) hg)
          (hs s rfl _)

/-- The walk along one ray returns when it has a round for each unit of view distance: every
round takes at least one unit. -/
theorem calculateFOV_rayLoop_returns (save : SavedBattleGame) (voxelData : List Nat)
    (x8 y8 : Int) (unit : BattleUnit) (tileAt : Nat → Position)
    (hocc : ∀ pos t bu, save.getTile pos = some t → t.getUnit = some bu →
      (save.getTile bu.getPosition).isSome = true)
    (hvox : ∀ voxel, ∃ r, voxelCheck save voxelData voxel (some unit) = .ok r)
    (hblock : ∀ pos part, 0 ≤ blockage (save.getTile pos) part ItemDamageType.DT_NONE) :
    ∀ (fuel : Nat) (objectViewDistance unitViewDistance : Int) (l : Nat)
      (origin : Option Tile) (st : FOVState),
      objectViewDistance ≤ fuel →
      (∀ t, origin = some t → ∃ pos, save.getTile pos = some t) →
      ∃ st2, calculateFOV.rayLoop save voxelData x8 y8 unit tileAt fuel objectViewDistance
        unitViewDistance l origin st = .ok st2 := by
  intro fuel
  induction fuel with
  | zero =>
    intro ovd uvd l origin st hfuel _
    rw [calculateFOV.rayLoop, if_neg (by push_cast at hfuel; omega)]
    exact ⟨_, rfl⟩
  | succ n ih =>
    intro ovd uvd l origin st hfuel horigin
    rw [calculateFOV.rayLoop]
    by_cases hpos : ovd > 0
    · rw [if_pos hpos]
      dsimp only
      cases hdest : save.getTile (tileAt (l + 1)) with
      | none => exact ⟨_, rfl⟩
      | some dest =>
        dsimp only
        obtain ⟨v, hv, hv0⟩ := verticalBlockage_returns save origin (some dest)
          ItemDamageType.DT_NONE
        rw [hv]
        dsimp only
        have hh : 0 ≤ horizontalBlockage.withStray x8 y8 save origin (some dest)
            ItemDamageType.DT_NONE := by
          apply horizontalBlockage_withStray_nonneg
          · intro t ht part
            obtain ⟨pos, hpos2⟩ := horigin t ht
            rw [← hpos2]
            exact hblock pos part
          · intro t ht part
            cases ht
            rw [← hdest]
            exact hblock _ part
          · exact hblock
        obtain ⟨st2, hst2⟩ := calculateFOV_visit_returns save voxelData unit (tileAt (l + 1))
          dest (ovd - 1 - horizontalBlockage.withStray x8 y8 save origin (some dest)
            ItemDamageType.DT_NONE - v) uvd st
          (fun bu hbu => hocc _ dest bu hdest hbu) hvox
        rw [hst2]
        dsimp only
        apply ih
        · push_cast at hfuel
          split_ifs <;> omega
        · intro t ht
          cases ht
          exact ⟨_, hdest⟩
    · rw [if_neg hpos]
      exact ⟨_, rfl⟩

/-- The rays of one vertical angle all return. -/
theorem calculateFOV_fan_returns (save : SavedBattleGame) (voxelData : List Nat)
    (x8 y8 : Int) (unit : BattleUnit) (ray : Int → Int → Nat → Position) (fi : Int)
    (hocc : ∀ pos t bu, save.getTile pos = some t → t.getUnit = some bu →
      (save.getTile bu.getPosition).isSome = true)
    (hvox : ∀ voxel, ∃ r, voxelCheck save voxelData voxel (some unit) = .ok r)
    (hblock : ∀ pos part, 0 ≤ blockage (save.getTile pos) part ItemDamageType.DT_NONE) :
    ∀ (tes : List Int) (st : FOVState),
      ∃ st2, calculateFOV.fan save voxelData x8 y8 unit ray fi tes st = .ok st2 := by
  intro tes
  induction tes with
  | nil => exact fun st => ⟨st, rfl⟩
  | cons te rest ih =>
    intro st
    rw [calculateFOV.fan]
    obtain ⟨st2, hst2⟩ := calculateFOV_rayLoop_returns save voxelData x8 y8 unit (ray fi te)
      hocc hvox hblock 20 20 20 0 (save.getTile unit.getPosition) st (by decide)
      (fun t ht => ⟨unit.getPosition, ht⟩)
    rw [hst2]
    exact ih st2

/-- The fans of all vertical angles return for an observer whose facing is one of the
eight directions. -/
theorem calculateFOV_arc_returns (save : SavedBattleGame) (voxelData : List Nat)
    (x8 y8 : Int) (unit : BattleUnit) (ray : Int → Int → Nat → Position)
    (hdir : 0 ≤ unit.getDirection ∧ unit.getDirection ≤ 7)
    (hocc : ∀ pos t bu, save.getTile pos = some t → t.getUnit = some bu →
      (save.getTile bu.getPosition).isSome = true)
    (hvox : ∀ voxel, ∃ r, voxelCheck save voxelData voxel (some unit) = .ok r)
    (hblock : ∀ pos part, 0 ≤ blockage (save.getTile pos) part ItemDamageType.DT_NONE) :
    ∀ (fis : List Int) (st : FOVState),
      ∃ st2, calculateFOV.arc save voxelData x8 y8 unit ray fis st = .ok st2 := by
  have hlen1 : unit.getDirection.toNat < calculateFOV.startAngle.length := by
    have : calculateFOV.startAngle.length = 8 := rfl
    omega
  have hlen2 : unit.getDirection.toNat < calculateFOV.endAngle.length := by
    have : calculateFOV.endAngle.length = 8 := rfl
    omega
  intro fis
  induction fis with
  | nil => exact fun st => ⟨st, rfl⟩
  | cons fi rest ih =>
    intro st
    rw [calculateFOV.arc, if_neg (by omega), List.getElem?_eq_getElem hlen1,
      List.getElem?_eq_getElem hlen2]
    dsimp only
    obtain ⟨st2, hst2⟩ := calculateFOV_fan_returns save voxelData x8 y8 unit ray fi hocc hvox
      hblock (calculateFOV.steps (calculateFOV.startAngle[unit.getDirection.toNat])
        (calculateFOV.endAngle[unit.getDirection.toNat]) 3) st
    rw [hst2]
    exact ih st2

/-- The rebuilding of the visible units returns for an observer that stands in the grid
with a facing among the eight directions, in a world whose units stand in the grid, whose
loft descriptors stay inside the voxel mask table and whose parts block no negative
amount of vision. -/
theorem calculateFOV_rebuild_returns (save : SavedBattleGame) (voxelData : List Nat)
    (x8 y8 : Int) (ray : Int → Int → Nat → Position) (unit : BattleUnit)
    (hdir : 0 ≤ unit.getDirection ∧ unit.getDirection ≤ 7)
    (hown : (save.getTile unit.getPosition).isSome = true)
    (hocc : ∀ pos t bu, save.getTile pos = some t → t.getUnit = some bu →
      (save.getTile bu.getPosition).isSome = true)
    (hvox : ∀ voxel, ∃ r, voxelCheck save voxelData voxel (some unit) = .ok r)
    (hblock : ∀ pos part, 0 ≤ blockage (save.getTile pos) part ItemDamageType.DT_NONE) :
    ∃ st, calculateFOV.rebuild save voxelData x8 y8 ray unit = .ok st := by
  unfold calculateFOV.rebuild
  dsimp only
  rw [getTile_of_isSome save _ hown]
  dsimp only
  split_ifs <;> exact calculateFOV_arc_returns save voxelData x8 y8 unit ray hdir hocc hvox
    hblock _ _

/-- C25: for an observer that stands in the grid with a facing among the eight directions,
in a world whose units stand in the grid, whose loft descriptors stay inside the voxel mask
table and whose parts block no negative amount of vision, a pass of `calculateFOV`
returns, whatever the tile coordinates of the rays and the words behind the direction
tables are. It returns true exactly when the checksum (sum of `getId() + 1`) of the
visible units rebuilt by the pass is strictly greater than the checksum of those held
before the pass; the units rebuilt do not depend on those held before, so a second pass
over the same world, which starts from the units rebuilt by the first, rebuilds the same
units and returns false. -/
theorem calculateFOV_checksum_signal (save : SavedBattleGame) (voxelData : List Nat)
    (x8 y8 : Int) (ray : Int → Int → Nat → Position) (unit : BattleUnit)
    (hdir : 0 ≤ unit.getDirection ∧ unit.getDirection ≤ 7)
    (hown : (save.getTile unit.getPosition).isSome = true)
    (hocc : ∀ pos t bu, save.getTile pos = some t → t.getUnit = some bu →
      (save.getTile bu.getPosition).isSome = true)
    (hunits : ∀ pos t bu, save.getTile pos = some t → t.getUnit = some bu →
      0 ≤ bu.gotLoftemps ∧ bu.gotLoftemps * 16 + 31 ≤ voxelData.length)
    (hparts : ∀ pos t part mp k, save.getTile pos = some t → t.getMapData part = some mp →
      0 ≤ mp.getLoftID k ∧ mp.getLoftID k * 16 + 31 ≤ voxelData.length)
    (hblock : ∀ pos part, 0 ≤ blockage (save.getTile pos) part ItemDamageType.DT_NONE) :
    ∃ st, calculateFOV.rebuild save voxelData x8 y8 ray unit = .ok st
      ∧ (∀ visibleUnits, ∃ b,
          calculateFOV save voxelData x8 y8 ray unit visibleUnits = .ok (b, st)
          ∧ (b = true ↔ calculateFOV.checksum visibleUnits
              < calculateFOV.checksum st.visibleUnits))
      ∧ calculateFOV save voxelData x8 y8 ray unit st.visibleUnits = .ok (false, st) := by
  obtain ⟨st, hst⟩ := calculateFOV_rebuild_returns save voxelData x8 y8 ray unit hdir hown
    hocc (voxelCheck_returns save voxelData (some unit) hunits hparts) hblock
  refine ⟨st, hst, ?_, ?_⟩
  · intro visibleUnits
    refine ⟨decide (calculateFOV.checksum visibleUnits
      < calculateFOV.checksum st.visibleUnits), ?_, ?_⟩
    · unfold calculateFOV
      rw [hst]
    · exact decide_eq_true_iff
  · unfold calculateFOV
    rw [hst]
    simp

theorem calculateFOV_checksum_signal_witness :
    (∃ st, calculateFOV.rebuild squadBattle wideVoxelData 0 0 stairSight scout = .ok st
      ∧ (∀ visibleUnits, ∃ b,
          calculateFOV squadBattle wideVoxelData 0 0 stairSight scout visibleUnits
            = .ok (b, st)
          ∧ (b = true ↔ calculateFOV.checksum visibleUnits
              < calculateFOV.checksum st.visibleUnits))
      ∧ calculateFOV squadBattle wideVoxelData 0 0 stairSight scout st.visibleUnits
          = .ok (false, st))
    ∧ calculateFOV squadBattle wideVoxelData 0 0 stairSight scout []
        = .ok (true, ⟨[lurker], [⟨1, 1, 0⟩],
            [(⟨0, 0, 0⟩, 2), (⟨1, 1, 0⟩, 2), (⟨1, 0, 0⟩, 1)]⟩)
    ∧ calculateFOV squadBattle wideVoxelData 0 0 stairSight scout [lurker]
        = .ok (false, ⟨[lurker], [⟨1, 1, 0⟩],
            [(⟨0, 0, 0⟩, 2), (⟨1, 1, 0⟩, 2), (⟨1, 0, 0⟩, 1)]⟩)
    ∧ stairSight 0 0 1 = ⟨1, 1, 0⟩ ∧ stairSight 0 0 2 = ⟨1, 1, 0⟩
    ∧ stairSight 0 0 3 = ⟨2, 2, 0⟩ :=
  have htile : ∀ pos t, squadBattle.getTile pos = some t → t = squadBattle.tiles pos :=
    fun pos t ht => by
      have h := getTile_of_isSome squadBattle pos (by rw [ht]; rfl)
      rw [ht] at h
      exact Option.some.inj h
  have hocc : ∀ pos t bu, squadBattle.getTile pos = some t → t.getUnit = some bu →
      bu = scout ∨ bu = lurker := fun pos t bu ht hu => by
    rw [htile pos t ht] at hu
    simp only [squadBattle] at hu
    split_ifs at hu
    · exact Or.inl (Option.some.inj hu).symm
    · exact Or.inr (Option.some.inj hu).symm
  ⟨calculateFOV_checksum_signal squadBattle wideVoxelData 0 0 stairSight scout
      (by decide) (by decide)
      (fun pos t bu ht hu => by
        rcases hocc pos t bu ht hu with rfl | rfl <;> decide)
      (fun pos t bu ht hu => by
        rcases hocc pos t bu ht hu with rfl | rfl <;> decide)
      (fun pos t part mp k ht hmp => by
        rw [htile pos t ht] at hmp
        simp [squadBattle] at hmp)
      (fun pos part => by
        cases ht : squadBattle.getTile pos with
        | none => exact le_refl _
        | some t =>
          rw [htile pos t ht]
          simp [blockage, squadBattle]),
    by decide, by decide, by decide, by decide, by decide⟩

/-! ## Reaction fire: the candidate chosen -/

/-- The inner loop of `checkReactionFire` replaces the highest score and the actor with
those of `i` exactly when `unit` is among the visible units scanned and the score of `i`
is greater than the highest so far. -/
theorem checkReactionFire_spot_eq (unit i : BattleUnit) :
    ∀ (visible : List BattleUnit) (highest : ℚ) (actor : Option BattleUnit),
      checkReactionFire.spot unit i visible highest actor
        = if (∃ j ∈ visible, j.id = unit.id) ∧ i.getReactionScore > highest then
            (i.getReactionScore, some i)
          else (highest, actor) := by
  intro visible
  induction visible with
  | nil =>
    intro highest actor
    simp [checkReactionFire.spot]
  | cons j rest ih =>
    intro highest actor
    rw [checkReactionFire.spot]
    by_cases hj : j.id = unit.id ∧ i.getReactionScore > highest
    · rw [if_pos hj, ih, if_neg (fun h => lt_irrefl _ h.2),
        if_pos ⟨⟨j, List.mem_cons_self _ _, hj.1⟩, hj.2⟩]
    · rw [if_neg hj, ih]
      by_cases hs : i.getReactionScore > highest
      · have hne : ¬ j.id = unit.id := fun h => hj ⟨h, hs⟩
        have hiff : (∃ k ∈ j :: rest, k.id = unit.id) ↔ ∃ k ∈ rest, k.id = unit.id := by
          constructor
          · rintro ⟨k, hk, hid⟩
            rcases List.mem_cons.mp hk with rfl | hk
            · exact absurd hid hne
            · exact ⟨k, hk, hid⟩
          · rintro ⟨k, hk, hid⟩
            exact ⟨k, List.mem_cons_of_mem _ hk, hid⟩
        by_cases hr : ∃ k ∈ rest, k.id = unit.id
        · rw [if_pos ⟨hr, hs⟩, if_pos ⟨hiff.mpr hr, hs⟩]
        · rw [if_neg (fun h => hr h.1), if_neg (fun h => hr (hiff.mp h.1))]
      · rw [if_neg (fun h => hs h.2), if_neg (fun h => hs h.2)]

/-- A pass of `calculateFOV` that returns leaves the visible units rebuilt by it. -/
theorem calculateFOV_ok_rebuild (save : SavedBattleGame) (voxelData : List Nat)
    (x8 y8 : Int) (ray : Int → Int → Nat → Position) (unit : BattleUnit)
    (visibleUnits : List BattleUnit) (pass : Bool × FOVState)
    (h : calculateFOV save voxelData x8 y8 ray unit visibleUnits = .ok pass) :
    calculateFOV.rebuild save voxelData x8 y8 ray unit = .ok pass.2 := by
  unfold calculateFOV at h
  dsimp only at h
  cases hre : calculateFOV.rebuild save voxelData x8 y8 ray unit with
  | error e => rw [hre] at h; cases h
  | ok st =>
    rw [hre] at h
    have h2 := Except.ok.inj h
    rw [← h2]

/-- What the loop of `checkReactionFire` over the units leaves: the highest score never
drops, no unit of the list that spots the acting unit has a greater score, and either the
score and the actor are those the loop started with, or the actor is a unit of the list
that spots the acting unit, with the highest score as its own, greater than the score the
loop started with. -/
theorem checkReactionFire_scan_spec (save : SavedBattleGame) (voxelData : List Nat)
    (x8 y8 : Int) (ray : BattleUnit → Int → Int → Nat → Position) (unit : BattleUnit)
    (recalculateFOV : Bool) (held : Nat → List BattleUnit) :
    ∀ (l : List BattleUnit) (s s2 : ReactionScan),
      checkReactionFire.scan save voxelData x8 y8 ray unit recalculateFOV l s = .ok s2 →
      (recalculateFOV = false → s.visibleUnits = held) →
      s.highestReactionScore ≤ s2.highestReactionScore
      ∧ (∀ i ∈ l, checkReactionFire.Spots save
            (checkReactionFire.visibleTo save voxelData x8 y8 ray recalculateFOV held) unit i →
          i.getReactionScore ≤ s2.highestReactionScore)
      ∧ ((s2.highestReactionScore = s.highestReactionScore ∧ s2.actor = s.actor)
        ∨ ∃ a ∈ l, checkReactionFire.Spots save
            (checkReactionFire.visibleTo save voxelData x8 y8 ray recalculateFOV held) unit a
          ∧ a.getReactionScore = s2.highestReactionScore ∧ s2.actor = some a
          ∧ s.highestReactionScore < a.getReactionScore) := by
  intro l
  induction l with
  | nil =>
    intro s s2 h _
    rw [checkReactionFire.scan] at h
    cases h
    exact ⟨le_refl _, fun i hi => absurd hi (List.not_mem_nil i), Or.inl ⟨rfl, rfl⟩⟩
  | cons i rest ih =>
    intro s s2 h hheld
    rw [checkReactionFire.scan] at h
    dsimp only at h
    by_cases hq : addLight.distance |unit.getPosition.x - i.getPosition.x|
        |unit.getPosition.y - i.getPosition.y| < 19
        ∧ i.getFaction ≠ save.getSide ∧ i.isOut = false
    · rw [if_pos hq] at h
      have key : ∀ s1 : ReactionScan,
          s1.highestReactionScore = s.highestReactionScore → s1.actor = s.actor →
          s1.visibleUnits i.id
            = checkReactionFire.visibleTo save voxelData x8 y8 ray recalculateFOV held i →
          (recalculateFOV = false → s1.visibleUnits = held) →
          checkReactionFire.scan save voxelData x8 y8 ray unit recalculateFOV rest
            { s1 with
              highestReactionScore :=
                (checkReactionFire.spot unit i (s1.visibleUnits i.id) s1.highestReactionScore
                  s1.actor).1
              actor :=
                (checkReactionFire.spot unit i (s1.visibleUnits i.id) s1.highestReactionScore
                  s1.actor).2 } = .ok s2 →
          s.highestReactionScore ≤ s2.highestReactionScore
          ∧ (∀ c ∈ i :: rest, checkReactionFire.Spots save
                (checkReactionFire.visibleTo save voxelData x8 y8 ray recalculateFOV held)
                unit c →
              c.getReactionScore ≤ s2.highestReactionScore)
          ∧ ((s2.highestReactionScore = s.highestReactionScore ∧ s2.actor = s.actor)
            ∨ ∃ a ∈ i :: rest, checkReactionFire.Spots save
                (checkReactionFire.visibleTo save voxelData x8 y8 ray recalculateFOV held)
                unit a
              ∧ a.getReactionScore = s2.highestReactionScore ∧ s2.actor = some a
              ∧ s.highestReactionScore < a.getReactionScore) := by
        intro s1 hhigh hactor hvis hheld1 h
        rw [hvis, checkReactionFire_spot_eq, hhigh, hactor] at h
        by_cases hup : (∃ j ∈ checkReactionFire.visibleTo save voxelData x8 y8 ray
            recalculateFOV held i, j.id = unit.id)
            ∧ i.getReactionScore > s.highestReactionScore
        · rw [if_pos hup] at h
          obtain ⟨k1, k2, k3⟩ := ih _ s2 h hheld1
          dsimp only at k1 k3
          refine ⟨le_trans (le_of_lt hup.2) k1, ?_, ?_⟩
          · intro c hc hsp
            rcases List.mem_cons.mp hc with rfl | hc
            · exact k1
            · exact k2 c hc hsp
          · rcases k3 with ⟨e1, e2⟩ | ⟨a, ha, hsp, e1, e2, e3⟩
            · exact Or.inr ⟨i, List.mem_cons_self _ _, ⟨hq, hup.1⟩, e1.symm, e2, hup.2⟩
            · exact Or.inr ⟨a, List.mem_cons_of_mem _ ha, hsp, e1, e2, lt_trans hup.2 e3⟩
        · rw [if_neg hup] at h
          obtain ⟨k1, k2, k3⟩ := ih _ s2 h hheld1
          dsimp only at k1 k3
          refine ⟨k1, ?_, ?_⟩
          · intro c hc hsp
            rcases List.mem_cons.mp hc with rfl | hc
            · have hle : c.getReactionScore ≤ s.highestReactionScore :=
                not_lt.mp (fun hlt => hup ⟨hsp.2, hlt⟩)
              exact le_trans hle k1
            · exact k2 c hc hsp
          · rcases k3 with ⟨e1, e2⟩ | ⟨a, ha, hsp, e1, e2, e3⟩
            · exact Or.inl ⟨e1, e2⟩
            · exact Or.inr ⟨a, List.mem_cons_of_mem _ ha, hsp, e1, e2, e3⟩
      cases hr : recalculateFOV with
      | false =>
        rw [hr] at h key hheld
        simp only [Bool.false_eq_true, if_false] at h
        refine key s rfl rfl ?_ (fun _ => hheld rfl) h
        simp only [checkReactionFire.visibleTo, Bool.false_eq_true, if_false]
        rw [hheld rfl]
      | true =>
        rw [hr] at h key
        simp only [if_true] at h
        cases hpass : calculateFOV save voxelData x8 y8 (ray i) i (s.visibleUnits i.id) with
        | error e =>
          rw [hpass] at h
          cases h
        | ok pass =>
          rw [hpass] at h
          have hre := calculateFOV_ok_rebuild _ _ _ _ _ _ _ _ hpass
          refine key
            { s with
              visibleUnits := fun k => if k = i.id then pass.2.visibleUnits
                else s.visibleUnits k
              discovered := s.discovered ++ pass.2.discovered }
            rfl rfl ?_ (fun hf => by cases hf) h
          simp only [checkReactionFire.visibleTo, if_true, hre]
    · rw [if_neg hq] at h
      obtain ⟨k1, k2, k3⟩ := ih s s2 h hheld
      refine ⟨k1, ?_, ?_⟩
      · intro c hc hsp
        rcases List.mem_cons.mp hc with rfl | hc
        · exact absurd hsp.1 hq
        · exact k2 c hc hsp
      · rcases k3 with ⟨e1, e2⟩ | ⟨a, ha, hsp, e1, e2, e3⟩
        · exact Or.inl ⟨e1, e2⟩
        · exact Or.inr ⟨a, List.mem_cons_of_mem _ ha, hsp, e1, e2, e3⟩

/-- The action descriptor after the part of `checkReactionFire` that follows the loop: with
no actor, or an actor whose highest score is not above that of the acting unit, it is left
alone; otherwise its type, target and weapon are overwritten, and a failure is then due to
the weapon not being loaded or to `spendTimeUnits` failing. -/
theorem checkReactionFire_shoot_action (save : SavedBattleGame) (rules : ReactionRules)
    (unit : BattleUnit) (action : BattleAction) (highestReactionScore : ℚ)
    (st : ReactionState) :
    (action.actor = none →
      (checkReactionFire.shoot save rules unit action highestReactionScore st).2.1 = action)
    ∧ ∀ a, action.actor = some a →
      (¬ highestReactionScore > unit.getReactionScore →
        (checkReactionFire.shoot save rules unit action highestReactionScore st).2.1 = action)
      ∧ (highestReactionScore > unit.getReactionScore →
        (checkReactionFire.shoot save rules unit action highestReactionScore st).2.1
          = ⟨some a, BattleActionType.BA_SNAPSHOT, unit.getPosition,
              save.getMainHandWeapon a⟩
        ∧ ((checkReactionFire.shoot save rules unit action highestReactionScore st).1 = false →
          checkReactionFire.loaded (save.getMainHandWeapon a) = false
          ∨ (rules.spendTimeUnits (st.timeUnits a.id)
              (rules.getActionTUs a BattleActionType.BA_SNAPSHOT (save.getMainHandWeapon a))
              save.getDebugMode).1 = false)) := by
  obtain ⟨actor, ty, tg, w⟩ := action
  cases actor with
  | none =>
    refine ⟨fun _ => rfl, fun a ha => ?_⟩
    cases ha
  | some actor =>
    refine ⟨fun h => (by cases h), fun a ha => ?_⟩
    cases ha
    unfold checkReactionFire.shoot
    dsimp only
    refine ⟨fun hn => (by rw [if_neg hn]), fun hp => ?_⟩
    rw [if_pos hp]
    by_cases hammo : checkReactionFire.loaded (save.getMainHandWeapon actor) = true
    · rw [if_pos hammo]
      by_cases hs : (rules.spendTimeUnits (st.timeUnits actor.id)
          (rules.getActionTUs actor BattleActionType.BA_SNAPSHOT
            (save.getMainHandWeapon actor)) save.getDebugMode).1 = true
      · rw [if_pos hs]
        exact ⟨rfl, fun h => by cases h⟩
      · rw [if_neg hs]
        exact ⟨rfl, fun _ => Or.inr (by simpa using hs)⟩
    · rw [if_neg hammo]
      exact ⟨rfl, fun _ => Or.inl (by simpa using hammo)⟩

/-- C22, amended: whenever `checkReactionFire` reports failure, every unit's time units
and AI state are those before the call (given that a failed `spendTimeUnits` spends
nothing), but the action descriptor is not preserved. For an acting unit that is not of
the side in turn the actor is reset to null and the rest is left alone. Otherwise, with
the units as the forced turn leaves them and with the visible units each of them has when
the loop reaches it, the actor is null exactly when no unit that spots the acting unit
(nearer than 19, not of the side in turn, not out, the acting unit among its visible units)
has a positive reaction score, and then the rest is left alone; an actor that is not null
is such a unit with a positive score that is the highest among them; the type, target and
weapon are left alone when the score of the actor is not above that of the acting unit,
and are overwritten with the snap shot, the position of the acting unit and the main-hand
weapon of the actor when it is, the failure being then due to a weapon that is not loaded
or to `spendTimeUnits` failing. -/
theorem checkReactionFire_failure (save : SavedBattleGame) (voxelData : List Nat)
    (x8 y8 : Int) (ray : BattleUnit → Int → Int → Nat → Position) (rules : ReactionRules)
    (rng : RNG) (unit : BattleUnit) (action : BattleAction)
    (potentialVictim : Option BattleUnit) (recalculateFOV : Bool) (st : ReactionState)
    (action' : BattleAction) (st' : ReactionState)
    (hspend : ∀ tu cost debug, (rules.spendTimeUnits tu cost debug).1 = false →
      (rules.spendTimeUnits tu cost debug).2 = tu)
    (hfail : checkReactionFire save voxelData x8 y8 ray rules rng unit action potentialVictim
      recalculateFOV st = .ok (false, action', st')) :
    st'.timeUnits = st.timeUnits ∧ st'.aiState = st.aiState
    ∧ (unit.getFaction ≠ save.getSide → action' = { action with actor := none })
    ∧ (unit.getFaction = save.getSide →
        (action'.actor = none ↔
          ∀ i ∈ (checkReactionFire.turn rules rng unit potentialVictim recalculateFOV st).2.units,
            checkReactionFire.Spots save
              (checkReactionFire.visibleTo save voxelData x8 y8 ray
                (checkReactionFire.turn rules rng unit potentialVictim recalculateFOV st).1
                (checkReactionFire.turn rules rng unit potentialVictim recalculateFOV st).2.visibleUnits)
              unit i →
            i.getReactionScore ≤ 0)
        ∧ (action'.actor = none → action' = { action with actor := none })
        ∧ ∀ a, action'.actor = some a →
          (a ∈ (checkReactionFire.turn rules rng unit potentialVictim recalculateFOV st).2.units
            ∧ checkReactionFire.Spots save
                (checkReactionFire.visibleTo save voxelData x8 y8 ray
                  (checkReactionFire.turn rules rng unit potentialVictim recalculateFOV st).1
                  (checkReactionFire.turn rules rng unit potentialVictim recalculateFOV st).2.visibleUnits)
                unit a
            ∧ 0 < a.getReactionScore
            ∧ ∀ i ∈ (checkReactionFire.turn rules rng unit potentialVictim recalculateFOV st).2.units,
                checkReactionFire.Spots save
                  (checkReactionFire.visibleTo save voxelData x8 y8 ray
                    (checkReactionFire.turn rules rng unit potentialVictim recalculateFOV st).1
                    (checkReactionFire.turn rules rng unit potentialVictim recalculateFOV st).2.visibleUnits)
                  unit i →
                i.getReactionScore ≤ a.getReactionScore)
          ∧ (¬ a.getReactionScore > unit.getReactionScore →
              action' = { action with actor := some a })
          ∧ (a.getReactionScore > unit.getReactionScore →
              action' = ⟨some a, BattleActionType.BA_SNAPSHOT, unit.getPosition,
                save.getMainHandWeapon a⟩
              ∧ (checkReactionFire.loaded (save.getMainHandWeapon a) = false
                ∨ (rules.spendTimeUnits (st.timeUnits a.id)
                    (rules.getActionTUs a BattleActionType.BA_SNAPSHOT
                      (save.getMainHandWeapon a)) save.getDebugMode).1 = false))) := by
  unfold checkReactionFire at hfail
  dsimp only at hfail
  by_cases hside : unit.getFaction ≠ save.getSide
  · rw [if_pos hside] at hfail
    simp only [Except.ok.injEq, Prod.mk.injEq, true_and] at hfail
    obtain ⟨rfl, rfl⟩ := hfail
    exact ⟨rfl, rfl, fun _ => rfl, fun h => absurd h hside⟩
  · rw [if_neg hside] at hfail
    obtain ⟨hturn1, hturn2⟩ :=
      checkReactionFire_turn_keeps rules rng unit potentialVictim recalculateFOV st
    cases hscan : checkReactionFire.scan save voxelData x8 y8 ray unit
        (checkReactionFire.turn rules rng unit potentialVictim recalculateFOV st).1
        (checkReactionFire.turn rules rng unit potentialVictim recalculateFOV st).2.units
        ⟨0, none,
          (checkReactionFire.turn rules rng unit potentialVictim recalculateFOV
            st).2.visibleUnits,
          (checkReactionFire.turn rules rng unit potentialVictim recalculateFOV
            st).2.discovered⟩ with
    | error e => rw [hscan] at hfail; cases hfail
    | ok s =>
      rw [hscan] at hfail
      simp only [Except.ok.injEq] at hfail
      have h1 := congrArg Prod.fst hfail
      have h2 := congrArg (fun r => r.2.1) hfail
      have h3 := congrArg (fun r => r.2.2) hfail
      dsimp only at h1 h2 h3
      obtain ⟨k1, k2, -, -⟩ := checkReactionFire_shoot_failure save rules unit _ _ _ hspend h1
      rw [h3] at k1 k2
      obtain ⟨m1, m2, m3⟩ := checkReactionFire_scan_spec save voxelData x8 y8 ray unit _
        (checkReactionFire.turn rules rng unit potentialVictim recalculateFOV
          st).2.visibleUnits _ _ _ hscan (fun _ => rfl)
      dsimp only at m1 m3
      obtain ⟨n1, n2⟩ := checkReactionFire_shoot_action save rules unit
        { action with actor := s.actor } s.highestReactionScore
        { (checkReactionFire.turn rules rng unit potentialVictim recalculateFOV st).2 with
          visibleUnits := s.visibleUnits, discovered := s.discovered }
      rw [h2] at n1 n2
      rw [h1] at n2
      refine ⟨k1.trans hturn1, k2.trans hturn2, fun h => absurd h hside, fun _ => ?_⟩
      cases hactor : s.actor with
      | none =>
        have hsame : s.highestReactionScore = 0 := by
          rcases m3 with ⟨e1, -⟩ | ⟨a, -, -, -, e2, -⟩
          · exact e1
          · rw [hactor] at e2
            cases e2
        have hact : action' = { action with actor := none } := by
          have := n1 hactor
          rw [hactor] at this
          exact this
        refine ⟨⟨fun _ i hi hsp => ?_, fun _ => ?_⟩, fun _ => hact, fun a ha => ?_⟩
        · have := m2 i hi hsp
          rw [hsame] at this
          exact this
        · rw [hact]
        · rw [hact] at ha
          cases ha
      | some a =>
        have m4 := m3.resolve_left (fun h => by
          have e2 := h.2
          rw [hactor] at e2
          cases e2)
        obtain ⟨b, hb, hsp, e1, e2, e3⟩ := m4
        have hba : b = a := by
          rw [hactor] at e2
          exact (Option.some.inj e2).symm
        subst hba
        obtain ⟨p1, p2⟩ := n2 b hactor
        rw [← e1] at p1 p2
        dsimp only at p2
        rw [hturn1] at p2
        have p1 : ¬ b.getReactionScore > unit.getReactionScore →
            action' = { action with actor := some b } := fun h => by
          rw [p1 h, e2]
        have hsome : action'.actor = some b := by
          by_cases hgt : b.getReactionScore > unit.getReactionScore
          · rw [(p2 hgt).1]
          · rw [p1 hgt]
        refine ⟨⟨fun hn => ?_, fun hall => ?_⟩, fun hn => ?_, fun c hc => ?_⟩
        · rw [hsome] at hn
          cases hn
        · exact absurd (hall b hb hsp) (not_le.mpr e3)
        · rw [hsome] at hn
          cases hn
        · rw [hsome] at hc
          have hcb : b = c := Option.some.inj hc
          subst hcb
          refine ⟨⟨hb, hsp, e3, fun i hi hspi => ?_⟩, p1, fun hgt => ⟨(p2 hgt).1, (p2 hgt).2 rfl⟩⟩
          rw [e1]
          exact m2 i hi hspi

theorem checkReactionFire_failure_witness :
    checkReactionFire.Spots ambushBattle
        (checkReactionFire.visibleTo ambushBattle wideVoxelData 0 0 westSights true
          ambushState.visibleUnits) observer sniper
    ∧ 0 < sniper.getReactionScore
    ∧ (∀ i ∈ ambushState.units,
        checkReactionFire.Spots ambushBattle
          (checkReactionFire.visibleTo ambushBattle wideVoxelData 0 0 westSights true
            ambushState.visibleUnits) observer i →
        i.getReactionScore ≤ sniper.getReactionScore)
    ∧ (checkReactionFire.loaded (ambushBattle.getMainHandWeapon sniper) = false
      ∨ (sampleRules.spendTimeUnits (ambushState.timeUnits sniper.id)
          (sampleRules.getActionTUs sniper BattleActionType.BA_SNAPSHOT
            (ambushBattle.getMainHandWeapon sniper)) ambushBattle.getDebugMode).1 = false) :=
  have h := checkReactionFire_failure ambushBattle wideVoxelData 0 0 westSights sampleRules
    minRNG observer ⟨some bystander, BattleActionType.BA_NONE, ⟨9, 9, 9⟩, none⟩ none true
    ambushState ⟨some sniper, BattleActionType.BA_SNAPSHOT, ⟨0, 0, 0⟩, some emptyRifle⟩
    { ambushState with
      visibleUnits := fun k => if k = sniper.id then [observer] else ambushState.visibleUnits k
      discovered := [] }
    (by
      intro tu cost debug h
      unfold sampleRules at h ⊢
      dsimp only at h ⊢
      split_ifs at h ⊢
      rfl)
    rfl
  have h4 := (h.2.2.2 rfl).2.2 sniper rfl
  ⟨h4.1.2.1, h4.1.2.2.1, h4.1.2.2.2, (h4.2.2 (by decide)).2⟩

/-! ## New turn: the deposits of a smoky tile -/

/-- The stun of the occupant leaves the grid alone. -/
theorem prepareNewTurn_stun_save (source : Tile) (st : TurnState) :
    (prepareNewTurn.stun source st).save = st.save := by
  unfold prepareNewTurn.stun
  cases source.getUnit <;> rfl

/-- What `oneStep` leaves when it returns: the deposit of half the smoke when the tile
exists, carries no smoke and the blockage from the source is zero, and nothing new
otherwise. -/
theorem prepareNewTurn_oneStep_spec (rules : TileRules) (i pos : Position)
    (st st1 : TurnState) (h : prepareNewTurn.oneStep rules i pos st = .ok st1) :
    ((∃ t, st.save.getTile pos = some t ∧ t.getSmoke = 0
        ∧ horizontalBlockage st.save (some (st.save.tiles i)) (some t)
            ItemDamageType.DT_SMOKE = .ok 0)
      ∧ st1 = st.addSmoke rules pos ((st.save.tiles i).getSmoke.tdiv 2))
    ∨ ((¬ ∃ t, st.save.getTile pos = some t ∧ t.getSmoke = 0
        ∧ horizontalBlockage st.save (some (st.save.tiles i)) (some t)
            ItemDamageType.DT_SMOKE = .ok 0)
      ∧ st1 = st) := by
  unfold prepareNewTurn.oneStep at h
  dsimp only at h
  cases ht : st.save.getTile pos with
  | none =>
    rw [ht] at h
    exact Or.inr ⟨(by rintro ⟨t, h1, -⟩; cases h1), (Except.ok.inj h).symm⟩
  | some t =>
    rw [ht] at h
    dsimp only at h
    by_cases hs : t.getSmoke = 0
    · rw [if_pos hs] at h
      cases hb : horizontalBlockage st.save (some (st.save.tiles i)) (some t)
          ItemDamageType.DT_SMOKE with
      | error e => rw [hb] at h; cases h
      | ok block =>
        rw [hb] at h
        dsimp only at h
        by_cases h0 : block = 0
        · rw [if_pos h0] at h
          subst h0
          exact Or.inl ⟨⟨t, rfl, hs, hb⟩, (Except.ok.inj h).symm⟩
        · rw [if_neg h0] at h
          refine Or.inr ⟨?_, (Except.ok.inj h).symm⟩
          rintro ⟨t2, h1, -, h3⟩
          cases h1
          rw [hb] at h3
          exact h0 (Except.ok.inj h3)
    · rw [if_neg hs] at h
      refine Or.inr ⟨?_, (Except.ok.inj h).symm⟩
      rintro ⟨t2, h1, h2, -⟩
      cases h1
      exact hs h2

/-- What `twoSteps` leaves when it returns: the deposit of a quarter of the smoke when both
tiles exist, the second carries no smoke and the blockage from the first to the second is
zero, and nothing new otherwise. -/
theorem prepareNewTurn_twoSteps_spec (rules : TileRules) (i pos pos2 : Position)
    (st st2 : TurnState) (h : prepareNewTurn.twoSteps rules i pos pos2 st = .ok st2) :
    ((∃ t t2, st.save.getTile pos = some t ∧ st.save.getTile pos2 = some t2
        ∧ t2.getSmoke = 0
        ∧ horizontalBlockage st.save (some t) (some t2) ItemDamageType.DT_SMOKE = .ok 0)
      ∧ st2 = st.addSmoke rules pos2 ((st.save.tiles i).getSmoke.tdiv 4))
    ∨ ((¬ ∃ t t2, st.save.getTile pos = some t ∧ st.save.getTile pos2 = some t2
        ∧ t2.getSmoke = 0
        ∧ horizontalBlockage st.save (some t) (some t2) ItemDamageType.DT_SMOKE = .ok 0)
      ∧ st2 = st) := by
  unfold prepareNewTurn.twoSteps at h
  dsimp only at h
  cases ht : st.save.getTile pos with
  | none =>
    rw [ht] at h
    exact Or.inr ⟨(by rintro ⟨t, t2, h1, -⟩; cases h1), (Except.ok.inj h).symm⟩
  | some t =>
    cases ht2 : st.save.getTile pos2 with
    | none =>
      rw [ht, ht2] at h
      exact Or.inr ⟨(by rintro ⟨t, t2, -, h1, -⟩; cases h1), (Except.ok.inj h).symm⟩
    | some t2 =>
      rw [ht, ht2] at h
      dsimp only at h
      by_cases hs : t2.getSmoke = 0
      · rw [if_pos hs] at h
        cases hb : horizontalBlockage st.save (some t) (some t2)
            ItemDamageType.DT_SMOKE with
        | error e => rw [hb] at h; cases h
        | ok block =>
          rw [hb] at h
          dsimp only at h
          by_cases h0 : block = 0
          · rw [if_pos h0] at h
            subst h0
            exact Or.inl ⟨⟨t, t2, rfl, rfl, hs, hb⟩, (Except.ok.inj h).symm⟩
          · rw [if_neg h0] at h
            refine Or.inr ⟨?_, (Except.ok.inj h).symm⟩
            rintro ⟨u, u2, h1, h2, -, h3⟩
            cases h1
            cases h2
            rw [hb] at h3
            exact h0 (Except.ok.inj h3)
      · rw [if_neg hs] at h
        refine Or.inr ⟨?_, (Except.ok.inj h).symm⟩
        rintro ⟨u, u2, -, h2, h3, -⟩
        cases h2
        exact hs h3

/-- The deposit one step along the drift returns when the blockage it asks for does. -/
theorem prepareNewTurn_oneStep_returns (rules : TileRules) (i pos : Position)
    (st : TurnState)
    (hret : ∀ t, st.save.getTile pos = some t → t.getSmoke = 0 →
      ∃ b, horizontalBlockage st.save (some (st.save.tiles i)) (some t)
        ItemDamageType.DT_SMOKE = .ok b) :
    ∃ st1, prepareNewTurn.oneStep rules i pos st = .ok st1 := by
  unfold prepareNewTurn.oneStep
  dsimp only
  cases ht : st.save.getTile pos with
  | none => exact ⟨_, rfl⟩
  | some t =>
    dsimp only
    by_cases hs : t.getSmoke = 0
    · rw [if_pos hs]
      obtain ⟨b, hb⟩ := hret t ht hs
      rw [hb]
      dsimp only
      split_ifs <;> exact ⟨_, rfl⟩
    · rw [if_neg hs]
      exact ⟨_, rfl⟩

/-- The deposit two steps along the drift returns when the blockage it asks for does. -/
theorem prepareNewTurn_twoSteps_returns (rules : TileRules) (i pos pos2 : Position)
    (st : TurnState)
    (hret : ∀ t t2, st.save.getTile pos = some t → st.save.getTile pos2 = some t2 →
      t2.getSmoke = 0 →
      ∃ b, horizontalBlockage st.save (some t) (some t2) ItemDamageType.DT_SMOKE = .ok b) :
    ∃ st2, prepareNewTurn.twoSteps rules i pos pos2 st = .ok st2 := by
  unfold prepareNewTurn.twoSteps
  dsimp only
  cases ht : st.save.getTile pos with
  | none => exact ⟨_, rfl⟩
  | some t =>
    cases ht2 : st.save.getTile pos2 with
    | none => exact ⟨_, rfl⟩
    | some t2 =>
      dsimp only
      by_cases hs : t2.getSmoke = 0
      · rw [if_pos hs]
        obtain ⟨b, hb⟩ := hret t t2 ht ht2 hs
        rw [hb]
        dsimp only
        split_ifs <;> exact ⟨_, rfl⟩
      · rw [if_neg hs]
        exact ⟨_, rfl⟩

/-- The deposit one level up always returns. -/
theorem prepareNewTurn_oneUp_returns (rules : TileRules) (i pos : Position)
    (st : TurnState) : ∃ st3, prepareNewTurn.oneUp rules i pos st = .ok st3 := by
  unfold prepareNewTurn.oneUp
  dsimp only
  cases ht : st.save.getTile pos with
  | none => exact ⟨_, rfl⟩
  | some t =>
    dsimp only
    obtain ⟨v, hv, -⟩ := verticalBlockage_returns st.save (some (st.save.tiles i)) (some t)
      ItemDamageType.DT_SMOKE
    rw [hv]
    dsimp only
    split_ifs <;> exact ⟨_, rfl⟩

/-- Between two tiles one step of a drift apart, the drift not being (0, 0),
`horizontalBlockage` returns. -/
theorem horizontalBlockage_drift_returns (save : SavedBattleGame) (s e : Tile)
    (type : ItemDamageType) (spreadX spreadY : Int)
    (hx : spreadX = -1 ∨ spreadX = 0 ∨ spreadX = 1)
    (hy : spreadY = -1 ∨ spreadY = 0 ∨ spreadY = 1)
    (hne : ¬ (spreadX = 0 ∧ spreadY = 0))
    (hdx : e.getPosition.x - s.getPosition.x = spreadX)
    (hdy : e.getPosition.y - s.getPosition.y = spreadY) :
    ∃ b, horizontalBlockage save (some s) (some e) type = .ok b := by
  have hd : ∃ d, vectorToDirection (e.getPosition - s.getPosition) = .ok d := by
    rw [vectorToDirection_eq]
    simp only [position_sub_x, position_sub_y, hdx, hdy]
    rcases hx with rfl | rfl | rfl <;> rcases hy with rfl | rfl | rfl <;> simp at hne ⊢
  obtain ⟨d, hd⟩ := hd
  exact ⟨_, horizontalBlockage_of_direction save s e type d hd⟩

/-- The grid keeps each tile at its own position after a deposit of smoke, when the
deposit leaves the position of the tile alone. -/
theorem turnState_addSmoke_grid (rules : TileRules) (st : TurnState) (pos : Position)
    (smoke : Int) (hgrid : ∀ q, (st.save.tiles q).getPosition = q)
    (hkeep : ∀ t n, (rules.addSmoke t n).getPosition = t.getPosition) :
    ∀ q, ((st.addSmoke rules pos smoke).save.tiles q).getPosition = q := by
  intro q
  show (if q = pos then rules.addSmoke (st.save.tiles q) smoke
    else st.save.tiles q).getPosition = q
  split_ifs
  · rw [hkeep, hgrid]
  · exact hgrid q

/-- A tile found by `getTile` at a position is the tile stored there. -/
theorem getTile_eq_some (save : SavedBattleGame) (pos : Position) (t : Tile)
    (h : save.getTile pos = some t) : t = save.tiles pos := by
  have h2 := getTile_of_isSome save pos (by rw [h]; rfl)
  rw [h] at h2
  exact Option.some.inj h2

/-- C23, amended: the body of the smoke loop of `prepareNewTurn` for the smoky tile stored
at `i`, with the drift `(spreadX, spreadY)`. When it returns, it has made, in this order,
the deposit one step along the drift, the deposit two steps along the drift and the
deposit one level up, and then the decay of the source. Half the smoke of the source is
deposited on the tile one step along the drift exactly when that tile exists, carries no
smoke and the smoke-type horizontal blockage from the source to it is zero. A quarter of
the smoke is deposited on the tile two steps along the drift exactly when the one-step
tile and the two-step tile both exist, the two-step tile carries no smoke and the
smoke-type horizontal blockage from the one-step tile to the two-step tile is zero,
whatever the blockage from the source to the one-step tile is. The body returns on a grid
whose tiles know their position, with a deposit that leaves the position of a tile alone
and a drift of steps in -1..1, when the source carries smoke or the drift is not (0, 0).
The smoke loop of `prepareNewTurn` runs this body, with the two first draws of the
generator as the drift, over the smoky tiles in the order of the tile array. -/
theorem prepareNewTurn_smoke_deposits (rules : TileRules) (spreadX spreadY : Int)
    (i : Position) (st : TurnState) :
    (∀ st', prepareNewTurn.smokeTile rules spreadX spreadY i st = .ok st' →
      ∃ st1 st2 st3,
        prepareNewTurn.oneStep rules i
          ⟨(st.save.tiles i).getPosition.x + spreadX, (st.save.tiles i).getPosition.y + spreadY,
            (st.save.tiles i).getPosition.z⟩ (prepareNewTurn.stun (st.save.tiles i) st) = .ok st1
        ∧ (((∃ t, st.save.getTile
                ⟨(st.save.tiles i).getPosition.x + spreadX, (st.save.tiles i).getPosition.y + spreadY,
            (st.save.tiles i).getPosition.z⟩ = some t
              ∧ t.getSmoke = 0
              ∧ horizontalBlockage st.save (some (st.save.tiles i)) (some t)
                  ItemDamageType.DT_SMOKE = .ok 0)
            ∧ st1 = TurnState.addSmoke rules (prepareNewTurn.stun (st.save.tiles i) st)
                ⟨(st.save.tiles i).getPosition.x + spreadX, (st.save.tiles i).getPosition.y + spreadY,
            (st.save.tiles i).getPosition.z⟩
                ((st.save.tiles i).getSmoke.tdiv 2))
          ∨ ((¬ ∃ t, st.save.getTile
                ⟨(st.save.tiles i).getPosition.x + spreadX, (st.save.tiles i).getPosition.y + spreadY,
            (st.save.tiles i).getPosition.z⟩ = some t
              ∧ t.getSmoke = 0
              ∧ horizontalBlockage st.save (some (st.save.tiles i)) (some t)
                  ItemDamageType.DT_SMOKE = .ok 0)
            ∧ st1 = (prepareNewTurn.stun (st.save.tiles i) st)))
        ∧ prepareNewTurn.twoSteps rules i
          ⟨(st.save.tiles i).getPosition.x + spreadX, (st.save.tiles i).getPosition.y + spreadY,
            (st.save.tiles i).getPosition.z⟩
          ⟨(st.save.tiles i).getPosition.x + spreadX + spreadX,
            (st.save.tiles i).getPosition.y + spreadY + spreadY, (st.save.tiles i).getPosition.z⟩ st1 = .ok st2
        ∧ (((∃ t t2, st1.save.getTile
                ⟨(st.save.tiles i).getPosition.x + spreadX, (st.save.tiles i).getPosition.y + spreadY,
            (st.save.tiles i).getPosition.z⟩ = some t
              ∧ st1.save.getTile
                ⟨(st.save.tiles i).getPosition.x + spreadX + spreadX,
            (st.save.tiles i).getPosition.y + spreadY + spreadY, (st.save.tiles i).getPosition.z⟩ = some t2
              ∧ t2.getSmoke = 0
              ∧ horizontalBlockage st1.save (some t) (some t2) ItemDamageType.DT_SMOKE
                  = .ok 0)
            ∧ st2 = TurnState.addSmoke rules st1
                ⟨(st.save.tiles i).getPosition.x + spreadX + spreadX,
            (st.save.tiles i).getPosition.y + spreadY + spreadY, (st.save.tiles i).getPosition.z⟩
                ((st1.save.tiles i).getSmoke.tdiv 4))
          ∨ ((¬ ∃ t t2, st1.save.getTile
                ⟨(st.save.tiles i).getPosition.x + spreadX, (st.save.tiles i).getPosition.y + spreadY,
            (st.save.tiles i).getPosition.z⟩ = some t
              ∧ st1.save.getTile
                ⟨(st.save.tiles i).getPosition.x + spreadX + spreadX,
            (st.save.tiles i).getPosition.y + spreadY + spreadY, (st.save.tiles i).getPosition.z⟩ = some t2
              ∧ t2.getSmoke = 0
              ∧ horizontalBlockage st1.save (some t) (some t2) ItemDamageType.DT_SMOKE
                  = .ok 0)
            ∧ st2 = st1))
        ∧ prepareNewTurn.oneUp rules i
          ⟨(st.save.tiles i).getPosition.x, (st.save.tiles i).getPosition.y,
            (st.save.tiles i).getPosition.z + 1⟩ st2 = .ok st3
        ∧ st' = { st3 with save := st3.save.modifyTile i rules.prepareNewTurn })
    ∧ ((∀ q, (st.save.tiles q).getPosition = q) →
        (∀ t n, (rules.addSmoke t n).getPosition = t.getPosition) →
        (spreadX = -1 ∨ spreadX = 0 ∨ spreadX = 1) →
        (spreadY = -1 ∨ spreadY = 0 ∨ spreadY = 1) →
        ((st.save.tiles i).getSmoke ≠ 0 ∨ ¬ (spreadX = 0 ∧ spreadY = 0)) →
        ∃ st', prepareNewTurn.smokeTile rules spreadX spreadY i st = .ok st')
    ∧ (∀ accumulate rng save st', prepareNewTurn rules accumulate rng save = .ok st' →
        ∃ st0 st1,
          prepareNewTurn.each
            (prepareNewTurn.smokeTile rules (rng.generate (-1) 1 0) (rng.generate (-1) 1 1))
            (save.indexPositions.filter (fun p => decide ((save.tiles p).getSmoke > 0)))
            ⟨save, [], 2⟩ = .ok st0
          ∧ prepareNewTurn.each (prepareNewTurn.fireTile rules rng)
            (save.indexPositions.filter (fun p => decide ((save.tiles p).getFire > 0)))
            st0 = .ok st1
          ∧ st'.effects = st1.effects) := by
  have hsave := prepareNewTurn_stun_save (st.save.tiles i) st
  refine ⟨?_, ?_, ?_⟩
  · intro st' h
    unfold prepareNewTurn.smokeTile at h
    dsimp only at h
    cases h1 : prepareNewTurn.oneStep rules i
        ⟨(st.save.tiles i).getPosition.x + spreadX, (st.save.tiles i).getPosition.y + spreadY,
            (st.save.tiles i).getPosition.z⟩ (prepareNewTurn.stun (st.save.tiles i) st) with
    | error e => rw [h1] at h; cases h
    | ok st1 =>
      rw [h1] at h
      dsimp only at h
      cases h2 : prepareNewTurn.twoSteps rules i
          ⟨(st.save.tiles i).getPosition.x + spreadX, (st.save.tiles i).getPosition.y + spreadY,
            (st.save.tiles i).getPosition.z⟩
          ⟨(st.save.tiles i).getPosition.x + spreadX + spreadX,
            (st.save.tiles i).getPosition.y + spreadY + spreadY, (st.save.tiles i).getPosition.z⟩ st1 with
      | error e => rw [h2] at h; cases h
      | ok st2 =>
        rw [h2] at h
        dsimp only at h
        cases h3 : prepareNewTurn.oneUp rules i
            ⟨(st.save.tiles i).getPosition.x, (st.save.tiles i).getPosition.y,
            (st.save.tiles i).getPosition.z + 1⟩ st2 with
        | error e => rw [h3] at h; cases h
        | ok st3 =>
          rw [h3] at h
          have k1 := prepareNewTurn_oneStep_spec rules i _ _ _ h1
          rw [hsave] at k1
          exact ⟨st1, st2, st3, rfl, k1, h2, prepareNewTurn_twoSteps_spec rules i _ _ _ _ h2,
            h3, (Except.ok.inj h).symm⟩
  · intro hgrid hkeep hx hy hsmoky
    have hsrc : (st.save.tiles i).getPosition = i := hgrid i
    -- the deposit one step along the drift
    obtain ⟨st1, h1⟩ := prepareNewTurn_oneStep_returns rules i
      ⟨(st.save.tiles i).getPosition.x + spreadX, (st.save.tiles i).getPosition.y + spreadY,
            (st.save.tiles i).getPosition.z⟩ (prepareNewTurn.stun (st.save.tiles i) st) (by
        intro t ht hs
        rw [hsave] at ht ⊢
        have htile := getTile_eq_some _ _ _ ht
        by_cases hzero : spreadX = 0 ∧ spreadY = 0
        · exfalso
          have hp : (⟨(st.save.tiles i).getPosition.x + spreadX, (st.save.tiles i).getPosition.y + spreadY,
            (st.save.tiles i).getPosition.z⟩ : Position) = i := by
            rw [hzero.1, hzero.2]
            apply position_ext <;> simp [hsrc]
          rw [hp] at htile
          rw [htile] at hs
          exact hsmoky.elim (fun h => h hs) (fun h => h hzero)
        · apply horizontalBlockage_drift_returns _ _ _ _ spreadX spreadY hx hy hzero
          · rw [htile, hgrid]
            dsimp only
            omega
          · rw [htile, hgrid]
            dsimp only
            omega)
    have k1 := prepareNewTurn_oneStep_spec rules i _ _ _ h1
    rw [hsave] at k1
    have hgrid0 : ∀ q, ((prepareNewTurn.stun (st.save.tiles i) st).save.tiles q).getPosition = q := by
      rw [hsave]
      exact hgrid
    have hgrid1 : ∀ q, (st1.save.tiles q).getPosition = q := by
      rcases k1 with ⟨-, e⟩ | ⟨-, e⟩
      · rw [e]
        exact turnState_addSmoke_grid rules _ _ _ hgrid0 hkeep
      · rw [e]
        exact hgrid0
    -- the deposit two steps along the drift
    obtain ⟨st2, h2⟩ := prepareNewTurn_twoSteps_returns rules i
      ⟨(st.save.tiles i).getPosition.x + spreadX, (st.save.tiles i).getPosition.y + spreadY,
            (st.save.tiles i).getPosition.z⟩
      ⟨(st.save.tiles i).getPosition.x + spreadX + spreadX,
            (st.save.tiles i).getPosition.y + spreadY + spreadY, (st.save.tiles i).getPosition.z⟩ st1 (by
        intro t t2 ht ht2 hs
        have htile := getTile_eq_some _ _ _ ht
        have htile2 := getTile_eq_some _ _ _ ht2
        by_cases hzero : spreadX = 0 ∧ spreadY = 0
        · exfalso
          have hsm : (st.save.tiles i).getSmoke ≠ 0 :=
            hsmoky.elim id (fun h => absurd hzero h)
          have hp : (⟨(st.save.tiles i).getPosition.x + spreadX, (st.save.tiles i).getPosition.y + spreadY,
            (st.save.tiles i).getPosition.z⟩ : Position) = i := by
            rw [hzero.1, hzero.2]
            apply position_ext <;> simp [hsrc]
          have hp2 : (⟨(st.save.tiles i).getPosition.x + spreadX + spreadX,
            (st.save.tiles i).getPosition.y + spreadY + spreadY, (st.save.tiles i).getPosition.z⟩ : Position) = i := by
            rw [hzero.1, hzero.2]
            apply position_ext <;> simp [hsrc]
          have hst1 : st1 = (prepareNewTurn.stun (st.save.tiles i) st) := by
            rcases k1 with ⟨⟨u, hu, hus, -⟩, -⟩ | ⟨-, e⟩
            · exfalso
              rw [hp] at hu
              have := getTile_eq_some _ _ _ hu
              rw [this] at hus
              exact hsm hus
            · exact e
          rw [hp2] at htile2
          rw [htile2, hst1, hsave] at hs
          exact hsm hs
        · apply horizontalBlockage_drift_returns _ _ _ _ spreadX spreadY hx hy hzero
          · rw [htile, htile2, hgrid1, hgrid1]
            dsimp only
            omega
          · rw [htile, htile2, hgrid1, hgrid1]
            dsimp only
            omega)
    obtain ⟨st3, h3⟩ := prepareNewTurn_oneUp_returns rules i
      ⟨(st.save.tiles i).getPosition.x, (st.save.tiles i).getPosition.y,
            (st.save.tiles i).getPosition.z + 1⟩ st2
    unfold prepareNewTurn.smokeTile
    dsimp only
    rw [h1]
    dsimp only
    rw [h2]
    dsimp only
    rw [h3]
    exact ⟨_, rfl⟩
  · intro accumulate rng save st' h
    unfold prepareNewTurn at h
    dsimp only at h
    cases h1 : prepareNewTurn.each
        (prepareNewTurn.smokeTile rules (rng.generate (-1) 1 0) (rng.generate (-1) 1 1))
        (save.indexPositions.filter (fun p => decide ((save.tiles p).getSmoke > 0)))
        ⟨save, [], 2⟩ with
    | error e => rw [h1] at h; cases h
    | ok st0 =>
      rw [h1] at h
      dsimp only at h
      cases h2 : prepareNewTurn.each (prepareNewTurn.fireTile rules rng)
          (save.indexPositions.filter (fun p => decide ((save.tiles p).getFire > 0)))
          st0 with
      | error e => rw [h2] at h; cases h
      | ok st1 =>
        rw [h2] at h
        dsimp only at h
        refine ⟨st0, st1, rfl, h2, ?_⟩
        split_ifs at h
        · rw [← Except.ok.inj h]
        · rw [← Except.ok.inj h]

theorem prepareNewTurn_smoke_deposits_witness :
    (∃ st', prepareNewTurn.smokeTile sampleTileRules 1 0 ⟨0, 0, 0⟩ ⟨smokeWallBattle, [], 2⟩
      = .ok st')
    ∧ (prepareNewTurn.smokeTile sampleTileRules 1 0 ⟨0, 0, 0⟩ ⟨smokeWallBattle, [], 2⟩).map
        (fun st => st.effects) = .ok [Effect.addSmoke ⟨2, 0, 0⟩ 2]
    ∧ (smokeWallBattle.tiles ⟨0, 0, 0⟩).getSmoke = 8 :=
  ⟨(prepareNewTurn_smoke_deposits sampleTileRules 1 0 ⟨0, 0, 0⟩ ⟨smokeWallBattle, [], 2⟩).2.1
      (fun _ => rfl) (fun _ _ => rfl) (Or.inr (Or.inr rfl)) (Or.inr (Or.inl rfl))
      (Or.inl (by decide)),
    by decide, by decide⟩

/-! ## Lighting: the light a tile holds after `addLight` -/

/-- The light of a layer of the tile stored at `p`, after a list of offers each kept when
it is brighter than the light held: the offers made to `p` folded with `max`. -/
theorem addLight_fold_light (layer : Int) (p : Position) :
    ∀ (offers : List (Position × Int)) (save : SavedBattleGame),
      ((offers.foldl
          (fun s offer => s.modifyTile offer.1 (fun t => t.addLight max offer.2 layer))
          save).tiles p).light layer
        = offers.foldl (fun acc offer => if offer.1 = p then max acc offer.2 else acc)
            ((save.tiles p).light layer) := by
  intro offers
  induction offers with
  | nil => intro save; rfl
  | cons o rest ih =>
    intro save
    rw [List.foldl_cons, List.foldl_cons, ih]
    congr 1
    show (if p = o.1 then (save.tiles p).addLight max o.2 layer else save.tiles p).light layer
      = if o.1 = p then max ((save.tiles p).light layer) o.2 else (save.tiles p).light layer
    by_cases h : o.1 = p
    · rw [if_pos h.symm, if_pos h]
      show (if layer = layer then max ((save.tiles p).light layer) o.2
        else (save.tiles p).light layer) = _
      rw [if_pos rfl]
    · rw [if_neg (fun h2 => h h2.symm), if_neg h]

/-- Offers to `p` that all carry the value `c`, folded with `max` from `a`: `max a c` when
there is such an offer, `a` when there is none. -/
theorem addLight_fold_max (p : Position) (c : Int) :
    ∀ (offers : List (Position × Int)) (a : Int),
      (∀ o ∈ offers, o.1 = p → o.2 = c) →
      offers.foldl (fun acc offer => if offer.1 = p then max acc offer.2 else acc) a
        = if ∃ o ∈ offers, o.1 = p then max a c else a := by
  intro offers
  induction offers with
  | nil =>
    intro a _
    simp
  | cons o rest ih =>
    intro a hall
    rw [List.foldl_cons, ih _ (fun o2 ho2 => hall o2 (List.mem_cons_of_mem _ ho2))]
    by_cases h : o.1 = p
    · have hc : o.2 = c := hall o (List.mem_cons_self _ _) h
      have hex : ∃ o2 ∈ o :: rest, o2.1 = p := ⟨o, List.mem_cons_self _ _, h⟩
      rw [if_pos h, hc, if_pos hex]
      split_ifs
      · rw [max_assoc, max_self]
      · rfl
    · rw [if_neg h]
      have hiff : (∃ o2 ∈ o :: rest, o2.1 = p) ↔ ∃ o2 ∈ rest, o2.1 = p := by
        constructor
        · rintro ⟨o2, ho2, h2⟩
          rcases List.mem_cons.mp ho2 with rfl | ho2
          · exact absurd h2 h
          · exact ⟨o2, ho2, h2⟩
        · rintro ⟨o2, ho2, h2⟩
          exact ⟨o2, List.mem_cons_of_mem _ ho2, h2⟩
      by_cases hr : ∃ o2 ∈ rest, o2.1 = p
      · rw [if_pos hr, if_pos (hiff.mpr hr)]
      · rw [if_neg hr, if_neg (fun h2 => hr (hiff.mp h2))]

/-- The light a layer holds after `addLight` on a layer that was reset, with tiles that
keep the brightest light offered: inside the scanned square a tile of the grid holds the
power minus the rounded distance when that is positive and 0 otherwise; every other tile
holds 0. -/
theorem addLight_light_eq (save : SavedBattleGame) (center : Position) (power layer : Int)
    (hreset : ∀ pos, (save.tiles pos).light layer = 0) (p : Position) :
    ((addLight max save center power layer).tiles p).light layer
      = if (save.getTile p).isSome = true
            ∧ ((p.x - center.x).natAbs : Int) ≤ power ∧ ((p.y - center.y).natAbs : Int) ≤ power
        then max 0 (power - addLight.distance (p.x - center.x) (p.y - center.y))
        else 0 := by
  unfold addLight
  rw [addLight_fold_light, hreset,
    addLight_fold_max p (power - addLight.distance (p.x - center.x) (p.y - center.y))]
  · have hiff : (∃ o ∈ addLight.offers save center power, o.1 = p) ↔
        ((save.getTile p).isSome = true
          ∧ ((p.x - center.x).natAbs : Int) ≤ power
          ∧ ((p.y - center.y).natAbs : Int) ≤ power) := by
      constructor
      · rintro ⟨⟨q, v⟩, ho, rfl⟩
        have := (addLight_mem_offers save center power q v).mp ho
        exact ⟨this.1, this.2.1, this.2.2.1⟩
      · rintro ⟨h1, h2, h3⟩
        exact ⟨(p, power - addLight.distance (p.x - center.x) (p.y - center.y)),
          (addLight_mem_offers save center power p _).mpr ⟨h1, h2, h3, rfl⟩, rfl⟩
    by_cases h : ∃ o ∈ addLight.offers save center power, o.1 = p
    · rw [if_pos h, if_pos (hiff.mp h)]
    · rw [if_neg h, if_neg (fun h2 => h (hiff.mpr h2))]
  · rintro ⟨q, v⟩ ho rfl
    exact ((addLight_mem_offers save center power q v).mp ho).2.2.2

/-- The rounded distance is never negative. -/
theorem addLight_distance_nonneg (x y : Int) : 0 ≤ addLight.distance x y := by
  simp only [addLight.distance]
  exact Int.ofNat_nonneg _

/-- C15: for `addLight` with a source of power `P` (at most 1000, where the rounded
distance of the model is that of the code) at the tile `T` on a layer that was reset, with
tiles that keep the brightest light offered: the light a tile of the grid holds afterwards
is `max(0, P - round(sqrt(dx² + dy²)))` inside the scanned square and 0 outside it, on
every level alike; it is never negative, it is non-increasing in the horizontal Euclidean
distance from `T`, and it is exactly 0 for every tile at distance `P` or more. Every
offset scanned has `dx² + dy²` at most 2 000 000. -/
theorem addLight_falloff (save : SavedBattleGame) (center : Position) (power layer : Int)
    (hreset : ∀ pos, (save.tiles pos).light layer = 0) (hpower : power ≤ 1000) :
    (∀ p, ((addLight max save center power layer).tiles p).light layer
        = if (save.getTile p).isSome = true
              ∧ ((p.x - center.x).natAbs : Int) ≤ power
              ∧ ((p.y - center.y).natAbs : Int) ≤ power
          then max 0 (power - addLight.distance (p.x - center.x) (p.y - center.y))
          else 0)
    ∧ (∀ p, 0 ≤ ((addLight max save center power layer).tiles p).light layer)
    ∧ (∀ p q, (save.getTile p).isSome = true → (save.getTile q).isSome = true →
        (p.x - center.x) * (p.x - center.x) + (p.y - center.y) * (p.y - center.y)
          ≤ (q.x - center.x) * (q.x - center.x) + (q.y - center.y) * (q.y - center.y) →
        ((addLight max save center power layer).tiles q).light layer
          ≤ ((addLight max save center power layer).tiles p).light layer)
    ∧ (∀ p, power * power
          ≤ (p.x - center.x) * (p.x - center.x) + (p.y - center.y) * (p.y - center.y) →
        ((addLight max save center power layer).tiles p).light layer = 0)
    ∧ (∀ p q, p.x = q.x → p.y = q.y →
        (save.getTile p).isSome = true → (save.getTile q).isSome = true →
        ((addLight max save center power layer).tiles p).light layer
          = ((addLight max save center power layer).tiles q).light layer)
    ∧ (∀ o ∈ addLight.offers save center power,
        (o.1.x - center.x) * (o.1.x - center.x) + (o.1.y - center.y) * (o.1.y - center.y)
          ≤ 2000000) := by
  have heq := addLight_light_eq save center power layer hreset
  have hnn : ∀ p, 0 ≤ ((addLight max save center power layer).tiles p).light layer := by
    intro p
    rw [heq]
    split_ifs
    · exact le_max_left _ _
    · exact le_refl _
  have hzero : ∀ p, power * power
      ≤ (p.x - center.x) * (p.x - center.x) + (p.y - center.y) * (p.y - center.y) →
      ((addLight max save center power layer).tiles p).light layer = 0 := by
    intro p hp
    rw [heq]
    split_ifs
    · have := addLight_distance_ge (p.x - center.x) (p.y - center.y) power hp
      exact max_eq_left (by omega)
    · rfl
  refine ⟨heq, hnn, ?_, hzero, ?_, ?_⟩
  · intro p q hp hq hle
    by_cases hin : ((p.x - center.x).natAbs : Int) ≤ power
        ∧ ((p.y - center.y).natAbs : Int) ≤ power
    · rw [heq p, if_pos ⟨hp, hin⟩, heq q]
      have hmono := addLight_distance_mono _ _ _ _ hle
      split_ifs
      · exact max_le_max (le_refl _) (by omega)
      · exact le_max_left _ _
    · -- a tile outside the square lies farther than the power, and so does `q`
      have hq0 : ((addLight max save center power layer).tiles q).light layer = 0 := by
        by_cases hqin : ((q.x - center.x).natAbs : Int) ≤ power
            ∧ ((q.y - center.y).natAbs : Int) ≤ power
        · apply hzero
          have hpow : 0 ≤ power := le_trans (Int.ofNat_nonneg _) hqin.1
          have hx2 : (p.x - center.x) * (p.x - center.x)
              = ((p.x - center.x).natAbs : Int) * ((p.x - center.x).natAbs : Int) :=
            Int.natAbs_mul_self.symm
          have hy2 : (p.y - center.y) * (p.y - center.y)
              = ((p.y - center.y).natAbs : Int) * ((p.y - center.y).natAbs : Int) :=
            Int.natAbs_mul_self.symm
          have hxn : 0 ≤ (p.x - center.x) * (p.x - center.x) := mul_self_nonneg _
          have hyn : 0 ≤ (p.y - center.y) * (p.y - center.y) := mul_self_nonneg _
          have hout : power < ((p.x - center.x).natAbs : Int)
              ∨ power < ((p.y - center.y).natAbs : Int) := by
            by_contra hcon
            push_neg at hcon
            exact hin hcon
          have hbig : power * power
              ≤ (p.x - center.x) * (p.x - center.x) + (p.y - center.y) * (p.y - center.y) := by
            rcases hout with h | h
            · have := mul_le_mul (le_of_lt h) (le_of_lt h) hpow (Int.ofNat_nonneg _)
              rw [hx2]
              omega
            · have := mul_le_mul (le_of_lt h) (le_of_lt h) hpow (Int.ofNat_nonneg _)
              rw [hy2]
              omega
          exact le_trans hbig hle
        · rw [heq q, if_neg (fun h => hqin h.2)]
      rw [hq0]
      exact hnn p
  · intro p q hx hy hp hq
    rw [heq p, heq q, hx, hy, hp, hq]
  · rintro ⟨q, v⟩ ho
    obtain ⟨-, h1, h2, -⟩ := (addLight_mem_offers save center power q v).mp ho
    have hx2 : (q.x - center.x) * (q.x - center.x)
        = ((q.x - center.x).natAbs : Int) * ((q.x - center.x).natAbs : Int) :=
      Int.natAbs_mul_self.symm
    have hy2 : (q.y - center.y) * (q.y - center.y)
        = ((q.y - center.y).natAbs : Int) * ((q.y - center.y).natAbs : Int) :=
      Int.natAbs_mul_self.symm
    have k1 := mul_le_mul (le_trans h1 hpower) (le_trans h1 hpower) (Int.ofNat_nonneg _)
      (by decide : (0 : Int) ≤ 1000)
    have k2 := mul_le_mul (le_trans h2 hpower) (le_trans h2 hpower) (Int.ofNat_nonneg _)
      (by decide : (0 : Int) ≤ 1000)
    dsimp only
    rw [hx2, hy2]
    omega

theorem addLight_falloff_witness :
    ((addLight max (emptyBattle 5 5 1) ⟨2, 2, 0⟩ 2 0).tiles ⟨2, 2, 0⟩).light 0 = 2
    ∧ ((addLight max (emptyBattle 5 5 1) ⟨2, 2, 0⟩ 2 0).tiles ⟨3, 3, 0⟩).light 0 = 1
    ∧ ((addLight max (emptyBattle 5 5 1) ⟨2, 2, 0⟩ 2 0).tiles ⟨4, 2, 0⟩).light 0 = 0
    ∧ ((addLight max (emptyBattle 5 5 1) ⟨2, 2, 0⟩ 2 0).tiles ⟨4, 4, 0⟩).light 0 = 0
    ∧ (2, -1) ∈ (addLight.offers (emptyBattle 5 5 1) ⟨2, 2, 0⟩ 2).map
        (fun o => (o.1.x + o.1.y - 6, o.2))
    ∧ ∀ p, 0 ≤ ((addLight max (emptyBattle 5 5 1) ⟨2, 2, 0⟩ 2 0).tiles p).light 0 :=
  ⟨by decide, by decide, by decide, by decide, by decide,
    (addLight_falloff (emptyBattle 5 5 1) ⟨2, 2, 0⟩ 2 0 (fun _ => rfl) (by decide)).2.1⟩

end OpenXcom
